import Mathlib

/-!
# Personal Expense Tracker: backend handlers, shallow embedding

The database collections are lists of documents in natural (insertion) order.
Identifiers are ObjectIds (natural numbers; the text of a route parameter is cast
to one, and the cast may fail), dates are JavaScript time values (milliseconds
since the epoch, integers) and amounts are integers: the rounding of the Number
type is not part of the model, and the theorems below state no property of a sum
of amounts, apart from sample values that the Number type adds exactly.

What the code leaves to its environment is a parameter of the embedding: the error
a database call throws (`fault`, `none` when the database answers), so that the
`catch` branches are part of the embedding; the order in which the database
returns the documents of a sorted query (`QuerySort`); the local time zone of the
runtime (`TimeZone`); and the library functions (`jwt.verify`, `bcrypt`, the casts
of Mongoose, `toLowerCase`, `toUpperCase`, `toString` of large numbers).
-/

namespace ExpenseTracker

/-! ## Data model (`models/Expense.js`, `models/Income.js`, `models/User.js`) -/

/-- A well-formed ObjectId. -/
abbrev ObjectId := Nat

/-- A thrown JavaScript error: `error.name`, `error.message` and, on errors of the
MongoDB server, `error.code`. -/
structure JsError where
  name : String
  message : String
  code : Option Nat
  deriving DecidableEq

/-- Document of `expenseSchema`, with the `timestamps` fields. -/
structure Expense where
  _id : ObjectId
  userId : ObjectId
  icon : Option String
  category : String
  amount : Int
  date : Int
  createdAt : Int
  updatedAt : Int
  deriving DecidableEq

/-- Document of `incomeSchema`, with the `timestamps` fields. -/
structure Income where
  _id : ObjectId
  userId : ObjectId
  icon : Option String
  source : String
  amount : Int
  date : Int
  createdAt : Int
  updatedAt : Int
  deriving DecidableEq

/-- The fields the handlers read from either kind of transaction document. -/
class Document (α : Type) where
  _id : α → ObjectId
  userId : α → ObjectId
  amount : α → Int
  date : α → Int

instance : Document Expense := ⟨Expense._id, Expense.userId, Expense.amount, Expense.date⟩

instance : Document Income := ⟨Income._id, Income.userId, Income.amount, Income.date⟩

/-- The two transaction collections. -/
structure Db where
  incomes : List Income
  expenses : List Expense
  deriving DecidableEq

/-! ## Mongoose queries -/

/-- A database call: throws the driver's error when there is one. -/
def dbCall {β : Type} (fault : Option JsError) (answer : β) : Except JsError β :=
  match fault with
  | some e => .error e
  | none => .ok answer

/-- Insert `a` into a list sorted by `key` descending, after the elements with a
strictly larger key and before every element with a key `≤` its own. -/
def insertDesc {α : Type} (key : α → Int) (a : α) : List α → List α
  | [] => [a]
  | b :: l => if key b ≤ key a then a :: b :: l else b :: insertDesc key a l

/-- Stable sort by `key` descending: `Array.prototype.sort((a, b) => b.date - a.date)`
of the JavaScript runtime, which keeps elements of equal key in their order. -/
def sortDesc {α : Type} (key : α → Int) : List α → List α
  | [] => []
  | a :: l => insertDesc key a (sortDesc key l)

/-- What the database does with `.sort({ date: -1 })` on a query: `sort key docs` is
the order in which the server returns the matching documents `docs` (given in
natural order).  MongoDB returns all of them with the keys descending and promises
nothing about the order of documents of equal key. -/
structure QuerySort where
  sort : {α : Type} → (α → Int) → List α → List α
  perm : ∀ {α : Type} (key : α → Int) (docs : List α), (sort key docs).Perm docs
  sorted : ∀ {α : Type} (key : α → Int) (docs : List α),
    (sort key docs).Pairwise (fun a b => key b ≤ key a)

/-- Query `Model.find({ userId })`: the documents owned by `userId`, in natural order. -/
def findByUser {α : Type} [Document α] (docs : List α) (userId : ObjectId) : List α :=
  docs.filter (fun d => Document.userId d == userId)

/-- Pipeline `Model.aggregate([{ $match: { userId } }, { $group: { _id: null, total: { $sum: "$amount" } } }])`:
no group when nothing matches, otherwise one group carrying the sum (the sum of
the integers here, without the rounding of `$sum` over the Number type). -/
def aggregateTotal {α : Type} [Document α] (docs : List α) (userId : ObjectId) : List Int :=
  match findByUser docs userId with
  | [] => []
  | d :: ds => [((d :: ds).map Document.amount).sum]

/-- The expression `result[0]?.total || 0`: 0 for no group and for a falsy total. -/
def totalOrZero (result : List Int) : Int :=
  match result[0]? with
  | none => 0
  | some total => if total = 0 then 0 else total

/-- Query `Model.find({ userId, date: { $gte } })`. -/
def findSince {α : Type} [Document α] (docs : List α) (userId : ObjectId) (gte : Int) : List α :=
  docs.filter (fun d => Document.userId d == userId && decide (gte ≤ Document.date d))

/-- Query `Model.find({ userId, date: { $gte, $lte } })`. -/
def findBetween {α : Type} [Document α] (docs : List α) (userId : ObjectId) (gte lte : Int) :
    List α :=
  docs.filter (fun d => Document.userId d == userId && decide (gte ≤ Document.date d)
    && decide (Document.date d ≤ lte))

/-- Query `Model.findById(id)`: the document with that `_id`, if any. -/
def findById {α : Type} [Document α] (docs : List α) (id : ObjectId) : Option α :=
  docs.find? (fun d => Document._id d == id)

/-- Call `Model.findByIdAndDelete(id)`: the collection without the document found. -/
def findByIdAndDelete {α : Type} [Document α] (docs : List α) (id : ObjectId) : List α :=
  docs.eraseP (fun d => Document._id d == id)

/-! ## Responses -/

/-- A JSON body: the payload of a success, `{ message }`, or the
`{ message, error: error.message }` of a `catch` branch. -/
inductive Body (α : Type) where
  | data (payload : α)
  | message (message : String)
  | failure (message : String) (error : String)
  deriving DecidableEq

/-- What a handler sends: `res.status(status).json(body)`. -/
structure Response (α : Type) where
  status : Nat
  body : Body α
  deriving DecidableEq

/-! ## Dates (`Date` in the local time zone of the runtime) -/

/-- Milliseconds in a day, `24 * 60 * 60 * 1000`. -/
def msPerDay : Int := 24 * 60 * 60 * 1000

/-- The local time zone of a runtime, as the `Date` methods use it: `localTime t` is
the local time value LocalTime(t) at the instant `t` (the instant plus the offset in
force then) and `utc x` is UTC(x), the instant that the local time value `x` stands
for (the one the runtime picks when `x` occurs twice or is skipped by a change of
offset). -/
structure TimeZone where
  localTime : Int → Int
  utc : Int → Int

/-- Date after `d.setDate(d.getDate() - days)`: the local time value moves back by
`days` calendar days, the local time of day is kept. -/
def setDateBack (zone : TimeZone) (t : Int) (days : Int) : Int :=
  zone.utc (zone.localTime t - days * msPerDay)

/-- Date after `d.setHours(h, m, s, ms)`: the given local time on the local calendar
day of `t`. -/
def setHours (zone : TimeZone) (t : Int) (h m s ms : Int) : Int :=
  zone.utc (zone.localTime t - zone.localTime t % msPerDay
    + (((h * 60 + m) * 60 + s) * 1000 + ms))

/-! ## Dashboard (`controllers/dashboardController.js`) -/

/-- The object `{ ...transaction.toObject(), type }`. -/
structure Tagged (α : Type) where
  doc : α
  type : String
  deriving DecidableEq

/-- A window of the dashboard: `{ total, transactions }`. -/
structure Window (α : Type) where
  total : Int
  transactions : List α
  deriving DecidableEq

/-- The body of the dashboard response. -/
structure DashboardSummary where
  totalBalance : Int
  totalIncome : Int
  totalExpense : Int
  last30DaysExpense : Window (Tagged Expense)
  last60DaysIncome : Window Income
  lastTransactions : List (Tagged (Income ⊕ Expense))
  allExpenses : List (Tagged Expense)
  deriving DecidableEq

/-- The `date` field of an item of the merged recent list. -/
def feedDate (t : Tagged (Income ⊕ Expense)) : Int :=
  match t.doc with
  | .inl i => i.date
  | .inr e => e.date

/-- Handler `getDashboardData` for the authenticated user `userId`.  The clock reads of one
request (`Date.now()` and the two `new Date()`) are taken at the same instant `now`;
`zone` is the server's local time zone and `dbSort` the order in which the database
returns sorted queries. -/
def getDashboardData (dbSort : QuerySort) (fault : Option JsError) (zone : TimeZone)
    (now : Int) (db : Db) (userId : ObjectId) : Response DashboardSummary :=
  let attempt : Except JsError DashboardSummary := do
    let totalIncomeResult ← dbCall fault (aggregateTotal db.incomes userId)
    let totalExpenseResult ← dbCall fault (aggregateTotal db.expenses userId)
    let last60DaysIncomeTransactions ← dbCall fault
      (dbSort.sort Income.date (findSince db.incomes userId (now - 60 * 24 * 60 * 60 * 1000)))
    let last60DaysIncomeTotal :=
      last60DaysIncomeTransactions.foldl (fun sum transaction => sum + transaction.amount) 0
    let thirtyDaysAgo := setHours zone (setDateBack zone now 30) 0 0 0 0
    let today := setHours zone now 23 59 59 999
    let last30DaysExpenseTransactions := (← dbCall fault
      (dbSort.sort Expense.date (findBetween db.expenses userId thirtyDaysAgo today))).map
        (fun transaction => (⟨transaction, "expense"⟩ : Tagged Expense))
    let last30DaysExpenseTotal :=
      last30DaysExpenseTransactions.foldl (fun sum transaction => sum + transaction.doc.amount) 0
    let recentIncomeTransactions := (← dbCall fault
      ((dbSort.sort Income.date (findByUser db.incomes userId)).take 5)).map
        (fun transaction => (⟨Sum.inl transaction, "income"⟩ : Tagged (Income ⊕ Expense)))
    let recentExpenseTransactions := (← dbCall fault
      ((dbSort.sort Expense.date (findByUser db.expenses userId)).take 5)).map
        (fun transaction => (⟨Sum.inr transaction, "expense"⟩ : Tagged (Income ⊕ Expense)))
    let recentTransactions :=
      sortDesc feedDate (recentIncomeTransactions ++ recentExpenseTransactions)
    let allExpenses := (← dbCall fault
      (dbSort.sort Expense.date (findByUser db.expenses userId))).map
        (fun transaction => (⟨transaction, "expense"⟩ : Tagged Expense))
    pure {
      totalBalance := totalOrZero totalIncomeResult - totalOrZero totalExpenseResult
      totalIncome := totalOrZero totalIncomeResult
      totalExpense := totalOrZero totalExpenseResult
      last30DaysExpense := ⟨last30DaysExpenseTotal, last30DaysExpenseTransactions⟩
      last60DaysIncome := ⟨last60DaysIncomeTotal, last60DaysIncomeTransactions⟩
      lastTransactions := recentTransactions
      allExpenses := allExpenses }
  match attempt with
  | .ok summary => ⟨200, .data summary⟩
  | .error error => ⟨500, .failure "Server error" error.message⟩

/-! ## Expense and income handlers (`controllers/expenseController.js`, `incomeController.js`) -/

/-- Handler `getAllExpense`: the user's expenses, most recent first. -/
def getAllExpense (dbSort : QuerySort) (fault : Option JsError) (db : Db)
    (userId : ObjectId) : Response (List Expense) :=
  match dbCall fault (dbSort.sort Expense.date (findByUser db.expenses userId)) with
  | .ok expenses => ⟨200, .data expenses⟩
  | .error error => ⟨500, .failure "Server error" error.message⟩

/-- Handler `getAllIncome`: the user's income records, most recent first. -/
def getAllIncome (dbSort : QuerySort) (fault : Option JsError) (db : Db)
    (userId : ObjectId) : Response (List Income) :=
  match dbCall fault (dbSort.sort Income.date (findByUser db.incomes userId)) with
  | .ok income => ⟨200, .data income⟩
  | .error error => ⟨500, .failure "Server error" error.message⟩

/-- Handler `deleteExpense` for a route parameter that is the well-formed ObjectId
`id`: the store afterwards and the response. -/
def deleteExpense (fault : Option JsError) (db : Db) (id userId : ObjectId) :
    Db × Response Unit :=
  match dbCall fault (findById db.expenses id) with
  | .error error => (db, ⟨500, .failure "Server error" error.message⟩)
  | .ok none => (db, ⟨404, .message "Expense not found"⟩)
  | .ok (some expense) =>
    if expense.userId ≠ userId then
      (db, ⟨403, .message "Not authorized to delete this expense"⟩)
    else
      match dbCall fault (findByIdAndDelete db.expenses id) with
      | .error error => (db, ⟨500, .failure "Server error" error.message⟩)
      | .ok expenses =>
        ({ db with expenses := expenses }, ⟨200, .message "Expense deleted successfully"⟩)

/-- Handler `deleteIncome` for a route parameter that is the well-formed ObjectId
`id`: the store afterwards and the response. -/
def deleteIncome (fault : Option JsError) (db : Db) (id userId : ObjectId) :
    Db × Response Unit :=
  match dbCall fault (findById db.incomes id) with
  | .error error => (db, ⟨500, .failure "Server error" error.message⟩)
  | .ok none => (db, ⟨404, .message "Income not found"⟩)
  | .ok (some income) =>
    if income.userId ≠ userId then
      (db, ⟨403, .message "Not authorized to delete this income"⟩)
    else
      match dbCall fault (findByIdAndDelete db.incomes id) with
      | .error error => (db, ⟨500, .failure "Server error" error.message⟩)
      | .ok incomes =>
        ({ db with incomes := incomes }, ⟨200, .message "Income deleted successfully"⟩)

/-- The route `DELETE /expense/:id` on the text `id` of the route parameter.
`findById` first casts the text to an ObjectId (`castObjectId` is that cast of the
Mongoose library, `none` when the text is not a well-formed id): a failed cast
throws a CastError, which the `catch` of `deleteExpense` answers, and a well-formed
id goes through the handler as above. -/
def deleteExpenseRoute (castObjectId : String → Option ObjectId) (fault : Option JsError)
    (db : Db) (id : String) (userId : ObjectId) : Db × Response Unit :=
  match castObjectId id with
  | none =>
    (db, ⟨500, .failure "Server error" ("Cast to ObjectId failed for value \"" ++ id
      ++ "\" (type string) at path \"_id\" for model \"Expense\"")⟩)
  | some oid => deleteExpense fault db oid userId

/-- The route `DELETE /income/:id` on the text `id` of the route parameter. -/
def deleteIncomeRoute (castObjectId : String → Option ObjectId) (fault : Option JsError)
    (db : Db) (id : String) (userId : ObjectId) : Db × Response Unit :=
  match castObjectId id with
  | none =>
    (db, ⟨500, .failure "Server error" ("Cast to ObjectId failed for value \"" ++ id
      ++ "\" (type string) at path \"_id\" for model \"Income\"")⟩)
  | some oid => deleteIncome fault db oid userId

/-- A row of the expense sheet. -/
structure ExpenseRow where
  Category : String
  Amount : Int
  Date : String
  deriving DecidableEq

/-- A row of the income sheet. -/
structure IncomeRow where
  Source : String
  Amount : Int
  Date : String
  deriving DecidableEq

/-- The `excelData` rows that `downloadExpenseExcel` hands to the workbook builder;
`toLocaleDateString` is the runtime's date formatter. -/
def downloadExpenseExcelData (dbSort : QuerySort) (toLocaleDateString : Int → String)
    (fault : Option JsError) (db : Db) (userId : ObjectId) :
    Except JsError (List ExpenseRow) := do
  let expenses ← dbCall fault (dbSort.sort Expense.date (findByUser db.expenses userId))
  pure (expenses.map (fun expense =>
    { Category := expense.category, Amount := expense.amount,
      Date := toLocaleDateString expense.date }))

/-- The `excelData` rows that `downloadIncomeExcel` hands to the workbook builder. -/
def downloadIncomeExcelData (dbSort : QuerySort) (toLocaleDateString : Int → String)
    (fault : Option JsError) (db : Db) (userId : ObjectId) :
    Except JsError (List IncomeRow) := do
  let income ← dbCall fault (dbSort.sort Income.date (findByUser db.incomes userId))
  pure (income.map (fun item =>
    { Source := item.source, Amount := item.amount,
      Date := toLocaleDateString item.date }))

/-! ## Authentication middleware (`middleware/authMiddleware.js`) -/

/-- Document of `userSchema`; `password` is `none` once projected away by
`.select('-password')`. -/
structure User where
  _id : ObjectId
  fullName : String
  email : String
  password : Option String
  profileImageUrl : Option String
  createdAt : Int
  updatedAt : Int
  deriving DecidableEq

/-- The payload `jwt.verify` returns for a token signed by `generateAuthToken`. -/
structure JwtPayload where
  id : ObjectId
  iat : Int
  exp : Int
  deriving DecidableEq

/-- JavaScript `s.split(' ')` on the characters of `s`: cut at every single space, empty
pieces kept. -/
def splitOnSpace : List Char → List (List Char)
  | [] => [[]]
  | c :: cs =>
    match splitOnSpace cs with
    | [] => [[c]]
    | w :: ws => if c = ' ' then [] :: w :: ws else (c :: w) :: ws

/-- The `token` variable of `protect` after the header has been read
(`none` is `undefined`). -/
def extractToken (authorization : Option String) : Option String :=
  match authorization with
  | none => none
  | some header =>
    if header ≠ "" ∧ "Bearer".toList.isPrefixOf header.toList = true then
      (splitOnSpace header.toList)[1]?.map String.mk
    else none

/-- Query `User.findById(id).select('-password')`. -/
def findUserById (users : List User) (id : ObjectId) : Option User :=
  (users.find? (fun u => u._id == id)).map (fun u => { u with password := none })

/-- What `protect` does with a request: hand it to the next handler with
`req.user` set, or answer it. -/
inductive Guarded where
  | next (user : User)
  | respond (status : Nat) (message : String)
  deriving DecidableEq

/-- The middleware `protect`; `jwtVerify token secret` is `jwt.verify` of the
jsonwebtoken library (at the instant of the request), `JWT_SECRET` the server
secret and `authorization` the request header. -/
def protect (jwtVerify : String → String → Except JsError JwtPayload) (JWT_SECRET : String)
    (fault : Option JsError) (users : List User) (authorization : Option String) : Guarded :=
  match extractToken authorization with
  | none => .respond 401 "Not authorized, no token provided"
  | some token =>
    if token = "" then .respond 401 "Not authorized, no token provided"
    else
      let attempt : Except JsError (Option User) := do
        let decoded ← jwtVerify token JWT_SECRET
        dbCall fault (findUserById users decoded.id)
      match attempt with
      | .ok none => .respond 401 "Not authorized, user not found"
      | .ok (some user) => .next user
      | .error error =>
        if error.name = "TokenExpiredError" then .respond 401 "Token expired"
        else if error.name = "JsonWebTokenError" then .respond 401 "Invalid token"
        else .respond 401 "Not authorized, token verification failed"

/-! ## Adding a transaction (`addExpense`, `addIncome` and the schema validation) -/

/-- White space in the sense of `String.prototype.trim`. -/
def isJsWhitespace (c : Char) : Bool :=
  let n := c.toNat
  n == 9 || n == 10 || n == 11 || n == 12 || n == 13 || n == 32 || n == 160 || n == 5760
    || (decide (8192 ≤ n) && decide (n ≤ 8202)) || n == 8232 || n == 8233 || n == 8239
    || n == 8287 || n == 12288 || n == 65279

/-- JavaScript `s.trim()`, the setter of a schema path with `trim: true`. -/
def trim (s : String) : String :=
  String.mk ((((s.toList.dropWhile isJsWhitespace).reverse).dropWhile isJsWhitespace).reverse)

/-- The `amount` of a request body: absent, a JSON number or a JSON string. -/
inductive AmountField where
  | absent
  | number (n : Int)
  | text (s : String)
  deriving DecidableEq

/-- Body of `POST /expense/add`; `none` is an absent field. -/
structure ExpenseBody where
  icon : Option String
  category : Option String
  amount : AmountField
  date : Option String
  deriving DecidableEq

/-- Body of `POST /income/add`; `none` is an absent field. -/
structure IncomeBody where
  icon : Option String
  source : Option String
  amount : AmountField
  date : Option String
  deriving DecidableEq

/-- JavaScript `!field` for an optional string: absent or empty. -/
def missing (field : Option String) : Bool :=
  match field with
  | none => true
  | some s => s == ""

/-- JavaScript `!amount`: absent, the number 0 or the empty string. -/
def missingAmount (amount : AmountField) : Bool :=
  match amount with
  | .absent => true
  | .number n => n == 0
  | .text s => s == ""

/-- Mongoose cast of the body's amount to the `Number` path; `castNumber` is the
library's cast of a string, `none` when it fails. -/
def castAmount (castNumber : String → Option Int) (amount : AmountField) : Option Int :=
  match amount with
  | .absent => none
  | .number n => some n
  | .text s => castNumber s

/-- Validation of a transaction document on `save()`: the label (`category` or
`source`, `required`, after its `trim` setter) is non-empty, the amount casts to a
number (`required`) that is at least 0 (`min: 0`) and the date is a valid date
(`required`).  Gives the label, amount and date stored, or the `ValidationError`
thrown (its message abbreviated). -/
def validateTransaction (model : String) (label : String) (amount : Option Int)
    (date : Option Int) : Except JsError (String × Int × Int) :=
  match amount, date with
  | some a, some d =>
    if trim label ≠ "" ∧ 0 ≤ a then .ok (trim label, a, d)
    else .error ⟨"ValidationError", model ++ " validation failed", none⟩
  | _, _ => .error ⟨"ValidationError", model ++ " validation failed", none⟩

/-- The success body of `addExpense`: `{ message, expense }`. -/
structure AddedExpense where
  message : String
  expense : Expense
  deriving DecidableEq

/-- The success body of `addIncome`: `{ message, income }`. -/
structure AddedIncome where
  message : String
  income : Income
  deriving DecidableEq

/-- Handler `addExpense`: the store afterwards and the response.  `parseDate` is
`new Date(date)` (`none` for an invalid date), `newId` the `_id` the new document
gets and `now` the instant of its timestamps. -/
def addExpense (castNumber parseDate : String → Option Int) (fault : Option JsError)
    (newId : ObjectId) (now : Int) (db : Db) (userId : ObjectId) (body : ExpenseBody) :
    Db × Response AddedExpense :=
  if missing body.category || missingAmount body.amount || missing body.date then
    (db, ⟨400, .message "All fields are required"⟩)
  else
    let attempt : Except JsError (List Expense × Expense) := do
      let (category, amount, date) ← validateTransaction "Expense" (body.category.getD "")
        (castAmount castNumber body.amount) (parseDate (body.date.getD ""))
      let newExpense : Expense :=
        { _id := newId, userId := userId, icon := body.icon, category := category,
          amount := amount, date := date, createdAt := now, updatedAt := now }
      let expenses ← dbCall fault (db.expenses ++ [newExpense])
      pure (expenses, newExpense)
    match attempt with
    | .ok (expenses, newExpense) =>
      ({ db with expenses := expenses },
        ⟨201, .data ⟨"Expense added successfully", newExpense⟩⟩)
    | .error error => (db, ⟨500, .failure "Server error" error.message⟩)

/-- Handler `addIncome`: the store afterwards and the response. -/
def addIncome (castNumber parseDate : String → Option Int) (fault : Option JsError)
    (newId : ObjectId) (now : Int) (db : Db) (userId : ObjectId) (body : IncomeBody) :
    Db × Response AddedIncome :=
  if missing body.source || missingAmount body.amount || missing body.date then
    (db, ⟨400, .message "All fields are required"⟩)
  else
    let attempt : Except JsError (List Income × Income) := do
      let (source, amount, date) ← validateTransaction "Income" (body.source.getD "")
        (castAmount castNumber body.amount) (parseDate (body.date.getD ""))
      let newIncome : Income :=
        { _id := newId, userId := userId, icon := body.icon, source := source,
          amount := amount, date := date, createdAt := now, updatedAt := now }
      let incomes ← dbCall fault (db.incomes ++ [newIncome])
      pure (incomes, newIncome)
    match attempt with
    | .ok (incomes, newIncome) =>
      ({ db with incomes := incomes },
        ⟨201, .data ⟨"Income added successfully", newIncome⟩⟩)
    | .error error => (db, ⟨500, .failure "Server error" error.message⟩)

/-- A mutating request on the transaction store, with what the environment
supplies it (driver fault, fresh id, clock). -/
inductive Request where
  | addExpense (fault : Option JsError) (newId : ObjectId) (now : Int) (userId : ObjectId)
      (body : ExpenseBody)
  | addIncome (fault : Option JsError) (newId : ObjectId) (now : Int) (userId : ObjectId)
      (body : IncomeBody)
  | deleteExpense (fault : Option JsError) (id userId : ObjectId)
  | deleteIncome (fault : Option JsError) (id userId : ObjectId)

/-- The store after one request. -/
def step (castNumber parseDate : String → Option Int) (db : Db) : Request → Db
  | .addExpense fault newId now userId body =>
    (addExpense castNumber parseDate fault newId now db userId body).1
  | .addIncome fault newId now userId body =>
    (addIncome castNumber parseDate fault newId now db userId body).1
  | .deleteExpense fault id userId => (deleteExpense fault db id userId).1
  | .deleteIncome fault id userId => (deleteIncome fault db id userId).1

/-- The store after a sequence of requests. -/
def run (castNumber parseDate : String → Option Int) (db : Db) (requests : List Request) : Db :=
  requests.foldl (step castNumber parseDate) db

/-! ## Accounts (`controllers/authController.js` and the hooks of `models/User.js`) -/

/-- The value `userSchema` stores for an email: `lowercase: true`, `trim: true`.
`toLowerCase` is `String.prototype.toLowerCase` of the runtime, which maps the
letters of every script. -/
def normalizeEmail (toLowerCase : String → String) (email : String) : String :=
  trim (toLowerCase email)

/-- Body of `POST /auth/register`; `none` is an absent field. -/
structure RegisterBody where
  fullName : Option String
  email : Option String
  password : Option String
  profileImageUrl : Option String
  deriving DecidableEq

/-- Body of `POST /auth/login`; `none` is an absent field. -/
structure LoginBody where
  email : Option String
  password : Option String
  deriving DecidableEq

/-- The `user` object of the register and login responses. -/
structure SafeUser where
  id : ObjectId
  fullName : String
  email : String
  profileImageUrl : Option String
  deriving DecidableEq

/-- The success body of register and login: `{ user, token }`. -/
structure AuthPayload where
  user : SafeUser
  token : String
  deriving DecidableEq

/-- Query `User.findOne({ email })`.  `runSettersOnQuery` says whether Mongoose
applies the setters of the path (`lowercase`, `trim`) to the filter, as it does
from version 5 on. -/
def findOneByEmail (toLowerCase : String → String) (runSettersOnQuery : Bool)
    (users : List User) (email : String) : Option User :=
  users.find? (fun u =>
    u.email == (if runSettersOnQuery then normalizeEmail toLowerCase email else email))

/-- Call `User.create({ fullName, email, password, profileImageUrl })`: the setters,
the `required` validation, the pre-save hook hashing the password (`hash` is
`bcrypt.hash(_, 10)`), then the insert, which the unique index on `email` rejects
with code 11000 when the email is already stored.  Gives the collection afterwards
and the new document. -/
def createUser (toLowerCase : String → String) (hash : String → String)
    (fault : Option JsError) (newId : ObjectId) (now : Int) (users : List User)
    (fullName email password : String) (profileImageUrl : Option String) :
    Except JsError (List User × User) :=
  if trim fullName = "" ∨ normalizeEmail toLowerCase email = "" ∨ password = "" then
    .error ⟨"ValidationError", "User validation failed", none⟩
  else
    let newUser : User :=
      { _id := newId, fullName := trim fullName, email := normalizeEmail toLowerCase email,
        password := some (hash password), profileImageUrl := profileImageUrl,
        createdAt := now, updatedAt := now }
    match fault with
    | some error => .error error
    | none =>
      if users.any (fun u => u.email == newUser.email) then
        .error ⟨"MongoServerError", "E11000 duplicate key error", some 11000⟩
      else .ok (users ++ [newUser], newUser)

/-- Handler `registerUser`: the credential store afterwards and the response.
`jwtSign id secret` is `jwt.sign({ id }, secret, { expiresIn: "24h" })`. -/
def registerUser (toLowerCase : String → String) (runSettersOnQuery : Bool)
    (hash : String → String) (jwtSign : ObjectId → String → String) (JWT_SECRET : String)
    (fault : Option JsError) (newId : ObjectId) (now : Int) (users : List User)
    (body : RegisterBody) : List User × Response AuthPayload :=
  if missing body.fullName || missing body.email || missing body.password then
    (users, ⟨400, .message "Please provide all required fields"⟩)
  else
    let attempt : Except JsError (List User × Response AuthPayload) := do
      let existingUser ← dbCall fault
        (findOneByEmail toLowerCase runSettersOnQuery users (body.email.getD ""))
      match existingUser with
      | some _ => pure (users, ⟨400, .message "User already exists"⟩)
      | none =>
        let (users', newUser) ← createUser toLowerCase hash fault newId now users
          (body.fullName.getD "")
          (body.email.getD "") (body.password.getD "") body.profileImageUrl
        pure (users', ⟨201, .data
          { user := { id := newUser._id, fullName := newUser.fullName, email := newUser.email,
                      profileImageUrl := newUser.profileImageUrl }
            token := jwtSign newUser._id JWT_SECRET }⟩)
    match attempt with
    | .ok result => result
    | .error error =>
      if error.code = some 11000 then (users, ⟨400, .message "Email already registered"⟩)
      else (users, ⟨500, .message "Registration failed"⟩)

/-- Method `user.comparePassword(candidatePassword)`: `bcrypt.compare` (the
parameter `compare`) against the stored hash; it throws when there is no hash. -/
def comparePassword (compare : String → String → Bool) (user : User)
    (candidatePassword : String) : Except JsError Bool :=
  match user.password with
  | some hashed => .ok (compare candidatePassword hashed)
  | none => .error ⟨"Error", "Illegal arguments: string, undefined", none⟩

/-- Handler `loginUser`. -/
def loginUser (toLowerCase : String → String) (runSettersOnQuery : Bool)
    (compare : String → String → Bool) (jwtSign : ObjectId → String → String)
    (JWT_SECRET : String) (fault : Option JsError) (users : List User) (body : LoginBody) :
    Response AuthPayload :=
  if missing body.email || missing body.password then
    ⟨400, .message "All fields are required"⟩
  else
    let attempt : Except JsError (Response AuthPayload) := do
      let user ← dbCall fault
        (findOneByEmail toLowerCase runSettersOnQuery users (body.email.getD ""))
      match user with
      | none => pure ⟨400, .message "Invalid credentials"⟩
      | some user =>
        let isPasswordValid ← comparePassword compare user (body.password.getD "")
        if !isPasswordValid then pure ⟨400, .message "Invalid credentials"⟩
        else pure ⟨200, .data
          { user := { id := user._id, fullName := user.fullName, email := user.email,
                      profileImageUrl := user.profileImageUrl }
            token := jwtSign user._id JWT_SECRET }⟩
    match attempt with
    | .ok response => response
    | .error _ => ⟨500, .message "Login failed"⟩

/-- Handler `getUserInfo` for the user `reqUser` that `protect` attached to the
request. -/
def getUserInfo (fault : Option JsError) (users : List User) (reqUser : User) :
    Response User :=
  match dbCall fault (findUserById users reqUser._id) with
  | .ok none => ⟨404, .message "User not found"⟩
  | .ok (some user) => ⟨200, .data user⟩
  | .error _ => ⟨500, .message "Error getting user info"⟩

/-! ## Spreadsheet download (`downloadExpenseExcel`, `downloadIncomeExcel`) -/

/-- Handler `downloadExpenseExcel`: the workbook buffer (`xlsxWrite` stands for the
xlsx library building and serialising the sheet of the rows), sent with the
default status 200, or the answer of the `catch`.  The download headers are left
out. -/
def downloadExpenseExcel (dbSort : QuerySort) (toLocaleDateString : Int → String)
    (xlsxWrite : List ExpenseRow → List Nat) (fault : Option JsError) (db : Db)
    (userId : ObjectId) : Response (List Nat) :=
  match downloadExpenseExcelData dbSort toLocaleDateString fault db userId with
  | .ok excelData => ⟨200, .data (xlsxWrite excelData)⟩
  | .error error => ⟨500, .failure "Server error" error.message⟩

/-- Handler `downloadIncomeExcel`. -/
def downloadIncomeExcel (dbSort : QuerySort) (toLocaleDateString : Int → String)
    (xlsxWrite : List IncomeRow → List Nat) (fault : Option JsError) (db : Db)
    (userId : ObjectId) : Response (List Nat) :=
  match downloadIncomeExcelData dbSort toLocaleDateString fault db userId with
  | .ok excelData => ⟨200, .data (xlsxWrite excelData)⟩
  | .error error => ⟨500, .failure "Server error" error.message⟩

/-! ## Image upload route (`routes/authRoutes.js`, `middleware/uploadMiddleware.js`) -/

/-- The file part of a multipart request. -/
structure UploadedFile where
  originalname : String
  mimetype : String
  deriving DecidableEq

/-- A request to `POST /auth/upload-image`. -/
structure UploadRequest where
  authorization : Option String
  protocol : String
  host : String
  file : Option UploadedFile
  deriving DecidableEq

/-- The `fileFilter` of the multer instance: only these MIME types pass.
`file.mimetype` is the type as multer reports it, in lower case. -/
def fileFilter (file : UploadedFile) : Bool :=
  ["image/jpeg", "image/png", "image/jpg"].contains file.mimetype

/-- What the route did: the status and JSON body sent (`imageUrl` or `message`)
and the name of the file written under `uploads/`, if one was. -/
structure UploadOutcome where
  status : Nat
  imageUrl : Option String
  message : Option String
  saved : Option String
  deriving DecidableEq

/-- A middleware or handler mounted on the upload route. -/
inductive UploadStep where
  | protect
  | uploadSingle
  | sendImageUrl
  deriving DecidableEq

/-- Express running the chain of a route on a request: `protect` as defined above,
`upload.single('image')` (disk storage under the name `<Date.now()>-<originalname>`,
`timestamp` being the text of `Date.now()`; a rejected file goes to the default
error handler), and the inline handler answering with the image URL.  `filename`
is `req.file.filename` once a file has been stored. -/
def runUploadChain (jwtVerify : String → String → Except JsError JwtPayload)
    (JWT_SECRET : String) (fault : Option JsError) (users : List User) (timestamp : String)
    (req : UploadRequest) : List UploadStep → Option String → UploadOutcome
  | [], filename => ⟨404, none, none, filename⟩
  | .protect :: rest, filename =>
    match protect jwtVerify JWT_SECRET fault users req.authorization with
    | .next _ => runUploadChain jwtVerify JWT_SECRET fault users timestamp req rest filename
    | .respond status message => ⟨status, none, some message, filename⟩
  | .uploadSingle :: rest, _ =>
    match req.file with
    | none => runUploadChain jwtVerify JWT_SECRET fault users timestamp req rest none
    | some file =>
      if fileFilter file then
        runUploadChain jwtVerify JWT_SECRET fault users timestamp req rest
          (some (timestamp ++ "-" ++ file.originalname))
      else ⟨500, none, some "Invalid file type. Only JPEG, PNG, and JPG are allowed.", none⟩
  | .sendImageUrl :: _, filename =>
    match filename with
    | none => ⟨400, none, some "No file uploaded", none⟩
    | some name =>
      ⟨200, some (req.protocol ++ "://" ++ req.host ++ "/uploads/" ++ name), none, some name⟩

/-- The chain mounted by `router.post('/upload-image', upload.single('image'), handler)`. -/
def uploadImageChain : List UploadStep := [.uploadSingle, .sendImageUrl]

/-- The route `POST /auth/upload-image`. -/
def uploadImageRoute (jwtVerify : String → String → Except JsError JwtPayload)
    (JWT_SECRET : String) (fault : Option JsError) (users : List User) (timestamp : String)
    (req : UploadRequest) : UploadOutcome :=
  runUploadChain jwtVerify JWT_SECRET fault users timestamp req uploadImageChain none

/-! ## Client helpers (`frontend/expense-tracker/src/utils/helper.js`) -/

/-- JavaScript `s.split(sep)` on the characters of `s`, for a one-character
separator: cut at every separator, empty pieces kept. -/
def splitOnChar (sep : Char) : List Char → List (List Char)
  | [] => [[]]
  | c :: cs =>
    match splitOnChar sep cs with
    | [] => [[c]]
    | w :: ws => if c = sep then [] :: w :: ws else (c :: w) :: ws

/-- The expression `word.charAt(0).toUpperCase()`: nothing for an empty word.
`toUpperCase c` is the text that `String.prototype.toUpperCase` of the runtime
gives for the one-character text `c`; it maps the letters of every script and may
have more than one character.  A character is a UTF-16 code unit of the text,
for which `Char` stands. -/
def firstUpper (toUpperCase : Char → List Char) (word : List Char) : List Char :=
  match word with
  | [] => []
  | c :: _ => toUpperCase c

/-- Helper `getInitials`; `none` is an absent name. -/
def getInitials (toUpperCase : Char → List Char) (fullName : Option String) : String :=
  match fullName with
  | none => "U"
  | some name =>
    if name = "" then "U"
    else
      let words := splitOnChar ' ' name.toList
      let initials := firstUpper toUpperCase (words.headD [])
      String.mk (words.tail.foldl
        (fun initials word =>
          if word.length > 0 ∧ initials.length < 2 then
            initials ++ firstUpper toUpperCase word
          else initials)
        initials)

/-- The initials as the specification words them: the upper-cased first character
of the first space-separated word followed by the upper-cased first character of
the first later non-empty word, if any. -/
def initialsAsSpecified (toUpperCase : Char → List Char) (name : String) : String :=
  let words := splitOnChar ' ' name.toList
  String.mk (firstUpper toUpperCase (words.headD []) ++
    match words.tail.find? (fun word => decide (word ≠ [])) with
    | none => []
    | some word => firstUpper toUpperCase word)

/-- The text `n.toString()` of the Number that the non-negative integer `n` denotes:
the decimal digits of `n` while `n ≤ 2^53` (up to there every integer is a Number
and is printed digit by digit); beyond, the text `beyond n` of the runtime, the
shortest digits that read back as the nearest Number, in exponent notation from
`10^21` on. -/
def numberToString (beyond : Nat → String) (n : Nat) : String :=
  if n ≤ 2 ^ 53 then String.mk (Nat.toDigits 10 n) else beyond n

/-- The argument of `addThousandSeparators`: `null`, `undefined`, or a value
given by what `isNaN` says of it and by its `toString()` text. -/
inductive NumberArg where
  | null
  | undefined
  | value (isNaN : Bool) (text : String)
  deriving DecidableEq

/-- The class `\w` of a regular expression. -/
def isWordChar (c : Char) : Bool :=
  c.isAlphanum || c == '_'

/-- Length of the run of digits (`\d`) at the start of a text. -/
def digitRun : List Char → Nat
  | [] => 0
  | c :: cs => if c.isDigit then digitRun cs + 1 else 0

/-- The lookahead `(?=(\d{3})+(?!\d))` at the start of `rest`: some positive
number of groups of three digits and then no digit, which is to say that the run
of digits there has a positive length divisible by 3. -/
def groupsOfThreeAhead (rest : List Char) : Bool :=
  decide (0 < digitRun rest) && decide (digitRun rest % 3 = 0)

/-- The assertion `\B` between `prev` (`none` at the start of the text) and
`rest`: the two sides are both word characters or both not. -/
def notWordBoundary (prev : Option Char) (rest : List Char) : Bool :=
  (match prev with
    | none => false
    | some c => isWordChar c)
  == (match rest with
    | [] => false
    | c :: _ => isWordChar c)

/-- The call `text.replace(/\B(?=(\d{3})+(?!\d))/g, ',')`: a comma at every
position of the text where the pattern matches; `prev` is the character before
the text. -/
def insertCommas (prev : Option Char) : List Char → List Char
  | [] => []
  | c :: cs =>
    (if notWordBoundary prev (c :: cs) && groupsOfThreeAhead (c :: cs) then [','] else [])
      ++ c :: insertCommas (some c) cs

/-- Helper `addThousandSeparators`. -/
def addThousandSeparators (number : NumberArg) : String :=
  match number with
  | .null => ""
  | .undefined => ""
  | .value isNaN text =>
    if isNaN then ""
    else
      let parts := splitOnChar '.' text.toList
      let integerPart := parts.headD []
      let formattedInteger := insertCommas none integerPart
      match parts[1]? with
      | none => String.mk formattedInteger
      | some fractionalPart =>
        if fractionalPart = [] then String.mk formattedInteger
        else String.mk (formattedInteger ++ '.' :: fractionalPart)

/-- The pattern `[^\s@]`. -/
def notSpaceNorAt (c : Char) : Bool :=
  !isJsWhitespace c && c != '@'

/-- A regular expression `[class]+` followed by `next`, matched with backtracking:
one or more characters of the class, then `next` on what follows. -/
def matchPlus (cls : Char → Bool) (next : List Char → Bool) : List Char → Bool
  | [] => false
  | c :: cs => cls c && (next cs || matchPlus cls next cs)

/-- A literal character followed by `next`. -/
def matchChar (ch : Char) (next : List Char → Bool) : List Char → Bool
  | [] => false
  | c :: cs => c == ch && next cs

/-- The anchor `$`. -/
def matchEnd : List Char → Bool
  | [] => true
  | _ :: _ => false

/-- Helper `validateEmail`: `/^[^\s@]+@[^\s@]+\.[^\s@]+$/.test(email)`. -/
def validateEmail (email : String) : Bool :=
  matchPlus notSpaceNorAt
    (matchChar '@' (matchPlus notSpaceNorAt (matchChar '.' (matchPlus notSpaceNorAt matchEnd))))
    email.toList

/-! ## Client components (`components/Dashboard/RecentTransactions.jsx`, `ExpensesList.jsx`) -/

/-- The items `RecentTransactions` renders: `transactions.slice(0, 5)`. -/
def recentTransactionsShown (transactions : List (Tagged (Income ⊕ Expense))) :
    List (Tagged (Income ⊕ Expense)) :=
  transactions.take 5

/-- The `recentExpenses` of `ExpensesList` mounted at the instant `now` in a browser
whose local time zone is `zone`: the expenses dated at or after the cutoff
`moment().subtract(30, 'days')`, newest first.  The moment library subtracts days
on the local date, as `setDate` does. -/
def recentExpenses (zone : TimeZone) (now : Int) (expenses : List (Tagged Expense)) :
    List (Tagged Expense) :=
  let cutoff := setDateBack zone now 30
  sortDesc (fun expense => expense.doc.date)
    (expenses.filter (fun expense => decide (cutoff ≤ expense.doc.date)))

/-- The `totalExpenses` of `ExpensesList`; `expense.amount || 0` is the amount. -/
def totalExpenses (zone : TimeZone) (now : Int) (expenses : List (Tagged Expense)) : Int :=
  if (recentExpenses zone now expenses).length > 0 then
    (recentExpenses zone now expenses).foldl (fun sum expense => sum + expense.doc.amount) 0
  else 0

/-- The rows `ExpensesList` renders: `recentExpenses.slice(0, 4)`. -/
def expensesShown (zone : TimeZone) (now : Int) (expenses : List (Tagged Expense)) :
    List (Tagged Expense) :=
  (recentExpenses zone now expenses).take 4

/-! ## Calendar notions used to state the windows -/

/-- Index of the local calendar day that contains the instant `t`. -/
def localDay (zone : TimeZone) (t : Int) : Int := zone.localTime t / msPerDay

/-- The instant of 00:00:00.000 local time on local day `day`. -/
def startOfLocalDay (zone : TimeZone) (day : Int) : Int := zone.utc (day * msPerDay)

/-- The instant of 23:59:59.999 local time on local day `day`. -/
def endOfLocalDay (zone : TimeZone) (day : Int) : Int :=
  zone.utc (day * msPerDay + (((23 * 60 + 59) * 60 + 59) * 1000 + 999))

/-! ## Sample databases, time zones and stores -/

/-- A time zone whose offset from UTC never changes: local time is `tz` ms ahead. -/
def fixedOffset (tz : Int) : TimeZone :=
  ⟨fun t => t + tz, fun x => x - tz⟩

/-- A database that arranges the matching documents by `arrange` and then sorts
them stably: among documents of equal date the order is that of `arrange`. -/
def sortArranged (arrange : {α : Type} → List α → List α)
    (harrange : ∀ {α : Type} (docs : List α), (arrange docs).Perm docs) : QuerySort where
  sort := fun key docs => sortDesc key (arrange docs)
  perm := by
    intro α key docs
    have hins : ∀ (a : α) (l : List α), (insertDesc key a l).Perm (a :: l) := by
      intro a l
      induction l with
      | nil => exact List.Perm.refl _
      | cons b l ih =>
        unfold insertDesc
        split
        · exact List.Perm.refl _
        · exact (List.Perm.cons b ih).trans (List.Perm.swap a b l)
    have hsort : ∀ l : List α, (sortDesc key l).Perm l := by
      intro l
      induction l with
      | nil => exact List.Perm.refl _
      | cons a l ih => exact (hins a _).trans (List.Perm.cons a ih)
    exact (hsort _).trans (harrange docs)
  sorted := by
    intro α key docs
    have hins : ∀ (a : α) (l : List α), (insertDesc key a l).Perm (a :: l) := by
      intro a l
      induction l with
      | nil => exact List.Perm.refl _
      | cons b l ih =>
        unfold insertDesc
        split
        · exact List.Perm.refl _
        · exact (List.Perm.cons b ih).trans (List.Perm.swap a b l)
    have hsorted : ∀ (a : α) (l : List α), l.Pairwise (fun x y => key y ≤ key x) →
        (insertDesc key a l).Pairwise (fun x y => key y ≤ key x) := by
      intro a l
      induction l with
      | nil =>
        intro _
        simp [insertDesc]
      | cons b l ih =>
        intro h
        unfold insertDesc
        rw [List.pairwise_cons] at h
        split
        · rename_i hba
          refine List.pairwise_cons.mpr ⟨?_, List.pairwise_cons.mpr h⟩
          intro y hy
          rcases List.mem_cons.mp hy with rfl | hy
          · exact hba
          · exact le_trans (h.1 y hy) hba
        · rename_i hba
          refine List.pairwise_cons.mpr ⟨?_, ih h.2⟩
          intro y hy
          rcases List.mem_cons.mp ((hins a l).mem_iff.mp hy) with rfl | hy
          · omega
          · exact h.1 y hy
    have hsort : ∀ l : List α, (sortDesc key l).Pairwise (fun x y => key y ≤ key x) := by
      intro l
      induction l with
      | nil => exact List.Pairwise.nil
      | cons a l ih => exact hsorted a _ ih
    exact hsort _

/-- A database whose sorted queries keep documents of equal date in natural order. -/
def stableSort : QuerySort :=
  sortArranged (fun docs => docs) (fun docs => List.Perm.refl docs)

/-- A database whose sorted queries keep documents of equal date in natural order
when an even number of documents match and in reverse natural order otherwise. -/
def paritySort : QuerySort :=
  sortArranged (fun docs => if docs.length % 2 = 0 then docs else docs.reverse)
    (fun docs => by
      by_cases h : docs.length % 2 = 0
      · simp only [h, if_true]
        exact List.Perm.refl docs
      · simp only [h, if_false]
        exact List.reverse_perm docs)

/-- The value of a hexadecimal digit. -/
def hexValue (c : Char) : Option Nat :=
  if c.isDigit then some (c.toNat - 48)
  else if 97 ≤ c.toNat ∧ c.toNat ≤ 102 then some (c.toNat - 87)
  else if 65 ≤ c.toNat ∧ c.toNat ≤ 70 then some (c.toNat - 55)
  else none

/-- A cast to ObjectId that accepts the texts of 24 hexadecimal digits and reads
them as a number. -/
def sampleCastObjectId (s : String) : Option ObjectId :=
  if s.length = 24 then
    s.toList.foldl
      (fun acc c => acc.bind (fun n => (hexValue c).map (fun v => 16 * n + v))) (some 0)
  else none

/-- A database whose sorted queries return documents of equal date in reverse
natural order. -/
def reverseSort : QuerySort :=
  sortArranged (fun docs => docs.reverse) (fun docs => List.reverse_perm docs)

/-- Coordinated universal time as the local time zone. -/
def utcZone : TimeZone := fixedOffset 0

/-- Central European time around the change of 31 March 2024: one hour ahead of UTC
before 01:00 UTC of that day and two hours ahead from then on; the local times from
02:00 to 03:00 of that day are skipped and read with the offset before the change. -/
def sampleZone : TimeZone :=
  ⟨fun t => if t < 1711846800000 then t + 3600000 else t + 7200000,
    fun x => if x < 1711854000000 then x - 3600000 else x - 7200000⟩

/-- Two users, 7 and 8: user 7 has one income and one expense record. -/
def sampleDb : Db :=
  { incomes := [⟨3, 7, none, "Salary", 20, 1500, 0, 0⟩, ⟨4, 8, none, "Gift", 5, 1700, 0, 0⟩]
    expenses := [⟨1, 7, none, "Food", 50, 1000, 0, 0⟩, ⟨2, 8, none, "Rent", 70, 2000, 0, 0⟩] }

/-- The records of user 7 as in `sampleDb`, other records for user 8 and a user 9. -/
def sampleDbOthers : Db :=
  { incomes := [⟨5, 9, none, "Bonus", 900, 1500, 0, 0⟩, ⟨3, 7, none, "Salary", 20, 1500, 0, 0⟩]
    expenses := [⟨1, 7, none, "Food", 50, 1000, 0, 0⟩, ⟨6, 8, none, "Car", 1, 1000, 0, 0⟩,
      ⟨8, 9, none, "Food", 3, 2500, 0, 0⟩] }

/-- A date parser that knows one date, 2024-01-01 (UTC midnight). -/
def sampleParseDate : String → Option Int :=
  fun s => if s = "2024-01-01" then some 1704067200000 else none

/-- Four requests on `sampleDb`: a valid expense, an income with a negative
amount, and two deletions asked by user 8. -/
def sampleRequests : List Request :=
  [.addExpense none 10 5 7 ⟨none, some "Food", .number 50, some "2024-01-01"⟩,
   .addIncome none 11 6 7 ⟨none, some "Salary", .number (-5), some "2024-01-01"⟩,
   .deleteExpense none 2 8,
   .deleteIncome none 3 8]

/-- Upper-casing of a character as the sample names need it: `ß` gives `SS`, the
ASCII letters their capitals. -/
def sampleToUpperCase (c : Char) : List Char :=
  if c = 'ß' then ['S', 'S'] else [c.toUpper]

/-- The texts of `toString()` beyond `2^53` that the samples need: `1e+21` for
`10^21`. -/
def sampleBeyond (n : Nat) : String :=
  if n = 10 ^ 21 then "1e+21" else ""

/-- Lower-casing of the ASCII letters, the part of `String.prototype.toLowerCase`
that the sample emails need. -/
def toLowerCaseAscii (s : String) : String :=
  String.mk (s.toList.map Char.toLower)

/-- A stand-in for `bcrypt.hash`: the password behind a mark. -/
def sampleHash : String → String :=
  fun password => "#" ++ password

/-- A stand-in for `jwt.sign`: the secret behind a mark. -/
def sampleSign : ObjectId → String → String :=
  fun _ secret => "token." ++ secret

/-- The registration of the scenario: `a@x.com` with password `pw12345678`. -/
def sampleRegisterBody : RegisterBody :=
  ⟨some "Ann", some "a@x.com", some "pw12345678", none⟩

/-- The credential store after `a@x.com` has registered. -/
def sampleUsers : List User :=
  [⟨1, "Ann", "a@x.com", some "#pw12345678", none, 0, 0⟩]

/-- A `jwt.verify` that accepts no token. -/
def sampleVerifyNone : String → String → Except JsError JwtPayload :=
  fun _ _ => .error ⟨"JsonWebTokenError", "jwt malformed", none⟩

/-- A `jwt.verify` that accepts the token `abc` under the secret `s`, with a payload
naming user 1, and rejects every other token. -/
def sampleVerify : String → String → Except JsError JwtPayload :=
  fun token secret =>
    if token = "abc" ∧ secret = "s" then .ok ⟨1, 0, 86400⟩
    else .error ⟨"JsonWebTokenError", "invalid signature", none⟩

/-- An upload of `a.png` that carries no Authorization header. -/
def sampleUploadRequest : UploadRequest :=
  ⟨none, "http", "localhost:8000", some ⟨"a.png", "image/png"⟩⟩

/-- User 7 has an expense dated day 1 at 10:00 and one dated day 31 at 12:00 (UTC,
days counted from the epoch). -/
def sampleDbWindow : Db :=
  { incomes := []
    expenses := [⟨1, 7, none, "Rent", 70, 122400000, 0, 0⟩,
      ⟨2, 7, none, "Food", 20, 2721600000, 0, 0⟩] }

/-- User 7 has four expenses around the bounds of the window of 15 April 2024 in
`sampleZone`: 15 March 23:30 and 16 March 00:00 local winter time, 15 April
23:59:59.999 and 16 April 00:00 local summer time. -/
def sampleDbSpring : Db :=
  { incomes := []
    expenses := [⟨1, 7, none, "Rent", 70, 1710541800000, 0, 0⟩,
      ⟨2, 7, none, "Food", 20, 1710543600000, 0, 0⟩,
      ⟨3, 7, none, "Fuel", 30, 1713218399999, 0, 0⟩,
      ⟨4, 7, none, "Gift", 40, 1713218400000, 0, 0⟩] }

/-- The instant 15 April 2024 at 10:00 UTC, 12:00 local time in `sampleZone`. -/
def sampleSpringNow : Int := 1713175200000

/-- User 7 has two income records and two expenses of one date, 2000, and an older
expense. -/
def sampleDbTies : Db :=
  { incomes := [⟨11, 7, none, "Salary", 20, 2000, 0, 0⟩, ⟨12, 7, none, "Gift", 5, 2000, 0, 0⟩]
    expenses := [⟨1, 7, none, "Food", 50, 2000, 0, 0⟩, ⟨2, 7, none, "Rent", 70, 2000, 0, 0⟩,
      ⟨3, 7, none, "Fuel", 30, 1000, 0, 0⟩] }

/-- User 7 has two expenses of one date, day 31 at 12:00, and an expense dated
before the window of `sampleNow`. -/
def sampleDbTiesWindow : Db :=
  { incomes := []
    expenses := [⟨1, 7, none, "Food", 50, 2721600000, 0, 0⟩,
      ⟨2, 7, none, "Rent", 70, 2721600000, 0, 0⟩,
      ⟨3, 7, none, "Fuel", 30, 1000, 0, 0⟩] }

/-- User 7 has six income records dated 1 to 6 and one expense dated 10. -/
def sampleDbRecent : Db :=
  { incomes := [⟨1, 7, none, "A", 1, 1, 0, 0⟩, ⟨2, 7, none, "B", 1, 2, 0, 0⟩,
      ⟨3, 7, none, "C", 1, 3, 0, 0⟩, ⟨4, 7, none, "D", 1, 4, 0, 0⟩,
      ⟨5, 7, none, "E", 1, 5, 0, 0⟩, ⟨6, 7, none, "F", 1, 6, 0, 0⟩]
    expenses := [⟨7, 7, none, "G", 1, 10, 0, 0⟩] }

/-- The instant day 31 at 15:00 (UTC). -/
def sampleNow : Int := 2732400000

/-- A Number cast that knows one text, `0`. -/
def sampleCastNumber : String → Option Int :=
  fun s => if s = "0" then some 0 else none

/-! ## Lemmas on the queries -/

theorem insertDesc_perm {α : Type} (key : α → Int) (a : α) (l : List α) :
    (insertDesc key a l).Perm (a :: l) := by
  induction l with
  | nil => exact List.Perm.refl _
  | cons b l ih =>
    unfold insertDesc
    split
    · exact List.Perm.refl _
    · exact (List.Perm.cons b ih).trans (List.Perm.swap a b l)

theorem sortDesc_perm {α : Type} (key : α → Int) (l : List α) : (sortDesc key l).Perm l := by
  induction l with
  | nil => exact List.Perm.refl _
  | cons a l ih => exact (insertDesc_perm key a _).trans (List.Perm.cons a ih)

theorem mem_sortDesc {α : Type} (key : α → Int) (l : List α) (x : α) :
    x ∈ sortDesc key l ↔ x ∈ l :=
  (sortDesc_perm key l).mem_iff

theorem length_sortDesc {α : Type} (key : α → Int) (l : List α) :
    (sortDesc key l).length = l.length :=
  (sortDesc_perm key l).length_eq

theorem insertDesc_sorted {α : Type} (key : α → Int) (a : α) (l : List α)
    (h : l.Pairwise (fun x y => key y ≤ key x)) :
    (insertDesc key a l).Pairwise (fun x y => key y ≤ key x) := by
  induction l with
  | nil => simp [insertDesc]
  | cons b l ih =>
    unfold insertDesc
    rw [List.pairwise_cons] at h
    split
    · rename_i hba
      refine List.pairwise_cons.mpr ⟨?_, List.pairwise_cons.mpr h⟩
      intro y hy
      rcases List.mem_cons.mp hy with rfl | hy
      · exact hba
      · exact le_trans (h.1 y hy) hba
    · rename_i hba
      refine List.pairwise_cons.mpr ⟨?_, ih h.2⟩
      intro y hy
      rcases List.mem_cons.mp ((insertDesc_perm key a l).mem_iff.mp hy) with rfl | hy
      · omega
      · exact h.1 y hy

theorem sortDesc_sorted {α : Type} (key : α → Int) (l : List α) :
    (sortDesc key l).Pairwise (fun x y => key y ≤ key x) := by
  induction l with
  | nil => exact List.Pairwise.nil
  | cons a l ih => exact insertDesc_sorted key a _ ih

theorem insertDesc_filter_key {α : Type} (key : α → Int) (t : Int) (a : α) (l : List α) :
    (insertDesc key a l).filter (fun x => decide (key x = t))
      = (a :: l).filter (fun x => decide (key x = t)) := by
  induction l with
  | nil => rfl
  | cons b l ih =>
    unfold insertDesc
    split
    · rfl
    · rename_i hba
      rw [List.filter_cons, ih]
      by_cases hb : key b = t
      · have ha : key a ≠ t := by omega
        simp [List.filter_cons, hb, ha]
      · simp [List.filter_cons, hb]

theorem sortDesc_filter_key {α : Type} (key : α → Int) (t : Int) (l : List α) :
    (sortDesc key l).filter (fun x => decide (key x = t))
      = l.filter (fun x => decide (key x = t)) := by
  induction l with
  | nil => rfl
  | cons a l ih =>
    show (insertDesc key a (sortDesc key l)).filter _ = _
    rw [insertDesc_filter_key, List.filter_cons, List.filter_cons, ih]

theorem findByUser_eq_filter {α : Type} [Document α] (docs : List α) (userId : ObjectId) :
    findByUser docs userId = docs.filter (fun r => decide (Document.userId r = userId)) := by
  unfold findByUser
  congr 1

theorem mem_querySort (dbSort : QuerySort) {α : Type} (key : α → Int) (l : List α) (x : α) :
    x ∈ dbSort.sort key l ↔ x ∈ l :=
  (dbSort.perm key l).mem_iff

theorem length_querySort (dbSort : QuerySort) {α : Type} (key : α → Int) (l : List α) :
    (dbSort.sort key l).length = l.length :=
  (dbSort.perm key l).length_eq

/-- With a database that answers, `getDashboardData` answers 200 with these fields. -/
theorem getDashboardData_fields (dbSort : QuerySort) (zone : TimeZone) (now : Int) (db : Db)
    (userId : ObjectId) :
    ∃ d, getDashboardData dbSort none zone now db userId = ⟨200, .data d⟩ ∧
      d.totalIncome = totalOrZero (aggregateTotal db.incomes userId) ∧
      d.totalExpense = totalOrZero (aggregateTotal db.expenses userId) ∧
      d.totalBalance = totalOrZero (aggregateTotal db.incomes userId)
        - totalOrZero (aggregateTotal db.expenses userId) ∧
      d.last60DaysIncome.transactions
        = dbSort.sort Income.date
            (findSince db.incomes userId (now - 60 * 24 * 60 * 60 * 1000)) ∧
      d.last60DaysIncome.total
        = d.last60DaysIncome.transactions.foldl (fun sum t => sum + t.amount) 0 ∧
      d.last30DaysExpense.transactions
        = (dbSort.sort Expense.date (findBetween db.expenses userId
            (setHours zone (setDateBack zone now 30) 0 0 0 0)
            (setHours zone now 23 59 59 999))).map
            (fun t => ⟨t, "expense"⟩) ∧
      d.last30DaysExpense.total
        = d.last30DaysExpense.transactions.foldl (fun sum t => sum + t.doc.amount) 0 ∧
      d.lastTransactions
        = sortDesc feedDate
            (((dbSort.sort Income.date (findByUser db.incomes userId)).take 5).map
                (fun t => ⟨Sum.inl t, "income"⟩)
              ++ ((dbSort.sort Expense.date (findByUser db.expenses userId)).take 5).map
                (fun t => ⟨Sum.inr t, "expense"⟩)) ∧
      d.allExpenses
        = (dbSort.sort Expense.date (findByUser db.expenses userId)).map
            (fun t => ⟨t, "expense"⟩) :=
  ⟨_, rfl, rfl, rfl, rfl, rfl, rfl, rfl, rfl, rfl, rfl⟩

/-! ## Deleting a transaction -/

theorem findById_eq_none {α : Type} [Document α] (docs : List α) (id : ObjectId) :
    findById docs id = none ↔ ∀ d ∈ docs, Document._id d ≠ id := by
  simp [findById, List.find?_eq_none]

theorem findById_some {α : Type} [Document α] {docs : List α} {id : ObjectId} {d : α}
    (h : findById docs id = some d) : d ∈ docs ∧ Document._id d = id := by
  unfold findById at h
  exact ⟨List.mem_of_find?_eq_some h, by simpa using List.find?_some h⟩

theorem findByIdAndDelete_perm {α : Type} [Document α] {docs : List α} {id : ObjectId} {d : α}
    (h : findById docs id = some d) : docs.Perm (d :: findByIdAndDelete docs id) := by
  induction docs with
  | nil => simp [findById] at h
  | cons a l ih =>
    unfold findById at h
    unfold findByIdAndDelete
    by_cases ha : Document._id a = id
    · have hp : (Document._id a == id) = true := by simpa using ha
      rw [List.find?_cons_of_pos l hp] at h
      cases h
      simp only [List.eraseP_cons, hp, cond_true]
      exact List.Perm.refl _
    · have hn : ¬ (Document._id a == id) = true := by simpa using ha
      rw [List.find?_cons_of_neg l hn] at h
      have hq : (Document._id a == id) = false := by simpa using ha
      simp only [List.eraseP_cons, hq, cond_false]
      exact (List.Perm.cons a (ih h)).trans (List.Perm.swap d a _)

theorem findByIdAndDelete_sublist {α : Type} [Document α] (docs : List α) (id : ObjectId) :
    (findByIdAndDelete docs id).Sublist docs :=
  List.eraseP_sublist docs

/-- On `sampleDb`, for user 7: id 9 is unknown, expense 2 belongs to user 8 and
expense 1 is their own. -/
theorem deleteExpense_sample_statuses :
    (deleteExpense none sampleDb 9 7).2.status = 404 ∧
    (deleteExpense none sampleDb 2 7).2.status = 403 ∧
    (deleteExpense none sampleDb 1 7).2.status = 200 ∧
    (deleteExpense (some ⟨"CastError", "Cast to ObjectId failed", none⟩) sampleDb 1 7).2.status
      = 500 := by
  decide

/-- The request `DELETE /expense/abc` on `sampleDb`: no expense has the id `abc`,
which is not even a well-formed id, and the answer is 500 with the text of the
CastError, not 404; the store is unchanged.  The same holds of `DELETE /income/abc`. -/
theorem delete_malformed_id :
    sampleCastObjectId "abc" = none ∧
    (∀ e ∈ sampleDb.expenses, sampleCastObjectId "abc" ≠ some e._id) ∧
    deleteExpenseRoute sampleCastObjectId none sampleDb "abc" 7
      = (sampleDb, ⟨500, .failure "Server error"
          "Cast to ObjectId failed for value \"abc\" (type string) at path \"_id\" for model \"Expense\""⟩) ∧
    (deleteExpenseRoute sampleCastObjectId none sampleDb "abc" 7).2.status ≠ 404 ∧
    (∀ i ∈ sampleDb.incomes, sampleCastObjectId "abc" ≠ some i._id) ∧
    (deleteIncomeRoute sampleCastObjectId none sampleDb "abc" 7).2.status = 500 ∧
    (deleteExpenseRoute sampleCastObjectId none sampleDb "000000000000000000000009" 7).2.status
      = 404 ∧
    (deleteExpenseRoute sampleCastObjectId none sampleDb "000000000000000000000002" 7).2.status
      = 403 ∧
    (deleteExpenseRoute sampleCastObjectId none sampleDb "000000000000000000000001" 7).2.status
      = 200 := by
  decide

/-- C2 (amended): with the database answering, for an id that is a well-formed
ObjectId (the cast of the route parameter gives `oid`) `deleteExpense` and
`deleteIncome` answer 404 exactly when no transaction of the collection has the id
(whoever asks, so the existence check comes first), 403 exactly when the
transaction found by the id has another owner than the requester, and 200 exactly
when the transaction found is owned by the requester.  For an id that is not
well-formed they answer 500 with the message of the CastError and leave the store as
it is. -/
theorem delete_status (castObjectId : String → Option ObjectId) (db : Db) (id : String)
    (userId : ObjectId) :
    (castObjectId id = none →
      (deleteExpenseRoute castObjectId none db id userId).2.status = 500 ∧
      (deleteExpenseRoute castObjectId none db id userId).1 = db ∧
      (deleteIncomeRoute castObjectId none db id userId).2.status = 500 ∧
      (deleteIncomeRoute castObjectId none db id userId).1 = db) ∧
    (∀ oid, castObjectId id = some oid →
      ((deleteExpenseRoute castObjectId none db id userId).2.status = 404 ↔
        ∀ e ∈ db.expenses, e._id ≠ oid) ∧
      ((deleteExpenseRoute castObjectId none db id userId).2.status = 403 ↔
        ∃ e, findById db.expenses oid = some e ∧ e.userId ≠ userId) ∧
      ((deleteExpenseRoute castObjectId none db id userId).2.status = 200 ↔
        ∃ e, findById db.expenses oid = some e ∧ e.userId = userId) ∧
      ((deleteIncomeRoute castObjectId none db id userId).2.status = 404 ↔
        ∀ i ∈ db.incomes, i._id ≠ oid) ∧
      ((deleteIncomeRoute castObjectId none db id userId).2.status = 403 ↔
        ∃ i, findById db.incomes oid = some i ∧ i.userId ≠ userId) ∧
      ((deleteIncomeRoute castObjectId none db id userId).2.status = 200 ↔
        ∃ i, findById db.incomes oid = some i ∧ i.userId = userId)) := by
  constructor
  · intro hcast
    simp [deleteExpenseRoute, deleteIncomeRoute, hcast]
  intro oid hcast
  simp only [deleteExpenseRoute, deleteIncomeRoute, hcast]
  have hE := findById_eq_none db.expenses oid
  have hI := findById_eq_none db.incomes oid
  refine ⟨?_, ?_, ?_, ?_, ?_, ?_⟩
  · rw [← show (∀ d ∈ db.expenses, Document._id d ≠ oid) ↔ ∀ e ∈ db.expenses, e._id ≠ oid
      from Iff.rfl, ← hE]
    unfold deleteExpense dbCall
    cases findById db.expenses oid with
    | none => simp
    | some e => by_cases h : e.userId = userId <;> simp [h]
  · unfold deleteExpense dbCall
    cases findById db.expenses oid with
    | none => simp
    | some e => by_cases h : e.userId = userId <;> simp [h]
  · unfold deleteExpense dbCall
    cases findById db.expenses oid with
    | none => simp
    | some e => by_cases h : e.userId = userId <;> simp [h]
  · rw [← show (∀ d ∈ db.incomes, Document._id d ≠ oid) ↔ ∀ i ∈ db.incomes, i._id ≠ oid
      from Iff.rfl, ← hI]
    unfold deleteIncome dbCall
    cases findById db.incomes oid with
    | none => simp
    | some i => by_cases h : i.userId = userId <;> simp [h]
  · unfold deleteIncome dbCall
    cases findById db.incomes oid with
    | none => simp
    | some i => by_cases h : i.userId = userId <;> simp [h]
  · unfold deleteIncome dbCall
    cases findById db.incomes oid with
    | none => simp
    | some i => by_cases h : i.userId = userId <;> simp [h]

/-- C3: whatever the database driver does, `deleteExpense` and `deleteIncome`
return the store unchanged when they answer 404 or 403; when they answer 200 a
record `e` with the given id, owned by the requester, was in the collection, the
collection before is a permutation of `e` followed by the collection after, the
collection after is a sublist of the one before (the other records are kept,
in order), and the other collection is untouched. -/
theorem delete_frame (fault : Option JsError) (db : Db) (id userId : ObjectId) :
    (((deleteExpense fault db id userId).2.status = 404 ∨
        (deleteExpense fault db id userId).2.status = 403) →
      (deleteExpense fault db id userId).1 = db) ∧
    ((deleteExpense fault db id userId).2.status = 200 →
      ∃ e ∈ db.expenses, e._id = id ∧ e.userId = userId ∧
        db.expenses.Perm (e :: (deleteExpense fault db id userId).1.expenses) ∧
        (deleteExpense fault db id userId).1.expenses.Sublist db.expenses ∧
        (deleteExpense fault db id userId).1.incomes = db.incomes) ∧
    (((deleteIncome fault db id userId).2.status = 404 ∨
        (deleteIncome fault db id userId).2.status = 403) →
      (deleteIncome fault db id userId).1 = db) ∧
    ((deleteIncome fault db id userId).2.status = 200 →
      ∃ i ∈ db.incomes, i._id = id ∧ i.userId = userId ∧
        db.incomes.Perm (i :: (deleteIncome fault db id userId).1.incomes) ∧
        (deleteIncome fault db id userId).1.incomes.Sublist db.incomes ∧
        (deleteIncome fault db id userId).1.expenses = db.expenses) := by
  refine ⟨?_, ?_, ?_, ?_⟩
  · unfold deleteExpense dbCall
    cases fault with
    | some err => simp
    | none =>
      cases findById db.expenses id with
      | none => simp
      | some e => by_cases h : e.userId = userId <;> simp [h]
  · unfold deleteExpense dbCall
    cases fault with
    | some err => simp
    | none =>
      cases hf : findById db.expenses id with
      | none => simp
      | some e =>
        by_cases h : e.userId = userId
        · intro _
          simp only [h, ne_eq, not_true_eq_false, if_false]
          exact ⟨e, (findById_some hf).1, (findById_some hf).2, h,
            findByIdAndDelete_perm hf, findByIdAndDelete_sublist _ _, trivial⟩
        · simp [h]
  · unfold deleteIncome dbCall
    cases fault with
    | some err => simp
    | none =>
      cases findById db.incomes id with
      | none => simp
      | some i => by_cases h : i.userId = userId <;> simp [h]
  · unfold deleteIncome dbCall
    cases fault with
    | some err => simp
    | none =>
      cases hf : findById db.incomes id with
      | none => simp
      | some i =>
        by_cases h : i.userId = userId
        · intro _
          simp only [h, ne_eq, not_true_eq_false, if_false]
          exact ⟨i, (findById_some hf).1, (findById_some hf).2, h,
            findByIdAndDelete_perm hf, findByIdAndDelete_sublist _ _, trivial⟩
        · simp [h]

/-- Witness for C3: user 7 deletes their expense 1 from `sampleDb`. -/
theorem delete_frame_witness :
    (deleteExpense none sampleDb 1 7).2.status = 200 ∧
    ∃ e ∈ sampleDb.expenses, e._id = 1 ∧ e.userId = 7 ∧
      sampleDb.expenses.Perm (e :: (deleteExpense none sampleDb 1 7).1.expenses) ∧
      (deleteExpense none sampleDb 1 7).1.expenses.Sublist sampleDb.expenses ∧
      (deleteExpense none sampleDb 1 7).1.incomes = sampleDb.incomes :=
  ⟨by decide, (delete_frame none sampleDb 1 7).2.1 (by decide)⟩

/-! ## Isolation between users -/

theorem findSince_eq_filter {α : Type} [Document α] (docs : List α) (userId : ObjectId)
    (gte : Int) :
    findSince docs userId gte
      = (findByUser docs userId).filter (fun d => decide (gte ≤ Document.date d)) := by
  unfold findSince findByUser
  rw [List.filter_filter]
  congr 1
  funext d
  exact Bool.and_comm _ _

theorem findBetween_eq_filter {α : Type} [Document α] (docs : List α) (userId : ObjectId)
    (gte lte : Int) :
    findBetween docs userId gte lte
      = (findByUser docs userId).filter
          (fun d => decide (gte ≤ Document.date d) && decide (Document.date d ≤ lte)) := by
  unfold findBetween findByUser
  rw [List.filter_filter]
  congr 1
  funext d
  rw [Bool.and_assoc]
  exact Bool.and_comm _ _

/-- C4: if two stores hold the same records of user `userId` (in the same natural
order) and differ arbitrarily in the records of other users, then `getAllExpense`,
`getAllIncome`, `getDashboardData` and the rows built by `downloadExpenseExcel` and
`downloadIncomeExcel` give the same result for `userId` on both. -/
theorem responses_depend_on_own_records (dbSort : QuerySort) (fault : Option JsError)
    (zone : TimeZone) (now : Int) (toLocaleDateString : Int → String) (db₁ db₂ : Db)
    (userId : ObjectId)
    (hIncome : db₁.incomes.filter (fun r => r.userId = userId)
      = db₂.incomes.filter (fun r => r.userId = userId))
    (hExpense : db₁.expenses.filter (fun r => r.userId = userId)
      = db₂.expenses.filter (fun r => r.userId = userId)) :
    getAllExpense dbSort fault db₁ userId = getAllExpense dbSort fault db₂ userId ∧
    getAllIncome dbSort fault db₁ userId = getAllIncome dbSort fault db₂ userId ∧
    getDashboardData dbSort fault zone now db₁ userId
      = getDashboardData dbSort fault zone now db₂ userId ∧
    downloadExpenseExcelData dbSort toLocaleDateString fault db₁ userId
      = downloadExpenseExcelData dbSort toLocaleDateString fault db₂ userId ∧
    downloadIncomeExcelData dbSort toLocaleDateString fault db₁ userId
      = downloadIncomeExcelData dbSort toLocaleDateString fault db₂ userId := by
  have hI : findByUser db₁.incomes userId = findByUser db₂.incomes userId := by
    rw [findByUser_eq_filter, findByUser_eq_filter]
    exact hIncome
  have hE : findByUser db₁.expenses userId = findByUser db₂.expenses userId := by
    rw [findByUser_eq_filter, findByUser_eq_filter]
    exact hExpense
  refine ⟨?_, ?_, ?_, ?_, ?_⟩
  · simp only [getAllExpense, hE]
  · simp only [getAllIncome, hI]
  · simp only [getDashboardData, aggregateTotal, findSince_eq_filter, findBetween_eq_filter,
      hI, hE]
  · simp only [downloadExpenseExcelData, hE]
  · simp only [downloadIncomeExcelData, hI]

/-- Witness for C4: `sampleDb` and `sampleDbOthers` agree on the records of user 7
and differ elsewhere. -/
theorem responses_depend_on_own_records_witness :
    sampleDb ≠ sampleDbOthers ∧
    getAllExpense stableSort none sampleDb 7 = getAllExpense stableSort none sampleDbOthers 7 ∧
    getAllIncome stableSort none sampleDb 7 = getAllIncome stableSort none sampleDbOthers 7 ∧
    getDashboardData stableSort none utcZone 3000 sampleDb 7
      = getDashboardData stableSort none utcZone 3000 sampleDbOthers 7 ∧
    downloadExpenseExcelData stableSort (fun _ => "1/1/1970") none sampleDb 7
      = downloadExpenseExcelData stableSort (fun _ => "1/1/1970") none sampleDbOthers 7 ∧
    downloadIncomeExcelData stableSort (fun _ => "1/1/1970") none sampleDb 7
      = downloadIncomeExcelData stableSort (fun _ => "1/1/1970") none sampleDbOthers 7 :=
  ⟨by decide, responses_depend_on_own_records stableSort none utcZone 3000
    (fun _ => "1/1/1970") sampleDb sampleDbOthers 7 (by decide) (by decide)⟩

/-! ## Lemmas on `split` -/

theorem splitOnChar_ne_nil (sep : Char) (l : List Char) : splitOnChar sep l ≠ [] := by
  cases l with
  | nil => simp [splitOnChar]
  | cons c cs =>
    unfold splitOnChar
    split
    · simp
    · split <;> simp

theorem splitOnChar_cons (sep c : Char) (cs : List Char) :
    splitOnChar sep (c :: cs)
      = match splitOnChar sep cs with
        | [] => [[c]]
        | w :: ws => if c = sep then [] :: w :: ws else (c :: w) :: ws :=
  rfl

theorem splitOnChar_of_not_mem (sep : Char) (l : List Char) (h : sep ∉ l) :
    splitOnChar sep l = [l] := by
  induction l with
  | nil => rfl
  | cons c cs ih =>
    have hc : c ≠ sep := fun e => h (by simp [e])
    have hcs : sep ∉ cs := fun e => h (List.mem_cons_of_mem c e)
    rw [splitOnChar_cons, ih hcs]
    simp [hc]

theorem splitOnChar_append_sep (sep : Char) (a b : List Char) (h : sep ∉ a) :
    splitOnChar sep (a ++ sep :: b) = a :: splitOnChar sep b := by
  induction a with
  | nil =>
    show splitOnChar sep (sep :: b) = _
    rw [splitOnChar_cons]
    cases hb : splitOnChar sep b with
    | nil => exact absurd hb (splitOnChar_ne_nil sep b)
    | cons w ws => simp
  | cons c cs ih =>
    have hc : c ≠ sep := fun e => h (by simp [e])
    have hcs : sep ∉ cs := fun e => h (List.mem_cons_of_mem c e)
    show splitOnChar sep (c :: (cs ++ sep :: b)) = _
    rw [splitOnChar_cons, ih hcs]
    simp [hc]

theorem splitOnSpace_eq (l : List Char) : splitOnSpace l = splitOnChar ' ' l := by
  induction l with
  | nil => rfl
  | cons c cs ih =>
    show (match splitOnSpace cs with
      | [] => [[c]]
      | w :: ws => if c = ' ' then [] :: w :: ws else (c :: w) :: ws) = _
    rw [ih, splitOnChar_cons]

theorem exists_prefix_sep (sep : Char) (l : List Char) :
    sep ∉ l ∨ ∃ a b, l = a ++ sep :: b ∧ sep ∉ a := by
  induction l with
  | nil => exact Or.inl (List.not_mem_nil sep)
  | cons c cs ih =>
    by_cases hc : c = sep
    · exact Or.inr ⟨[], cs, by rw [hc]; rfl, List.not_mem_nil sep⟩
    · rcases ih with h | ⟨a, b, h, ha⟩
      · left
        intro hmem
        rcases List.mem_cons.mp hmem with e | e
        · exact hc e.symm
        · exact h e
      · right
        refine ⟨c :: a, b, by rw [h]; rfl, ?_⟩
        intro hmem
        rcases List.mem_cons.mp hmem with e | e
        · exact hc e.symm
        · exact ha e

/-- The second piece of `s.split(sep)` is the text between the first and the second
separator (or the end of the text). -/
theorem splitOnChar_second (sep : Char) (l tok : List Char) :
    (splitOnChar sep l)[1]? = some tok ↔
      ∃ pre rest, l = pre ++ sep :: (tok ++ rest) ∧ sep ∉ pre ∧ sep ∉ tok ∧
        (rest = [] ∨ ∃ r, rest = sep :: r) := by
  constructor
  · intro h
    rcases exists_prefix_sep sep l with hl | ⟨a, b, rfl, ha⟩
    · rw [splitOnChar_of_not_mem sep l hl] at h
      cases h
    · rw [splitOnChar_append_sep sep a b ha] at h
      rcases exists_prefix_sep sep b with hb | ⟨c, d, rfl, hc⟩
      · rw [splitOnChar_of_not_mem sep b hb] at h
        have : b = tok := by simpa using h
        subst this
        exact ⟨a, [], by simp, ha, hb, Or.inl rfl⟩
      · rw [splitOnChar_append_sep sep c d hc] at h
        have : c = tok := by simpa using h
        subst this
        exact ⟨a, sep :: d, rfl, ha, hc, Or.inr ⟨d, rfl⟩⟩
  · rintro ⟨pre, rest, rfl, hpre, htok, hrest⟩
    rw [splitOnChar_append_sep sep pre _ hpre]
    rcases hrest with rfl | ⟨r, rfl⟩
    · rw [List.append_nil, splitOnChar_of_not_mem sep tok htok]
      rfl
    · rw [splitOnChar_append_sep sep tok r htok]
      simp

/-! ## Authentication gate -/

theorem protect_eq_next_iff (jwtVerify : String → String → Except JsError JwtPayload)
    (secret : String) (fault : Option JsError) (users : List User)
    (authorization : Option String) (user : User) :
    protect jwtVerify secret fault users authorization = .next user ↔
      ∃ token payload, extractToken authorization = some token ∧ token ≠ "" ∧
        jwtVerify token secret = .ok payload ∧
        dbCall fault (findUserById users payload.id) = .ok (some user) := by
  unfold protect
  cases extractToken authorization with
  | none => simp
  | some token =>
    by_cases ht : token = ""
    · simp [ht]
    · simp only [ht, if_false]
      cases hv : jwtVerify token secret with
      | error e =>
        simp only [bind, Except.bind]
        constructor
        · intro h
          split_ifs at h
        · rintro ⟨token', payload, h1, -, h3, -⟩
          cases h1
          rw [hv] at h3
          cases h3
      | ok payload =>
        simp only [bind, Except.bind]
        cases hd : dbCall fault (findUserById users payload.id) with
        | error e =>
          constructor
          · intro h
            dsimp only at h
            split_ifs at h
          · rintro ⟨token', payload', h1, -, h3, h4⟩
            cases h1
            rw [hv] at h3
            cases h3
            rw [hd] at h4
            cases h4
        | ok r =>
          cases r with
          | none =>
            constructor
            · intro h
              cases h
            · rintro ⟨token', payload', h1, -, h3, h4⟩
              cases h1
              rw [hv] at h3
              cases h3
              rw [hd] at h4
              cases h4
          | some u =>
            constructor
            · intro h
              cases h
              exact ⟨token, payload, rfl, ht, hv, hd⟩
            · rintro ⟨token', payload', h1, -, h3, h4⟩
              cases h1
              rw [hv] at h3
              cases h3
              rw [hd] at h4
              cases h4
              rfl

theorem protect_next_or_401 (jwtVerify : String → String → Except JsError JwtPayload)
    (secret : String) (fault : Option JsError) (users : List User)
    (authorization : Option String) :
    (∃ user, protect jwtVerify secret fault users authorization = .next user) ∨
    (∃ message, message ≠ "" ∧
      protect jwtVerify secret fault users authorization = .respond 401 message) := by
  unfold protect
  cases extractToken authorization with
  | none => exact Or.inr ⟨_, by decide, rfl⟩
  | some token =>
    by_cases ht : token = ""
    · simp only [ht, if_true]
      exact Or.inr ⟨_, by decide, rfl⟩
    · simp only [ht, if_false]
      cases jwtVerify token secret with
      | error e =>
        simp only [bind, Except.bind]
        by_cases h1 : e.name = "TokenExpiredError"
        · simp only [h1, if_true]
          exact Or.inr ⟨_, by decide, rfl⟩
        · by_cases h2 : e.name = "JsonWebTokenError"
          · simp only [h2, if_true]
            exact Or.inr ⟨_, by decide, rfl⟩
          · simp only [h1, h2, if_false]
            exact Or.inr ⟨_, by decide, rfl⟩
      | ok payload =>
        simp only [bind, Except.bind]
        cases dbCall fault (findUserById users payload.id) with
        | error e =>
          by_cases h1 : e.name = "TokenExpiredError"
          · simp only [h1, if_true]
            exact Or.inr ⟨_, by decide, rfl⟩
          · by_cases h2 : e.name = "JsonWebTokenError"
            · simp only [h2, if_true]
              exact Or.inr ⟨_, by decide, rfl⟩
            · simp only [h1, h2, if_false]
              exact Or.inr ⟨_, by decide, rfl⟩
        | ok r =>
          cases r with
          | none => exact Or.inr ⟨_, by decide, rfl⟩
          | some u => exact Or.inl ⟨u, rfl⟩

theorem extractToken_eq_some (authorization : Option String) (token : String) :
    extractToken authorization = some token ↔
      ∃ header cs, authorization = some header ∧
        "Bearer".toList.isPrefixOf header.toList = true ∧
        (splitOnSpace header.toList)[1]? = some cs ∧ token = String.mk cs := by
  unfold extractToken
  cases authorization with
  | none => simp
  | some header =>
    by_cases hp : "Bearer".toList.isPrefixOf header.toList = true
    · have hne : header ≠ "" := by
        rintro rfl
        revert hp
        decide
      show (if header ≠ "" ∧ "Bearer".toList.isPrefixOf header.toList = true then
          Option.map String.mk (splitOnSpace header.toList)[1]? else none) = some token ↔ _
      rw [if_pos (And.intro hne hp), Option.map_eq_some']
      constructor
      · rintro ⟨cs, h1, h2⟩
        exact ⟨header, cs, rfl, hp, h1, h2.symm⟩
      · rintro ⟨header', cs, h1, -, h3, h4⟩
        cases h1
        exact ⟨cs, h3, h4.symm⟩
    · show (if header ≠ "" ∧ "Bearer".toList.isPrefixOf header.toList = true then
          Option.map String.mk (splitOnSpace header.toList)[1]? else none) = some token ↔ _
      rw [if_neg (fun h : header ≠ "" ∧ _ => hp h.2)]
      constructor
      · intro h
        cases h
      · rintro ⟨header', cs, h1, h2, -⟩
        cases h1
        exact absurd h2 hp

theorem findUserById_isSome (users : List User) (id : ObjectId) :
    (∃ user, findUserById users id = some user) ↔ ∃ u ∈ users, u._id = id := by
  unfold findUserById
  constructor
  · rintro ⟨user, h⟩
    rw [Option.map_eq_some'] at h
    obtain ⟨u, hu, -⟩ := h
    exact ⟨u, List.mem_of_find?_eq_some hu, by simpa using List.find?_some hu⟩
  · rintro ⟨u, hu, hid⟩
    cases hf : users.find? (fun u => u._id == id) with
    | none =>
      rw [List.find?_eq_none] at hf
      exact absurd (by simpa using hid) (hf u hu)
    | some v => exact ⟨_, rfl⟩

/-- C5: with the database answering, `protect` calls the next handler if and only if
the Authorization header starts with `Bearer`, the text between its first and its
second space (or the end of the header) is a non-empty token that `jwt.verify`
accepts under the server secret (valid signature, not expired), and the payload
names an existing user; and whatever the database does, `protect` either calls the
next handler or answers 401 with a non-empty reason message. -/
theorem protect_calls_next_iff (jwtVerify : String → String → Except JsError JwtPayload)
    (secret : String) (users : List User) (authorization : Option String) :
    ((∃ user, protect jwtVerify secret none users authorization = .next user) ↔
      ∃ header pre token rest payload, authorization = some header ∧
        "Bearer".toList <+: header.toList ∧
        header.toList = pre ++ ' ' :: (token ++ rest) ∧ ' ' ∉ pre ∧ ' ' ∉ token ∧
        (rest = [] ∨ ∃ r, rest = ' ' :: r) ∧ token ≠ [] ∧
        jwtVerify (String.mk token) secret = .ok payload ∧
        ∃ u ∈ users, u._id = payload.id) ∧
    (∀ fault,
      (∃ user, protect jwtVerify secret fault users authorization = .next user) ∨
      (∃ message, message ≠ "" ∧
        protect jwtVerify secret fault users authorization = .respond 401 message)) := by
  refine ⟨?_, fun fault => protect_next_or_401 jwtVerify secret fault users authorization⟩
  constructor
  · rintro ⟨user, h⟩
    obtain ⟨token, payload, h1, h2, h3, h4⟩ := (protect_eq_next_iff _ _ _ _ _ _).mp h
    obtain ⟨header, cs, ha, hp, hs, rfl⟩ := (extractToken_eq_some _ _).mp h1
    rw [splitOnSpace_eq] at hs
    obtain ⟨pre, rest, hl, hpre, htok, hrest⟩ := (splitOnChar_second ' ' _ _).mp hs
    refine ⟨header, pre, cs, rest, payload, ha, List.isPrefixOf_iff_prefix.mp hp, hl, hpre,
      htok, hrest, ?_, h3, ?_⟩
    · rintro rfl
      exact h2 rfl
    · have h5 : findUserById users payload.id = some user := by
        simpa [dbCall] using h4
      exact (findUserById_isSome users payload.id).mp ⟨user, h5⟩
  · rintro ⟨header, pre, cs, rest, payload, ha, hp, hl, hpre, htok, hrest, hne, hv, hu⟩
    obtain ⟨user, h5⟩ := (findUserById_isSome users payload.id).mpr hu
    have hs : (splitOnSpace header.toList)[1]? = some cs := by
      rw [splitOnSpace_eq]
      exact (splitOnChar_second ' ' _ _).mpr ⟨pre, rest, hl, hpre, htok, hrest⟩
    refine ⟨user, (protect_eq_next_iff _ _ _ _ _ _).mpr ⟨String.mk cs, payload, ?_, ?_, hv, ?_⟩⟩
    · exact (extractToken_eq_some _ _).mpr
        ⟨header, cs, ha, List.isPrefixOf_iff_prefix.mpr hp, hs, rfl⟩
    · intro h
      exact hne (by simpa using congrArg String.data h)
    · simp [dbCall, h5]

/-- Witness for C5: with a `jwt.verify` that accepts the token `abc`, whose payload
names the stored user 1, the header `Bearer abc` reaches the next handler. -/
theorem protect_calls_next_iff_witness :
    ∃ user, protect sampleVerify "s" none sampleUsers (some "Bearer abc") = .next user :=
  (protect_calls_next_iff sampleVerify "s" sampleUsers (some "Bearer abc")).1.mpr
    ⟨"Bearer abc", "Bearer".toList, "abc".toList, [], ⟨1, 0, 86400⟩, rfl, by decide,
      by decide, by decide, by decide, Or.inl rfl, by decide, rfl, by decide⟩

/-- What `protect` answers on sample headers: `Bearer abc` and `BearerX abc` reach
the next handler with the stored user, the password projected away; a header with
two spaces before the token, one without `Bearer`, one with an unknown token and a
missing header are answered 401. -/
theorem protect_sample_headers :
    protect sampleVerify "s" none sampleUsers (some "Bearer abc")
      = .next ⟨1, "Ann", "a@x.com", none, none, 0, 0⟩ ∧
    protect sampleVerify "s" none sampleUsers (some "BearerX abc")
      = .next ⟨1, "Ann", "a@x.com", none, none, 0, 0⟩ ∧
    protect sampleVerify "s" none sampleUsers (some "Bearer  abc")
      = .respond 401 "Not authorized, no token provided" ∧
    protect sampleVerify "s" none sampleUsers (some "bearer abc")
      = .respond 401 "Not authorized, no token provided" ∧
    protect sampleVerify "s" none sampleUsers (some "Bearer abd")
      = .respond 401 "Invalid token" ∧
    protect sampleVerify "s" none sampleUsers none
      = .respond 401 "Not authorized, no token provided" ∧
    protect sampleVerify "s" none [] (some "Bearer abc")
      = .respond 401 "Not authorized, user not found" := by
  decide

/-! ## Dashboard windows -/

theorem today_eq (zone : TimeZone) (now : Int) :
    setHours zone now 23 59 59 999 = endOfLocalDay zone (localDay zone now) := by
  simp only [setHours, endOfLocalDay, localDay, msPerDay]
  congr 1
  omega

theorem thirtyDaysAgo_eq (zone : TimeZone) (now : Int)
    (hround : ∀ x, localDay zone (zone.utc x) = x / msPerDay) :
    setHours zone (setDateBack zone now 30) 0 0 0 0
      = startOfLocalDay zone (localDay zone now - 30) := by
  have h := hround (zone.localTime now - 30 * msPerDay)
  simp only [setHours, setDateBack, startOfLocalDay, localDay, msPerDay] at h ⊢
  congr 1
  omega

theorem startOfLocalDay_le_end (zone : TimeZone)
    (hround : ∀ x, localDay zone (zone.utc x) = x / msPerDay)
    (hwithin : ∀ t, startOfLocalDay zone (localDay zone t) ≤ t ∧
      t ≤ endOfLocalDay zone (localDay zone t)) (day : Int) :
    startOfLocalDay zone day ≤ endOfLocalDay zone day := by
  have h := (hwithin (startOfLocalDay zone day)).2
  have hd : localDay zone (startOfLocalDay zone day) = day := by
    unfold startOfLocalDay
    rw [hround]
    simp only [msPerDay]
    omega
  rw [hd] at h
  exact h

theorem startOfLocalDay_mono (zone : TimeZone)
    (hround : ∀ x, localDay zone (zone.utc x) = x / msPerDay)
    (hwithin : ∀ t, startOfLocalDay zone (localDay zone t) ≤ t ∧
      t ≤ endOfLocalDay zone (localDay zone t))
    (hnext : ∀ day, endOfLocalDay zone day < startOfLocalDay zone (day + 1))
    (day : Int) (k : Nat) :
    startOfLocalDay zone day ≤ startOfLocalDay zone (day + k) := by
  induction k with
  | zero => simp
  | succ k ih =>
    have h1 := startOfLocalDay_le_end zone hround hwithin (day + k)
    have h2 := hnext (day + k)
    have h3 : day + ((k + 1 : Nat) : Int) = day + k + 1 := by push_cast; ring
    rw [h3]
    omega

theorem mem_findSince {α : Type} [Document α] (docs : List α) (userId : ObjectId) (gte : Int)
    (r : α) :
    r ∈ findSince docs userId gte
      ↔ r ∈ docs ∧ Document.userId r = userId ∧ gte ≤ Document.date r := by
  simp [findSince, and_assoc]

theorem mem_findBetween {α : Type} [Document α] (docs : List α) (userId : ObjectId)
    (gte lte : Int) (r : α) :
    r ∈ findBetween docs userId gte lte
      ↔ r ∈ docs ∧ Document.userId r = userId ∧ gte ≤ Document.date r
        ∧ Document.date r ≤ lte := by
  simp [findBetween, and_assoc]

/-- C6: with the database answering, `last60DaysIncome.transactions` is a
permutation of the requesting user's income records with `date ≥ now - 60 days`:
it holds no record dated before `now - 60 days`, it holds the user's records dated
exactly `now - 60 days`, and, there being no upper bound, the user's records dated
after `now`. -/
theorem last60DaysIncome_window (dbSort : QuerySort) (zone : TimeZone) (now : Int) (db : Db)
    (userId : ObjectId) :
    ∃ d, getDashboardData dbSort none zone now db userId = ⟨200, .data d⟩ ∧
      d.last60DaysIncome.transactions.Perm
        (db.incomes.filter (fun r => r.userId = userId ∧ now - 60 * msPerDay ≤ r.date)) ∧
      (∀ r ∈ d.last60DaysIncome.transactions, ¬ r.date < now - 60 * msPerDay) ∧
      (∀ r ∈ db.incomes, r.userId = userId → r.date = now - 60 * msPerDay →
        r ∈ d.last60DaysIncome.transactions) ∧
      (∀ r ∈ db.incomes, r.userId = userId → now < r.date →
        r ∈ d.last60DaysIncome.transactions) := by
  obtain ⟨d, hd, -, -, -, h60, -⟩ := getDashboardData_fields dbSort zone now db userId
  have hms : now - 60 * 24 * 60 * 60 * 1000 = now - 60 * msPerDay := by
    simp only [msPerDay]
    omega
  rw [hms] at h60
  have hmem : ∀ r, r ∈ d.last60DaysIncome.transactions
      ↔ r ∈ db.incomes ∧ r.userId = userId ∧ now - 60 * msPerDay ≤ r.date := by
    intro r
    rw [h60, mem_querySort, mem_findSince]
    rfl
  refine ⟨d, hd, ?_, ?_, ?_, ?_⟩
  · rw [h60]
    refine (dbSort.perm _ _).trans ?_
    have : findSince db.incomes userId (now - 60 * msPerDay)
        = db.incomes.filter (fun r => r.userId = userId ∧ now - 60 * msPerDay ≤ r.date) := by
      unfold findSince
      apply List.filter_congr
      intro r _
      by_cases hu : r.userId = userId <;> simp [Document.userId, Document.date, hu]
    rw [this]
  · intro r hr
    have := ((hmem r).mp hr).2.2
    omega
  · intro r hr hu hdate
    exact (hmem r).mpr ⟨hr, hu, by omega⟩
  · intro r hr hu hdate
    have : (0 : Int) ≤ 60 * msPerDay := by decide
    exact (hmem r).mpr ⟨hr, hu, by omega⟩

/-- C7: in a server time zone in which reading a local time back gives its own
calendar day, every instant lies between 00:00:00.000 and 23:59:59.999 of its
local day, and each day ends before the next one starts (which holds with a fixed
offset and across the changes to and from daylight-saving time): with the database
answering, the documents of `last30DaysExpense.transactions` are a permutation of
the requesting user's expense records dated within [00:00:00.000 of the local day
30 days before today, 23:59:59.999 of today], both ends included; every record of
the user dated on the local day of `now` is in it and no record dated on the local
day 31 days before is. -/
theorem last30DaysExpense_window (dbSort : QuerySort) (zone : TimeZone) (now : Int) (db : Db)
    (userId : ObjectId)
    (hround : ∀ x, localDay zone (zone.utc x) = x / msPerDay)
    (hwithin : ∀ t, startOfLocalDay zone (localDay zone t) ≤ t ∧
      t ≤ endOfLocalDay zone (localDay zone t))
    (hnext : ∀ day, endOfLocalDay zone day < startOfLocalDay zone (day + 1)) :
    ∃ d, getDashboardData dbSort none zone now db userId = ⟨200, .data d⟩ ∧
      (d.last30DaysExpense.transactions.map Tagged.doc).Perm
        (db.expenses.filter (fun r => r.userId = userId ∧
          startOfLocalDay zone (localDay zone now - 30) ≤ r.date ∧
          r.date ≤ endOfLocalDay zone (localDay zone now))) ∧
      (∀ r ∈ db.expenses, r.userId = userId → localDay zone r.date = localDay zone now →
        r ∈ d.last30DaysExpense.transactions.map Tagged.doc) ∧
      (∀ r, localDay zone r.date = localDay zone now - 31 →
        r ∉ d.last30DaysExpense.transactions.map Tagged.doc) := by
  obtain ⟨d, hd, -, -, -, -, -, h30, -⟩ := getDashboardData_fields dbSort zone now db userId
  rw [thirtyDaysAgo_eq zone now hround, today_eq] at h30
  have hdocs : d.last30DaysExpense.transactions.map Tagged.doc
      = dbSort.sort Expense.date (findBetween db.expenses userId
          (startOfLocalDay zone (localDay zone now - 30))
          (endOfLocalDay zone (localDay zone now))) := by
    rw [h30, List.map_map]
    exact List.map_id _
  have hmem : ∀ r, r ∈ d.last30DaysExpense.transactions.map Tagged.doc
      ↔ r ∈ db.expenses ∧ r.userId = userId ∧
        startOfLocalDay zone (localDay zone now - 30) ≤ r.date ∧
        r.date ≤ endOfLocalDay zone (localDay zone now) := by
    intro r
    rw [hdocs, mem_querySort, mem_findBetween]
    rfl
  refine ⟨d, hd, ?_, ?_, ?_⟩
  · rw [hdocs]
    refine (dbSort.perm _ _).trans ?_
    have : findBetween db.expenses userId
          (startOfLocalDay zone (localDay zone now - 30))
          (endOfLocalDay zone (localDay zone now))
        = db.expenses.filter (fun r => r.userId = userId ∧
            startOfLocalDay zone (localDay zone now - 30) ≤ r.date ∧
            r.date ≤ endOfLocalDay zone (localDay zone now)) := by
      unfold findBetween
      apply List.filter_congr
      intro r _
      by_cases hu : r.userId = userId <;> simp [Document.userId, Document.date, hu]
    rw [this]
  · intro r hr hu hday
    have hw := hwithin r.date
    rw [hday] at hw
    have hm := startOfLocalDay_mono zone hround hwithin hnext (localDay zone now - 30) 30
    have h30' : localDay zone now - 30 + ((30 : Nat) : Int) = localDay zone now := by
      push_cast
      ring
    rw [h30'] at hm
    exact (hmem r).mpr ⟨hr, hu, le_trans hm hw.1, hw.2⟩
  · intro r hday hr
    have hlow := ((hmem r).mp hr).2.2.1
    have hw := (hwithin r.date).2
    rw [hday] at hw
    have hn := hnext (localDay zone now - 31)
    have h31 : localDay zone now - 31 + 1 = localDay zone now - 30 := by ring
    rw [h31] at hn
    omega

/-- A zone with a fixed offset meets the three conditions of the window theorem. -/
theorem fixedOffset_days (tz : Int) :
    (∀ x, localDay (fixedOffset tz) ((fixedOffset tz).utc x) = x / msPerDay) ∧
    (∀ t, startOfLocalDay (fixedOffset tz) (localDay (fixedOffset tz) t) ≤ t ∧
      t ≤ endOfLocalDay (fixedOffset tz) (localDay (fixedOffset tz) t)) ∧
    (∀ day, endOfLocalDay (fixedOffset tz) day < startOfLocalDay (fixedOffset tz) (day + 1)) := by
  refine ⟨?_, ?_, ?_⟩
  · intro x
    simp only [localDay, fixedOffset, msPerDay]
    congr 1
    omega
  · intro t
    simp only [startOfLocalDay, endOfLocalDay, localDay, fixedOffset, msPerDay]
    omega
  · intro day
    simp only [startOfLocalDay, endOfLocalDay, fixedOffset, msPerDay]
    omega

theorem sampleZone_round (x : Int) : localDay sampleZone (sampleZone.utc x) = x / msPerDay := by
  simp only [localDay, sampleZone, msPerDay]
  split_ifs <;> omega

theorem sampleZone_within (t : Int) :
    startOfLocalDay sampleZone (localDay sampleZone t) ≤ t ∧
      t ≤ endOfLocalDay sampleZone (localDay sampleZone t) := by
  simp only [startOfLocalDay, endOfLocalDay, localDay, sampleZone, msPerDay]
  split_ifs <;> omega

theorem sampleZone_next (day : Int) :
    endOfLocalDay sampleZone day < startOfLocalDay sampleZone (day + 1) := by
  simp only [startOfLocalDay, endOfLocalDay, sampleZone, msPerDay]
  split_ifs <;> omega

/-- On 15 April 2024 at 12:00 Central European summer time the window of
`sampleDbSpring` holds the expense dated 16 March 00:00 local time (23:00 UTC of
15 March, winter time) and the one dated 15 April 23:59:59.999 local time; the
expense dated half an hour before the first and the one dated a millisecond after
the second are left out. -/
theorem last30DaysExpense_sample :
    ∃ d, getDashboardData stableSort none sampleZone sampleSpringNow sampleDbSpring 7
        = ⟨200, .data d⟩ ∧
      d.last30DaysExpense.transactions.map (fun t => t.doc._id) = [3, 2] := by
  refine ⟨_, rfl, ?_⟩
  decide

/-- Witness for C7: the server in `sampleZone`, where daylight-saving time starts
between the day 30 days back and `sampleSpringNow`. -/
theorem last30DaysExpense_window_witness :
    ∃ d, getDashboardData stableSort none sampleZone sampleSpringNow sampleDbSpring 7
        = ⟨200, .data d⟩ ∧
      (d.last30DaysExpense.transactions.map Tagged.doc).Perm
        (sampleDbSpring.expenses.filter (fun r => r.userId = 7 ∧
          startOfLocalDay sampleZone (localDay sampleZone sampleSpringNow - 30) ≤ r.date ∧
          r.date ≤ endOfLocalDay sampleZone (localDay sampleZone sampleSpringNow))) ∧
      (∀ r ∈ sampleDbSpring.expenses, r.userId = 7 →
        localDay sampleZone r.date = localDay sampleZone sampleSpringNow →
        r ∈ d.last30DaysExpense.transactions.map Tagged.doc) ∧
      (∀ r, localDay sampleZone r.date = localDay sampleZone sampleSpringNow - 31 →
        r ∉ d.last30DaysExpense.transactions.map Tagged.doc) :=
  last30DaysExpense_window stableSort sampleZone sampleSpringNow sampleDbSpring 7
    sampleZone_round sampleZone_within sampleZone_next

/-! ## Recent transactions -/

theorem take_drop_querySort (dbSort : QuerySort) {α : Type} (key : α → Int) (l : List α)
    (n : Nat) :
    ((dbSort.sort key l).take n ++ (dbSort.sort key l).drop n).Perm l ∧
    ((dbSort.sort key l).take n).length = min n l.length ∧
    ((dbSort.sort key l).take n).Pairwise (fun a b => key b ≤ key a) ∧
    (∀ a ∈ (dbSort.sort key l).take n, ∀ b ∈ (dbSort.sort key l).drop n, key b ≤ key a) := by
  have hs := dbSort.sorted key l
  rw [← List.take_append_drop n (dbSort.sort key l)] at hs
  have hs' := List.pairwise_append.mp hs
  refine ⟨?_, ?_, hs'.1, hs'.2.2⟩
  · rw [List.take_append_drop]
    exact dbSort.perm key l
  · rw [List.length_take, length_querySort]

theorem feedDate_eq :
    feedDate = fun t => Sum.elim Income.date Expense.date t.doc := by
  funext t
  unfold feedDate
  cases t.doc <;> rfl

/-- C9: with the database answering, for a user with `n` income and `m` expense
records `lastTransactions` has `min 5 n + min 5 m` items, at most 10 (exactly 10
for 5 and 5), sorted by the dates of the records descending; and the order among
equal dates is fixed by what the two queries returned: the items of one date are
the income records of that date among the five returned, in the order returned,
followed by the expense records of that date among the five returned, in the order
returned. -/
theorem lastTransactions_length_sorted (dbSort : QuerySort) (zone : TimeZone) (now : Int)
    (db : Db) (userId : ObjectId) :
    ∃ d, getDashboardData dbSort none zone now db userId = ⟨200, .data d⟩ ∧
      d.lastTransactions.length
        = min 5 (db.incomes.filter (fun r => r.userId = userId)).length
          + min 5 (db.expenses.filter (fun r => r.userId = userId)).length ∧
      d.lastTransactions.length ≤ 10 ∧
      ((db.incomes.filter (fun r => r.userId = userId)).length = 5 →
        (db.expenses.filter (fun r => r.userId = userId)).length = 5 →
        d.lastTransactions.length = 10) ∧
      d.lastTransactions.Pairwise (fun a b =>
        Sum.elim Income.date Expense.date b.doc ≤ Sum.elim Income.date Expense.date a.doc) ∧
      (∀ t : Int,
        d.lastTransactions.filter (fun x => Sum.elim Income.date Expense.date x.doc = t)
          = (((dbSort.sort Income.date
                (db.incomes.filter (fun r => r.userId = userId))).take 5).filter
              (fun r => r.date = t)).map (fun r => ⟨Sum.inl r, "income"⟩)
            ++ (((dbSort.sort Expense.date
                (db.expenses.filter (fun r => r.userId = userId))).take 5).filter
              (fun r => r.date = t)).map (fun r => ⟨Sum.inr r, "expense"⟩)) := by
  obtain ⟨d, hd, -, -, -, -, -, -, -, hl, -⟩ := getDashboardData_fields dbSort zone now db userId
  rw [feedDate_eq, findByUser_eq_filter, findByUser_eq_filter] at hl
  have hlen : d.lastTransactions.length
      = min 5 (db.incomes.filter (fun r => r.userId = userId)).length
        + min 5 (db.expenses.filter (fun r => r.userId = userId)).length := by
    rw [hl, length_sortDesc, List.length_append, List.length_map, List.length_map,
      List.length_take, List.length_take, length_querySort, length_querySort]
    rfl
  refine ⟨d, hd, hlen, ?_, ?_, ?_, ?_⟩
  · rw [hlen]
    omega
  · intro hn hm
    rw [hlen, hn, hm]
    rfl
  · rw [hl]
    exact sortDesc_sorted _ _
  · intro t
    rw [hl, sortDesc_filter_key, List.filter_append, List.filter_map, List.filter_map]
    rfl

/-- A user with two income and two expense records, all of one date: the feed lists
the income records first, each kind in the order its query returned. -/
theorem lastTransactions_sample_ties :
    ∃ d, getDashboardData reverseSort none utcZone 3000 sampleDbTies 7 = ⟨200, .data d⟩ ∧
      d.lastTransactions.map (fun t => Sum.elim Income._id Expense._id t.doc)
        = [12, 11, 2, 1, 3] := by
  refine ⟨_, rfl, ?_⟩
  decide

/-- C10: with the database answering, `lastTransactions` is a permutation of the
user's 5 most recent income records, each spread unchanged under the tag `income`,
followed by the user's 5 most recent expense records, each spread unchanged under
the tag `expense`.  The most recent records are a date-descending list `top` of
`min 5 n` of the user's `n` records such that the user's records are a permutation
of `top ++ rest` with no record of `rest` dated after a record of `top`. -/
theorem lastTransactions_perm (dbSort : QuerySort) (zone : TimeZone) (now : Int) (db : Db)
    (userId : ObjectId) :
    ∃ (d : DashboardSummary) (topIncome restIncome : List Income)
        (topExpense restExpense : List Expense),
      getDashboardData dbSort none zone now db userId = ⟨200, .data d⟩ ∧
      d.lastTransactions.Perm
        (topIncome.map (fun t => ⟨Sum.inl t, "income"⟩)
          ++ topExpense.map (fun t => ⟨Sum.inr t, "expense"⟩)) ∧
      (topIncome ++ restIncome).Perm (db.incomes.filter (fun r => r.userId = userId)) ∧
      topIncome.length = min 5 (db.incomes.filter (fun r => r.userId = userId)).length ∧
      topIncome.Pairwise (fun a b => b.date ≤ a.date) ∧
      (∀ a ∈ topIncome, ∀ b ∈ restIncome, b.date ≤ a.date) ∧
      (topExpense ++ restExpense).Perm (db.expenses.filter (fun r => r.userId = userId)) ∧
      topExpense.length = min 5 (db.expenses.filter (fun r => r.userId = userId)).length ∧
      topExpense.Pairwise (fun a b => b.date ≤ a.date) ∧
      (∀ a ∈ topExpense, ∀ b ∈ restExpense, b.date ≤ a.date) := by
  obtain ⟨d, hd, -, -, -, -, -, -, -, hl, -⟩ := getDashboardData_fields dbSort zone now db userId
  obtain ⟨pI, lI, sI, cI⟩ :=
    take_drop_querySort dbSort Income.date (findByUser db.incomes userId) 5
  obtain ⟨pE, lE, sE, cE⟩ :=
    take_drop_querySort dbSort Expense.date (findByUser db.expenses userId) 5
  rw [findByUser_eq_filter] at pI lI pE lE
  refine ⟨d, _, _, _, _, hd, ?_, pI, lI, sI, cI, pE, lE, sE, cE⟩
  rw [hl]
  exact sortDesc_perm _ _

/-! ## Full expense list -/

/-- C11: with the database answering, the documents of `allExpenses` are a
permutation of all the expense records of the user (as many items as records, no
limit), the list is sorted by date descending, and every item is the whole record
under the tag `expense`. -/
theorem allExpenses_perm_sorted (dbSort : QuerySort) (zone : TimeZone) (now : Int) (db : Db)
    (userId : ObjectId) :
    ∃ d, getDashboardData dbSort none zone now db userId = ⟨200, .data d⟩ ∧
      (d.allExpenses.map Tagged.doc).Perm
        (db.expenses.filter (fun r => r.userId = userId)) ∧
      d.allExpenses.length = (db.expenses.filter (fun r => r.userId = userId)).length ∧
      d.allExpenses.Pairwise (fun a b => b.doc.date ≤ a.doc.date) ∧
      (∀ t ∈ d.allExpenses, t.type = "expense") := by
  obtain ⟨d, hd, -, -, -, -, -, -, -, -, hall⟩ :=
    getDashboardData_fields dbSort zone now db userId
  have hdocs : d.allExpenses.map Tagged.doc
      = dbSort.sort Expense.date (findByUser db.expenses userId) := by
    rw [hall, List.map_map]
    exact List.map_id _
  have hperm : (d.allExpenses.map Tagged.doc).Perm
      (db.expenses.filter (fun r => r.userId = userId)) := by
    rw [hdocs]
    refine (dbSort.perm _ _).trans ?_
    rw [findByUser_eq_filter]
    rfl
  refine ⟨d, hd, hperm, ?_, ?_, ?_⟩
  · rw [← hperm.length_eq, List.length_map]
  · rw [hall, List.pairwise_map]
    exact dbSort.sorted _ _
  · intro t ht
    rw [hall, List.mem_map] at ht
    obtain ⟨r, -, rfl⟩ := ht
    rfl

/-! ## Adding a transaction -/

theorem missing_iff (field : Option String) :
    missing field = true ↔ field = none ∨ field = some "" := by
  cases field with
  | none => simp [missing]
  | some s => simp [missing]

/-- C12: whatever the database does, when the body lacks the category (the source
for income), the amount or the date, absent or empty, `addExpense` and `addIncome`
answer 400 with the message `All fields are required` and return the store
unchanged. -/
theorem add_missing_field (castNumber parseDate : String → Option Int)
    (fault : Option JsError) (newId : ObjectId) (now : Int) (db : Db) (userId : ObjectId) :
    (∀ body : ExpenseBody,
      (body.category = none ∨ body.category = some "" ∨ body.amount = .absent ∨
        body.amount = .text "" ∨ body.date = none ∨ body.date = some "") →
      addExpense castNumber parseDate fault newId now db userId body
        = (db, ⟨400, .message "All fields are required"⟩)) ∧
    (∀ body : IncomeBody,
      (body.source = none ∨ body.source = some "" ∨ body.amount = .absent ∨
        body.amount = .text "" ∨ body.date = none ∨ body.date = some "") →
      addIncome castNumber parseDate fault newId now db userId body
        = (db, ⟨400, .message "All fields are required"⟩)) := by
  constructor
  · intro body h
    have hm : (missing body.category || missingAmount body.amount || missing body.date)
        = true := by
      rcases h with h | h | h | h | h | h <;> simp [h, missing, missingAmount]
    unfold addExpense
    rw [if_pos hm]
  · intro body h
    have hm : (missing body.source || missingAmount body.amount || missing body.date)
        = true := by
      rcases h with h | h | h | h | h | h <;> simp [h, missing, missingAmount]
    unfold addIncome
    rw [if_pos hm]

theorem validateTransaction_negative (model label : String) (n : Int) (date : Option Int)
    (hn : n < 0) :
    validateTransaction model label (some n) date
      = .error ⟨"ValidationError", model ++ " validation failed", none⟩ := by
  unfold validateTransaction
  cases date with
  | none => rfl
  | some d =>
    have : ¬ (trim label ≠ "" ∧ 0 ≤ n) := fun h => by omega
    simp only [this, if_false]

/-- The request `{ category: "Food", amount: -5, date: "2024-01-01" }` on
`sampleDb` is answered 500, not 400, and stores nothing. -/
theorem add_negative_amount_not_400 :
    (addExpense (fun _ => none) (fun _ => some 1704067200000) none 10 5 sampleDb 7
        ⟨none, some "Food", .number (-5), some "2024-01-01"⟩).2.status ≠ 400 ∧
    addExpense (fun _ => none) (fun _ => some 1704067200000) none 10 5 sampleDb 7
        ⟨none, some "Food", .number (-5), some "2024-01-01"⟩
      = (sampleDb, ⟨500, .failure "Server error" "Expense validation failed"⟩) ∧
    (addIncome (fun _ => none) (fun _ => some 1704067200000) none 10 5 sampleDb 7
        ⟨none, some "Salary", .number (-5), some "2024-01-01"⟩).2.status ≠ 400 ∧
    addIncome (fun _ => none) (fun _ => some 1704067200000) none 10 5 sampleDb 7
        ⟨none, some "Salary", .number (-5), some "2024-01-01"⟩
      = (sampleDb, ⟨500, .failure "Server error" "Income validation failed"⟩) := by
  decide

/-- C13 (amended): whatever the database does, for a body with the category (the
source for income) and the date present and a negative number as amount, the
schema validation of `save()` throws a `ValidationError`, which the `catch` of
`addExpense` and `addIncome` answers with status 500, `Server error` and the
error's message; the store is returned unchanged. -/
theorem add_negative_amount (castNumber parseDate : String → Option Int)
    (fault : Option JsError) (newId : ObjectId) (now : Int) (db : Db) (userId : ObjectId)
    (icon : Option String) (label date : String) (n : Int)
    (hlabel : label ≠ "") (hdate : date ≠ "") (hn : n < 0) :
    addExpense castNumber parseDate fault newId now db userId
        ⟨icon, some label, .number n, some date⟩
      = (db, ⟨500, .failure "Server error" "Expense validation failed"⟩) ∧
    addIncome castNumber parseDate fault newId now db userId
        ⟨icon, some label, .number n, some date⟩
      = (db, ⟨500, .failure "Server error" "Income validation failed"⟩) := by
  have hn0 : n ≠ 0 := by omega
  have hm : (missing (some label) || missingAmount (.number n) || missing (some date))
      = false := by
    simp [missing, missingAmount, hlabel, hdate, hn0]
  constructor
  · unfold addExpense
    simp only [hm, Bool.false_eq_true, if_false, castAmount, Option.getD_some,
      validateTransaction_negative _ _ _ _ hn, bind, Except.bind]
    rfl
  · unfold addIncome
    simp only [hm, Bool.false_eq_true, if_false, castAmount, Option.getD_some,
      validateTransaction_negative _ _ _ _ hn, bind, Except.bind]
    rfl

/-- Witness for C13: amount -5 with category `Food`. -/
theorem add_negative_amount_witness :
    addExpense (fun _ => none) (fun _ => some 1704067200000) none 10 5 sampleDb 7
        ⟨none, some "Food", .number (-5), some "2024-01-01"⟩
      = (sampleDb, ⟨500, .failure "Server error" "Expense validation failed"⟩) ∧
    addIncome (fun _ => none) (fun _ => some 1704067200000) none 10 5 sampleDb 7
        ⟨none, some "Food", .number (-5), some "2024-01-01"⟩
      = (sampleDb, ⟨500, .failure "Server error" "Income validation failed"⟩) :=
  add_negative_amount (fun _ => none) (fun _ => some 1704067200000) none 10 5 sampleDb 7
    none "Food" "2024-01-01" (-5) (by decide) (by decide) (by decide)

/-! ## Invariant of the transaction store -/

theorem validateTransaction_ok {model label : String} {amount date : Option Int}
    {l : String} {a d : Int} (h : validateTransaction model label amount date = .ok (l, a, d)) :
    l = trim label ∧ l ≠ "" ∧ amount = some a ∧ 0 ≤ a ∧ date = some d := by
  unfold validateTransaction at h
  split at h
  · split at h
    · rename_i hv
      cases h
      exact ⟨rfl, hv.1, rfl, hv.2, rfl⟩
    · cases h
  · cases h

theorem addExpense_store (castNumber parseDate : String → Option Int)
    (fault : Option JsError) (newId : ObjectId) (now : Int) (db : Db) (userId : ObjectId)
    (body : ExpenseBody) :
    (addExpense castNumber parseDate fault newId now db userId body).1 = db ∨
    ∃ new : Expense,
      (addExpense castNumber parseDate fault newId now db userId body).1
        = { db with expenses := db.expenses ++ [new] } ∧
      0 ≤ new.amount ∧ new.userId = userId ∧ new._id = newId := by
  unfold addExpense
  split
  · exact Or.inl rfl
  · cases hv : validateTransaction "Expense" (body.category.getD "")
        (castAmount castNumber body.amount) (parseDate (body.date.getD "")) with
    | error e => exact Or.inl rfl
    | ok r =>
      obtain ⟨l, a, d⟩ := r
      cases fault with
      | some e => exact Or.inl rfl
      | none => exact Or.inr ⟨_, rfl, (validateTransaction_ok hv).2.2.2.1, rfl, rfl⟩

theorem addIncome_store (castNumber parseDate : String → Option Int)
    (fault : Option JsError) (newId : ObjectId) (now : Int) (db : Db) (userId : ObjectId)
    (body : IncomeBody) :
    (addIncome castNumber parseDate fault newId now db userId body).1 = db ∨
    ∃ new : Income,
      (addIncome castNumber parseDate fault newId now db userId body).1
        = { db with incomes := db.incomes ++ [new] } ∧
      0 ≤ new.amount ∧ new.userId = userId ∧ new._id = newId := by
  unfold addIncome
  split
  · exact Or.inl rfl
  · cases hv : validateTransaction "Income" (body.source.getD "")
        (castAmount castNumber body.amount) (parseDate (body.date.getD "")) with
    | error e => exact Or.inl rfl
    | ok r =>
      obtain ⟨l, a, d⟩ := r
      cases fault with
      | some e => exact Or.inl rfl
      | none => exact Or.inr ⟨_, rfl, (validateTransaction_ok hv).2.2.2.1, rfl, rfl⟩

theorem deleteExpense_store (fault : Option JsError) (db : Db) (id userId : ObjectId) :
    (deleteExpense fault db id userId).1 = db ∨
    (deleteExpense fault db id userId).1
      = { db with expenses := findByIdAndDelete db.expenses id } := by
  unfold deleteExpense dbCall
  cases fault with
  | some e => exact Or.inl rfl
  | none =>
    cases findById db.expenses id with
    | none => exact Or.inl rfl
    | some e =>
      by_cases h : e.userId = userId <;> simp [h]

theorem deleteIncome_store (fault : Option JsError) (db : Db) (id userId : ObjectId) :
    (deleteIncome fault db id userId).1 = db ∨
    (deleteIncome fault db id userId).1
      = { db with incomes := findByIdAndDelete db.incomes id } := by
  unfold deleteIncome dbCall
  cases fault with
  | some e => exact Or.inl rfl
  | none =>
    cases findById db.incomes id with
    | none => exact Or.inl rfl
    | some i =>
      by_cases h : i.userId = userId <;> simp [h]

/-- One request either leaves a collection as it is, removes one record from it,
or appends one record with a non-negative amount. -/
theorem step_collections (castNumber parseDate : String → Option Int) (db : Db)
    (req : Request) :
    ((step castNumber parseDate db req).expenses.Sublist db.expenses ∨
      ∃ new : Expense, (step castNumber parseDate db req).expenses = db.expenses ++ [new] ∧
        0 ≤ new.amount) ∧
    ((step castNumber parseDate db req).incomes.Sublist db.incomes ∨
      ∃ new : Income, (step castNumber parseDate db req).incomes = db.incomes ++ [new] ∧
        0 ≤ new.amount) := by
  cases req with
  | addExpense fault newId now userId body =>
    rcases addExpense_store castNumber parseDate fault newId now db userId body with h | h
    · simp only [step, h]
      exact ⟨Or.inl (List.Sublist.refl _), Or.inl (List.Sublist.refl _)⟩
    · obtain ⟨new, h, hn, -, -⟩ := h
      simp only [step, h]
      exact ⟨Or.inr ⟨new, rfl, hn⟩, Or.inl (List.Sublist.refl _)⟩
  | addIncome fault newId now userId body =>
    rcases addIncome_store castNumber parseDate fault newId now db userId body with h | h
    · simp only [step, h]
      exact ⟨Or.inl (List.Sublist.refl _), Or.inl (List.Sublist.refl _)⟩
    · obtain ⟨new, h, hn, -, -⟩ := h
      simp only [step, h]
      exact ⟨Or.inl (List.Sublist.refl _), Or.inr ⟨new, rfl, hn⟩⟩
  | deleteExpense fault id userId =>
    rcases deleteExpense_store fault db id userId with h | h
    · simp only [step, h]
      exact ⟨Or.inl (List.Sublist.refl _), Or.inl (List.Sublist.refl _)⟩
    · simp only [step, h]
      exact ⟨Or.inl (findByIdAndDelete_sublist _ _), Or.inl (List.Sublist.refl _)⟩
  | deleteIncome fault id userId =>
    rcases deleteIncome_store fault db id userId with h | h
    · simp only [step, h]
      exact ⟨Or.inl (List.Sublist.refl _), Or.inl (List.Sublist.refl _)⟩
    · simp only [step, h]
      exact ⟨Or.inl (List.Sublist.refl _), Or.inl (findByIdAndDelete_sublist _ _)⟩

theorem step_nonneg (castNumber parseDate : String → Option Int) (db : Db) (req : Request)
    (h : (∀ r ∈ db.expenses, 0 ≤ r.amount) ∧ (∀ r ∈ db.incomes, 0 ≤ r.amount)) :
    (∀ r ∈ (step castNumber parseDate db req).expenses, 0 ≤ r.amount) ∧
    (∀ r ∈ (step castNumber parseDate db req).incomes, 0 ≤ r.amount) := by
  obtain ⟨hE, hI⟩ := step_collections castNumber parseDate db req
  constructor
  · intro r hr
    rcases hE with hs | ⟨new, hs, hn⟩
    · exact h.1 r (hs.subset hr)
    · rw [hs, List.mem_append, List.mem_singleton] at hr
      rcases hr with hr | rfl
      · exact h.1 r hr
      · exact hn
  · intro r hr
    rcases hI with hs | ⟨new, hs, hn⟩
    · exact h.2 r (hs.subset hr)
    · rw [hs, List.mem_append, List.mem_singleton] at hr
      rcases hr with hr | rfl
      · exact h.2 r hr
      · exact hn

/-- C14: from a store whose records all have an amount `≥ 0`, every sequence of
`addExpense`, `addIncome`, `deleteExpense` and `deleteIncome` requests, successful
or failing and whatever the database does, leads to a store whose records all have
an amount `≥ 0`.  No request rewrites a record: from any store, a request leaves
each collection as it is, removes one record or appends one, so a record that
stays keeps its owner and every other field. -/
theorem store_invariant (castNumber parseDate : String → Option Int) (db : Db)
    (requests : List Request)
    (hExpense : ∀ r ∈ db.expenses, 0 ≤ r.amount)
    (hIncome : ∀ r ∈ db.incomes, 0 ≤ r.amount) :
    (∀ r ∈ (run castNumber parseDate db requests).expenses, 0 ≤ r.amount) ∧
    (∀ r ∈ (run castNumber parseDate db requests).incomes, 0 ≤ r.amount) ∧
    (∀ (db' : Db) (req : Request),
      ((step castNumber parseDate db' req).expenses.Sublist db'.expenses ∨
        ∃ new : Expense, (step castNumber parseDate db' req).expenses = db'.expenses ++ [new]) ∧
      ((step castNumber parseDate db' req).incomes.Sublist db'.incomes ∨
        ∃ new : Income, (step castNumber parseDate db' req).incomes = db'.incomes ++ [new])) := by
  have hrun : ∀ (reqs : List Request) (s : Db),
      ((∀ r ∈ s.expenses, 0 ≤ r.amount) ∧ (∀ r ∈ s.incomes, 0 ≤ r.amount)) →
      (∀ r ∈ (run castNumber parseDate s reqs).expenses, 0 ≤ r.amount) ∧
      (∀ r ∈ (run castNumber parseDate s reqs).incomes, 0 ≤ r.amount) := by
    intro reqs
    induction reqs with
    | nil => intro s hs; exact hs
    | cons req reqs ih =>
      intro s hs
      exact ih _ (step_nonneg castNumber parseDate s req hs)
  obtain ⟨h1, h2⟩ := hrun requests db ⟨hExpense, hIncome⟩
  refine ⟨h1, h2, ?_⟩
  intro db' req
  obtain ⟨hE, hI⟩ := step_collections castNumber parseDate db' req
  constructor
  · rcases hE with h | ⟨new, h, -⟩
    · exact Or.inl h
    · exact Or.inr ⟨new, h⟩
  · rcases hI with h | ⟨new, h, -⟩
    · exact Or.inl h
    · exact Or.inr ⟨new, h⟩

/-- Witness for C14: the four `sampleRequests` on `sampleDb`. -/
theorem store_invariant_witness :
    (run (fun _ => none) sampleParseDate sampleDb sampleRequests).expenses.length = 2 ∧
    (∀ r ∈ (run (fun _ => none) sampleParseDate sampleDb sampleRequests).expenses,
      0 ≤ r.amount) ∧
    (∀ r ∈ (run (fun _ => none) sampleParseDate sampleDb sampleRequests).incomes,
      0 ≤ r.amount) :=
  ⟨by decide,
    (store_invariant (fun _ => none) sampleParseDate sampleDb sampleRequests
      (by decide) (by decide)).1,
    (store_invariant (fun _ => none) sampleParseDate sampleDb sampleRequests
      (by decide) (by decide)).2.1⟩
/-! ## Listing the transactions of a user -/

/-- On `sampleDbTies`, with a database that returns documents of equal date in
reverse natural order, `getAllExpense` lists expense 2 before expense 1, which was
inserted first: the records of the date 2000 are not in insertion order. -/
theorem getAll_ties_reversed :
    ∃ expenses, getAllExpense reverseSort none sampleDbTies 7 = ⟨200, .data expenses⟩ ∧
      expenses.map Expense._id = [2, 1, 3] ∧
      expenses.filter (fun r => r.date = 2000)
        ≠ sampleDbTies.expenses.filter (fun r => r.userId = 7 ∧ r.date = 2000) := by
  refine ⟨_, rfl, ?_, ?_⟩ <;> decide

/-- C15 (amended): with the database answering, whatever order the database gives
to documents of equal date, `getAllExpense` and `getAllIncome` answer 200 with what
the sorted query returned: a permutation of the records owned by the requesting
user (each once, none of another user), sorted by date descending, the records of
any one date being a permutation of the user's records of that date.  With a
database that keeps documents of equal date in natural order, the records of any
one date come in the order they have in the collection (the insertion order). -/
theorem getAll_sorted_stable (dbSort : QuerySort) (db : Db) (userId : ObjectId) :
    (∃ expenses, getAllExpense dbSort none db userId = ⟨200, .data expenses⟩ ∧
      expenses = dbSort.sort Expense.date (db.expenses.filter (fun r => r.userId = userId)) ∧
      expenses.Perm (db.expenses.filter (fun r => r.userId = userId)) ∧
      expenses.Pairwise (fun a b => b.date ≤ a.date) ∧
      ∀ t : Int, (expenses.filter (fun r => r.date = t)).Perm
        (db.expenses.filter (fun r => r.userId = userId ∧ r.date = t))) ∧
    (∃ income, getAllIncome dbSort none db userId = ⟨200, .data income⟩ ∧
      income = dbSort.sort Income.date (db.incomes.filter (fun r => r.userId = userId)) ∧
      income.Perm (db.incomes.filter (fun r => r.userId = userId)) ∧
      income.Pairwise (fun a b => b.date ≤ a.date) ∧
      ∀ t : Int, (income.filter (fun r => r.date = t)).Perm
        (db.incomes.filter (fun r => r.userId = userId ∧ r.date = t))) ∧
    (∃ expenses, getAllExpense stableSort none db userId = ⟨200, .data expenses⟩ ∧
      ∀ t : Int, expenses.filter (fun r => r.date = t)
        = db.expenses.filter (fun r => r.userId = userId ∧ r.date = t)) ∧
    (∃ income, getAllIncome stableSort none db userId = ⟨200, .data income⟩ ∧
      ∀ t : Int, income.filter (fun r => r.date = t)
        = db.incomes.filter (fun r => r.userId = userId ∧ r.date = t)) := by
  have hfE : ∀ t : Int, (db.expenses.filter (fun r => r.userId = userId)).filter
        (fun r => r.date = t)
      = db.expenses.filter (fun r => r.userId = userId ∧ r.date = t) := by
    intro t
    rw [List.filter_filter]
    apply List.filter_congr
    intro r _
    by_cases h1 : r.userId = userId <;> by_cases h2 : r.date = t <;> simp [h1, h2]
  have hfI : ∀ t : Int, (db.incomes.filter (fun r => r.userId = userId)).filter
        (fun r => r.date = t)
      = db.incomes.filter (fun r => r.userId = userId ∧ r.date = t) := by
    intro t
    rw [List.filter_filter]
    apply List.filter_congr
    intro r _
    by_cases h1 : r.userId = userId <;> by_cases h2 : r.date = t <;> simp [h1, h2]
  have hE : findByUser db.expenses userId = db.expenses.filter (fun r => r.userId = userId) :=
    findByUser_eq_filter _ _
  have hI : findByUser db.incomes userId = db.incomes.filter (fun r => r.userId = userId) :=
    findByUser_eq_filter _ _
  refine ⟨⟨_, rfl, by rw [hE], ?_, dbSort.sorted _ _, ?_⟩,
    ⟨_, rfl, by rw [hI], ?_, dbSort.sorted _ _, ?_⟩, ⟨_, rfl, ?_⟩, ⟨_, rfl, ?_⟩⟩
  · rw [hE]
    exact dbSort.perm _ _
  · intro t
    rw [hE, ← hfE t]
    exact (dbSort.perm _ _).filter _
  · rw [hI]
    exact dbSort.perm _ _
  · intro t
    rw [hI, ← hfI t]
    exact (dbSort.perm _ _).filter _
  · intro t
    rw [hE, ← hfE t]
    exact sortDesc_filter_key Expense.date t _
  · intro t
    rw [hI, ← hfI t]
    exact sortDesc_filter_key Income.date t _

/-! ## Adding then listing -/

theorem validateTransaction_valid (model label : String) (n d : Int)
    (hlabel : trim label ≠ "") (hn : 0 ≤ n) :
    validateTransaction model label (some n) (some d) = .ok (trim label, n, d) := by
  unfold validateTransaction
  exact if_pos ⟨hlabel, hn⟩

theorem ne_empty_of_trim_ne_empty {s : String} (h : trim s ≠ "") : s ≠ "" := by
  rintro rfl
  exact h (by decide)

theorem querySort_findByUser_append (dbSort : QuerySort) {α : Type} [Document α]
    (key : α → Int) (docs : List α) (new : α) (userId : ObjectId)
    (hnew : Document.userId new = userId) :
    (dbSort.sort key (findByUser (docs ++ [new]) userId)).Perm
      (new :: dbSort.sort key (findByUser docs userId)) := by
  have hf : findByUser (docs ++ [new]) userId = findByUser docs userId ++ [new] := by
    simp [findByUser, List.filter_append, hnew]
  rw [hf]
  refine (dbSort.perm key _).trans ?_
  refine List.perm_append_comm.trans ?_
  exact List.Perm.cons new (dbSort.perm key _).symm

/-- In an empty store, the request `{ category: " Food ", amount: 50, date:
"2024-01-01" }` is answered 201 and the list then holds one record, whose category
is `Food`, not the submitted ` Food `; with the category `"   "` the answer is 500. -/
theorem add_then_get_category_not_submitted :
    (addExpense (fun _ => none) sampleParseDate none 10 5 ⟨[], []⟩ 7
      ⟨none, some " Food ", .number 50, some "2024-01-01"⟩).2.status = 201 ∧
    getAllExpense stableSort none (addExpense (fun _ => none) sampleParseDate none 10 5 ⟨[], []⟩ 7
        ⟨none, some " Food ", .number 50, some "2024-01-01"⟩).1 7
      = ⟨200, .data [⟨10, 7, none, "Food", 50, 1704067200000, 5, 5⟩]⟩ ∧
    (¬ ∃ r ∈ [(⟨10, 7, none, "Food", 50, 1704067200000, 5, 5⟩ : Expense)],
      r.category = " Food ") ∧
    (addExpense (fun _ => none) sampleParseDate none 10 5 ⟨[], []⟩ 7
      ⟨none, some "   ", .number 50, some "2024-01-01"⟩).2.status = 500 := by
  decide

/-- C16 (amended): with the database answering, for a body whose category (source
for income) is non-empty after trimming, whose amount is a positive number and
whose date parses, `addExpense` answers 201 with the new record, owned by the
requesting user, carrying the submitted category trimmed of surrounding white
space, the submitted amount and the parsed date; the next `getAllExpense` of that
user returns a permutation of the new record and the previous list.  The same
holds for `addIncome` and `getAllIncome`. -/
theorem add_then_get (dbSort : QuerySort) (castNumber parseDate : String → Option Int)
    (newId : ObjectId)
    (now : Int) (db : Db) (userId : ObjectId) (icon : Option String) (label date : String)
    (n d : Int) (hlabel : trim label ≠ "") (hn : 0 < n) (hdate : date ≠ "")
    (hparse : parseDate date = some d) :
    (∃ db' before after,
      addExpense castNumber parseDate none newId now db userId
          ⟨icon, some label, .number n, some date⟩
        = (db', ⟨201, .data ⟨"Expense added successfully",
            ⟨newId, userId, icon, trim label, n, d, now, now⟩⟩⟩) ∧
      getAllExpense dbSort none db userId = ⟨200, .data before⟩ ∧
      getAllExpense dbSort none db' userId = ⟨200, .data after⟩ ∧
      after.Perm (⟨newId, userId, icon, trim label, n, d, now, now⟩ :: before)) ∧
    (∃ db' before after,
      addIncome castNumber parseDate none newId now db userId
          ⟨icon, some label, .number n, some date⟩
        = (db', ⟨201, .data ⟨"Income added successfully",
            ⟨newId, userId, icon, trim label, n, d, now, now⟩⟩⟩) ∧
      getAllIncome dbSort none db userId = ⟨200, .data before⟩ ∧
      getAllIncome dbSort none db' userId = ⟨200, .data after⟩ ∧
      after.Perm (⟨newId, userId, icon, trim label, n, d, now, now⟩ :: before)) := by
  have hn0 : n ≠ 0 := by omega
  have hm : (missing (some label) || missingAmount (.number n) || missing (some date))
      = false := by
    simp [missing, missingAmount, ne_empty_of_trim_ne_empty hlabel, hdate, hn0]
  constructor
  · refine ⟨{ db with expenses := db.expenses
        ++ [⟨newId, userId, icon, trim label, n, d, now, now⟩] }, _, _, ?_, rfl, rfl, ?_⟩
    · unfold addExpense
      simp only [hm, Bool.false_eq_true, if_false, castAmount, Option.getD_some, hparse,
        validateTransaction_valid _ _ _ _ hlabel (le_of_lt hn), bind, Except.bind, dbCall]
      rfl
    · exact querySort_findByUser_append dbSort _ _ _ _ rfl
  · refine ⟨{ db with incomes := db.incomes
        ++ [⟨newId, userId, icon, trim label, n, d, now, now⟩] }, _, _, ?_, rfl, rfl, ?_⟩
    · unfold addIncome
      simp only [hm, Bool.false_eq_true, if_false, castAmount, Option.getD_some, hparse,
        validateTransaction_valid _ _ _ _ hlabel (le_of_lt hn), bind, Except.bind, dbCall]
      rfl
    · exact querySort_findByUser_append dbSort _ _ _ _ rfl

/-- Witness for C16: `{ category: "Food", amount: 50, date: "2024-01-01" }` for a
user with no expenses. -/
theorem add_then_get_witness :
    getAllExpense stableSort none (addExpense (fun _ => none) sampleParseDate none 10 5 ⟨[], []⟩ 7
        ⟨none, some "Food", .number 50, some "2024-01-01"⟩).1 7
      = ⟨200, .data [⟨10, 7, none, "Food", 50, 1704067200000, 5, 5⟩]⟩ ∧
    ((∃ db' before after,
      addExpense (fun _ => none) sampleParseDate none 10 5 ⟨[], []⟩ 7
          ⟨none, some "Food", .number 50, some "2024-01-01"⟩
        = (db', ⟨201, .data ⟨"Expense added successfully",
            ⟨10, 7, none, trim "Food", 50, 1704067200000, 5, 5⟩⟩⟩) ∧
      getAllExpense stableSort none ⟨[], []⟩ 7 = ⟨200, .data before⟩ ∧
      getAllExpense stableSort none db' 7 = ⟨200, .data after⟩ ∧
      after.Perm (⟨10, 7, none, trim "Food", 50, 1704067200000, 5, 5⟩ :: before)) ∧
    (∃ db' before after,
      addIncome (fun _ => none) sampleParseDate none 10 5 ⟨[], []⟩ 7
          ⟨none, some "Food", .number 50, some "2024-01-01"⟩
        = (db', ⟨201, .data ⟨"Income added successfully",
            ⟨10, 7, none, trim "Food", 50, 1704067200000, 5, 5⟩⟩⟩) ∧
      getAllIncome stableSort none ⟨[], []⟩ 7 = ⟨200, .data before⟩ ∧
      getAllIncome stableSort none db' 7 = ⟨200, .data after⟩ ∧
      after.Perm (⟨10, 7, none, trim "Food", 50, 1704067200000, 5, 5⟩ :: before))) :=
  ⟨by decide, add_then_get stableSort (fun _ => none) sampleParseDate 10 5 ⟨[], []⟩ 7 none
    "Food" "2024-01-01" 50 1704067200000 (by decide) (by decide) (by decide) (by decide)⟩

/-! ## Registration -/

theorem toLower_toLower (c : Char) : c.toLower.toLower = c.toLower := by
  have hc : c = Char.ofNat c.toNat := (Char.ofNat_toNat c).symm
  by_cases h : 65 ≤ c.toNat ∧ c.toNat ≤ 90
  · obtain ⟨h1, h2⟩ := h
    generalize c.toNat = n at hc h1 h2
    subst hc
    interval_cases n <;> decide
  · have h1 : c.toLower = c := by
      unfold Char.toLower
      exact if_neg h
    rw [h1, h1]

theorem map_toLower_eq_self (l : List Char) (h : ∀ c ∈ l, c.toLower = c) :
    l.map Char.toLower = l := by
  induction l with
  | nil => rfl
  | cons a l ih =>
    rw [List.map_cons, h a (List.mem_cons_self a l),
      ih (fun c hc => h c (List.mem_cons_of_mem a hc))]

theorem toLowerCaseAscii_trim (s : String) :
    toLowerCaseAscii (trim (toLowerCaseAscii s)) = trim (toLowerCaseAscii s) := by
  unfold trim
  show String.mk (List.map Char.toLower _) = _
  congr 1
  apply map_toLower_eq_self
  intro c hc
  have h1 := (List.dropWhile_sublist isJsWhitespace).subset (List.mem_reverse.mp hc)
  have h2 := (List.dropWhile_sublist isJsWhitespace).subset (List.mem_reverse.mp h1)
  have h3 : c ∈ s.toList.map Char.toLower := h2
  obtain ⟨c', -, rfl⟩ := List.mem_map.mp h3
  exact toLower_toLower c'

theorem missing_some_ne {s : String} (h : s ≠ "") : missing (some s) = false := by
  simp [missing, h]

theorem registerUser_found (toLowerCase : String → String)
    (runSettersOnQuery : Bool) (hash : String → String)
    (jwtSign : ObjectId → String → String) (secret : String) (newId : ObjectId) (now : Int)
    (users : List User) (name email password : String) (image : Option String) (u : User)
    (hname : name ≠ "") (hemail : email ≠ "") (hpw : password ≠ "")
    (hfound : findOneByEmail toLowerCase runSettersOnQuery users email = some u) :
    registerUser toLowerCase runSettersOnQuery hash jwtSign secret none newId now users
        ⟨some name, some email, some password, image⟩
      = (users, ⟨400, .message "User already exists"⟩) := by
  unfold registerUser
  simp only [missing_some_ne hname, missing_some_ne hemail, missing_some_ne hpw,
    Bool.or_self, Bool.false_eq_true, if_false, Option.getD_some, dbCall, hfound, bind,
    Except.bind, pure, Except.pure]

theorem registerUser_duplicate_key (toLowerCase : String → String)
    (runSettersOnQuery : Bool) (hash : String → String)
    (jwtSign : ObjectId → String → String) (secret : String) (newId : ObjectId) (now : Int)
    (users : List User) (name email password : String) (image : Option String)
    (hname : trim name ≠ "") (hemail' : email ≠ "")
    (hemail : normalizeEmail toLowerCase email ≠ "") (hpw : password ≠ "")
    (hfound : findOneByEmail toLowerCase runSettersOnQuery users email = none)
    (hdup : users.any (fun u => u.email == normalizeEmail toLowerCase email) = true) :
    registerUser toLowerCase runSettersOnQuery hash jwtSign secret none newId now users
        ⟨some name, some email, some password, image⟩
      = (users, ⟨400, .message "Email already registered"⟩) := by
  have hname' : name ≠ "" := ne_empty_of_trim_ne_empty hname
  have hv : ¬ (trim name = "" ∨ normalizeEmail toLowerCase email = "" ∨ password = "") := by
    rintro (h | h | h)
    · exact hname h
    · exact hemail h
    · exact hpw h
  unfold registerUser createUser
  simp only [missing_some_ne hname', missing_some_ne hemail', missing_some_ne hpw,
    Bool.or_self, Bool.false_eq_true, if_false, Option.getD_some, dbCall, hfound, bind,
    Except.bind, hv, hdup, if_true]

theorem registerUser_created (toLowerCase : String → String)
    (runSettersOnQuery : Bool) (hash : String → String)
    (jwtSign : ObjectId → String → String) (secret : String) (newId : ObjectId) (now : Int)
    (users : List User) (name email password : String) (image : Option String)
    (hname : trim name ≠ "") (hemail' : email ≠ "")
    (hemail : normalizeEmail toLowerCase email ≠ "") (hpw : password ≠ "")
    (hfound : findOneByEmail toLowerCase runSettersOnQuery users email = none)
    (hdup : users.any (fun u => u.email == normalizeEmail toLowerCase email) = false) :
    registerUser toLowerCase runSettersOnQuery hash jwtSign secret none newId now users
        ⟨some name, some email, some password, image⟩
      = (users ++ [⟨newId, trim name, normalizeEmail toLowerCase email, some (hash password), image,
            now, now⟩],
          ⟨201, .data ⟨⟨newId, trim name, normalizeEmail toLowerCase email, image⟩,
            jwtSign newId secret⟩⟩) := by
  have hname' : name ≠ "" := ne_empty_of_trim_ne_empty hname
  have hv : ¬ (trim name = "" ∨ normalizeEmail toLowerCase email = "" ∨ password = "") := by
    rintro (h | h | h)
    · exact hname h
    · exact hemail h
    · exact hpw h
  unfold registerUser createUser
  simp only [missing_some_ne hname', missing_some_ne hemail', missing_some_ne hpw,
    Bool.or_self, Bool.false_eq_true, if_false, Option.getD_some, dbCall, hfound, bind,
    Except.bind, hv, hdup, pure, Except.pure]

/-- Registering `a@x.com` in an empty store answers 201 and stores the user;
registering `a@x.com` again answers 400 with the message `User already exists`,
not `Email already registered`, whether or not the lookup normalises the email.
With the full name `"   "` the first registration is answered 500. -/
theorem register_twice_message :
    registerUser toLowerCaseAscii true sampleHash sampleSign "s" none 1 0 [] sampleRegisterBody
      = (sampleUsers, ⟨201, .data ⟨⟨1, "Ann", "a@x.com", none⟩, "token.s"⟩⟩) ∧
    registerUser toLowerCaseAscii true sampleHash sampleSign "s" none 2 9 sampleUsers sampleRegisterBody
      = (sampleUsers, ⟨400, .message "User already exists"⟩) ∧
    registerUser toLowerCaseAscii false sampleHash sampleSign "s" none 2 9 sampleUsers sampleRegisterBody
      = (sampleUsers, ⟨400, .message "User already exists"⟩) ∧
    (registerUser toLowerCaseAscii true sampleHash sampleSign "s" none 2 9 sampleUsers sampleRegisterBody).2
      ≠ ⟨400, .message "Email already registered"⟩ ∧
    registerUser toLowerCaseAscii true sampleHash sampleSign "s" none 1 0 []
        ⟨some "   ", some "a@x.com", some "pw12345678", none⟩
      = ([], ⟨500, .message "Registration failed"⟩) := by
  decide

theorem findOneByEmail_append_new (toLowerCase : String → String)
    (runSettersOnQuery : Bool) (users : List User)
    (new : User) (email : String)
    (hfound : findOneByEmail toLowerCase runSettersOnQuery users email = none) :
    findOneByEmail toLowerCase runSettersOnQuery (users ++ [new]) email
      = if new.email = (if runSettersOnQuery then normalizeEmail toLowerCase email else email)
        then some new else none := by
  unfold findOneByEmail at hfound ⊢
  rw [List.find?_append, hfound, Option.none_or]
  by_cases h : new.email = (if runSettersOnQuery then normalizeEmail toLowerCase email else email)
  · rw [if_pos h, List.find?_cons_of_pos]
    simpa using h
  · rw [if_neg h, List.find?_cons_of_neg]
    · rfl
    · simpa using h

/-- C17 (amended): with the database answering, a `registerUser` request whose full
name, email and password are present, the name and the email being non-empty after
the setters, with an email no stored user has, answers 201 with a token and stores
the user under the normalised email.  A second request with the same email (and a
valid name and password) then answers 400 and leaves the store as it is; its
message is `User already exists` when the lookup finds the stored user, which is so
whenever the lookup normalises the email or the email is already in its stored
form, and `Email already registered` only when the insert is rejected by the unique
index. -/
theorem register_twice (toLowerCase : String → String) (runSettersOnQuery : Bool)
    (hash : String → String) (jwtSign : ObjectId → String → String) (secret : String)
    (newId newId' : ObjectId) (now now' : Int) (users : List User)
    (name email password name' password' : String) (image image' : Option String)
    (hname : trim name ≠ "") (hpresent : email ≠ "")
    (hemail : normalizeEmail toLowerCase email ≠ "") (hpw : password ≠ "")
    (hname' : trim name' ≠ "") (hpw' : password' ≠ "")
    (hunused : ∀ u ∈ users, u.email ≠ normalizeEmail toLowerCase email ∧ u.email ≠ email) :
    ∃ users' message,
      registerUser toLowerCase runSettersOnQuery hash jwtSign secret none newId now users
          ⟨some name, some email, some password, image⟩
        = (users', ⟨201, .data ⟨⟨newId, trim name, normalizeEmail toLowerCase email, image⟩,
            jwtSign newId secret⟩⟩) ∧
      users' = users ++ [⟨newId, trim name, normalizeEmail toLowerCase email,
        some (hash password), image, now, now⟩] ∧
      registerUser toLowerCase runSettersOnQuery hash jwtSign secret none newId' now' users'
          ⟨some name', some email, some password', image'⟩
        = (users', ⟨400, .message message⟩) ∧
      (message = "User already exists" ∨ message = "Email already registered") ∧
      (runSettersOnQuery = true ∨ normalizeEmail toLowerCase email = email →
        message = "User already exists") := by
  have hnone : findOneByEmail toLowerCase runSettersOnQuery users email = none := by
    unfold findOneByEmail
    rw [List.find?_eq_none]
    intro u hu
    cases runSettersOnQuery
    · simpa using (hunused u hu).2
    · simpa using (hunused u hu).1
  have hany : users.any (fun u => u.email == normalizeEmail toLowerCase email) = false := by
    rw [Bool.eq_false_iff]
    intro h
    obtain ⟨u, hu, he⟩ := List.any_eq_true.mp h
    exact (hunused u hu).1 (by simpa using he)
  have hfirst := registerUser_created toLowerCase runSettersOnQuery hash jwtSign secret newId
    now users name email password image hname hpresent hemail hpw hnone hany
  have hlook := findOneByEmail_append_new toLowerCase runSettersOnQuery users
    ⟨newId, trim name, normalizeEmail toLowerCase email, some (hash password), image, now, now⟩
    email hnone
  by_cases hq : normalizeEmail toLowerCase email
      = (if runSettersOnQuery then normalizeEmail toLowerCase email else email)
  · refine ⟨_, "User already exists", hfirst, rfl, ?_, Or.inl rfl, fun _ => rfl⟩
    rw [if_pos hq] at hlook
    exact registerUser_found toLowerCase runSettersOnQuery hash jwtSign secret newId' now' _
      name' email password' image' _ (ne_empty_of_trim_ne_empty hname') hpresent hpw' hlook
  · refine ⟨_, "Email already registered", hfirst, rfl, ?_, Or.inr rfl, ?_⟩
    · rw [if_neg hq] at hlook
      refine registerUser_duplicate_key toLowerCase runSettersOnQuery hash jwtSign secret
        newId' now' _ name' email password' image' hname' hpresent hemail hpw' hlook ?_
      simp [List.any_append]
    · intro h
      exfalso
      apply hq
      rcases h with h | h
      · rw [h]
        rfl
      · cases runSettersOnQuery
        · exact h
        · rfl

/-- Witness for C17: `a@x.com` registers in an empty store, then registers again. -/
theorem register_twice_witness :
    ∃ users' message,
      registerUser toLowerCaseAscii true sampleHash sampleSign "s" none 1 0 []
          ⟨some "Ann", some "a@x.com", some "pw12345678", none⟩
        = (users', ⟨201, .data ⟨⟨1, trim "Ann", normalizeEmail toLowerCaseAscii "a@x.com",
            none⟩, sampleSign 1 "s"⟩⟩) ∧
      users' = [] ++ [⟨1, trim "Ann", normalizeEmail toLowerCaseAscii "a@x.com",
        some (sampleHash "pw12345678"), none, 0, 0⟩] ∧
      registerUser toLowerCaseAscii true sampleHash sampleSign "s" none 2 9 users'
          ⟨some "Ann", some "a@x.com", some "pw12345678", none⟩
        = (users', ⟨400, .message message⟩) ∧
      (message = "User already exists" ∨ message = "Email already registered") ∧
      (true = true ∨ normalizeEmail toLowerCaseAscii "a@x.com" = "a@x.com" →
        message = "User already exists") :=
  register_twice toLowerCaseAscii true sampleHash sampleSign "s" 1 2 0 9 [] "Ann" "a@x.com"
    "pw12345678" "Ann" "pw12345678" none none (by decide) (by decide) (by decide) (by decide)
    (by decide) (by decide) (by decide)

theorem registerUser_store (toLowerCase : String → String)
    (runSettersOnQuery : Bool) (hash : String → String)
    (jwtSign : ObjectId → String → String) (secret : String) (fault : Option JsError)
    (newId : ObjectId) (now : Int) (users : List User) (body : RegisterBody) :
    (registerUser toLowerCase runSettersOnQuery hash jwtSign secret fault newId now users body).1 = users ∨
    ∃ new : User,
      (registerUser toLowerCase runSettersOnQuery hash jwtSign secret fault newId now users body).1
        = users ++ [new] ∧
      new.email = normalizeEmail toLowerCase (body.email.getD "") ∧
      ∀ v ∈ users, v.email ≠ new.email := by
  unfold registerUser
  split
  · exact Or.inl rfl
  · cases fault with
    | some e =>
      left
      simp only [dbCall, bind, Except.bind]
      split <;> rfl
    | none =>
      simp only [dbCall, bind, Except.bind]
      cases findOneByEmail toLowerCase runSettersOnQuery users (body.email.getD "") with
      | some w => exact Or.inl rfl
      | none =>
        unfold createUser
        by_cases hv : trim (body.fullName.getD "") = "" ∨
            normalizeEmail toLowerCase (body.email.getD "") = "" ∨ body.password.getD "" = ""
        · left
          simp only [hv, if_true]
          rfl
        · by_cases hany : users.any (fun u => u.email == normalizeEmail toLowerCase (body.email.getD ""))
              = true
          · left
            simp only [hv, hany, if_false, if_true]
          · right
            simp only [hv, hany, Bool.false_eq_true, if_false]
            refine ⟨_, rfl, rfl, ?_⟩
            intro v hv hve
            apply hany
            exact List.any_eq_true.mpr ⟨v, hv, by simpa using hve⟩

/-- C18: with the database answering, when a stored user has the non-empty email
`e` (in its stored, normalised form), a `registerUser` request with a valid name and
password whose email differs from `e` only in letter case (both have the same
lower-case form) is answered 400 with a duplicate-email message and the store is
left as it is, whether the lookup or the unique index catches it.  Hence, whatever
the database does, a store whose emails are in lower case and pairwise different
up to case stays so after any `registerUser` request.  Lower-casing is that of the
runtime and is taken to leave a trimmed lower-case text as it is. -/
theorem register_email_case_insensitive (toLowerCase : String → String)
    (runSettersOnQuery : Bool) (hash : String → String)
    (jwtSign : ObjectId → String → String) (secret : String) (newId : ObjectId) (now : Int)
    (users : List User) (u : User) (name email password : String) (image : Option String)
    (hlower : ∀ s, toLowerCase (trim (toLowerCase s)) = trim (toLowerCase s))
    (hu : u ∈ users) (hstored : normalizeEmail toLowerCase u.email = u.email)
    (hstoredne : u.email ≠ "")
    (hcase : toLowerCase email = toLowerCase u.email) (hemail : email ≠ "")
    (hname : trim name ≠ "") (hpw : password ≠ "") :
    (∃ message,
      registerUser toLowerCase runSettersOnQuery hash jwtSign secret none newId now users
          ⟨some name, some email, some password, image⟩
        = (users, ⟨400, .message message⟩) ∧
      (message = "User already exists" ∨ message = "Email already registered")) ∧
    (∀ (stored : List User) (fault : Option JsError) (id : ObjectId) (t : Int)
        (body : RegisterBody),
      (∀ v ∈ stored, toLowerCase v.email = v.email) →
      stored.Pairwise (fun v w => toLowerCase v.email ≠ toLowerCase w.email) →
      (∀ v ∈ (registerUser toLowerCase runSettersOnQuery hash jwtSign secret fault id t stored
          body).1, toLowerCase v.email = v.email) ∧
      (registerUser toLowerCase runSettersOnQuery hash jwtSign secret fault id t stored
          body).1.Pairwise
        (fun v w => toLowerCase v.email ≠ toLowerCase w.email)) := by
  constructor
  · have hnorm : normalizeEmail toLowerCase email = u.email := by
      rw [← hstored]
      unfold normalizeEmail
      rw [hcase]
    have hne : normalizeEmail toLowerCase email ≠ "" := by
      rw [hnorm]
      exact hstoredne
    cases hf : findOneByEmail toLowerCase runSettersOnQuery users email with
    | some w =>
      exact ⟨_, registerUser_found toLowerCase runSettersOnQuery hash jwtSign secret newId now
        users name email password image w (ne_empty_of_trim_ne_empty hname) hemail hpw hf,
        Or.inl rfl⟩
    | none =>
      refine ⟨_, registerUser_duplicate_key toLowerCase runSettersOnQuery hash jwtSign secret
        newId now users name email password image hname hemail hne hpw hf ?_, Or.inr rfl⟩
      exact List.any_eq_true.mpr ⟨u, hu, by simpa using hnorm.symm⟩
  · intro stored fault id t body hlow hpair
    rcases registerUser_store toLowerCase runSettersOnQuery hash jwtSign secret fault id t
      stored body with h | ⟨new, h, hnew, hfresh⟩
    · rw [h]
      exact ⟨hlow, hpair⟩
    · rw [h]
      have hnewlow : toLowerCase new.email = new.email := by
        rw [hnew]
        exact hlower _
      constructor
      · intro v hv
        rcases List.mem_append.mp hv with hv | hv
        · exact hlow v hv
        · rw [List.mem_singleton.mp hv]
          exact hnewlow
      · rw [List.pairwise_append]
        refine ⟨hpair, List.pairwise_singleton _ _, ?_⟩
        intro a ha b hb
        rw [List.mem_singleton.mp hb, hlow a ha, hnewlow]
        exact hfresh a ha

/-- Witness for C18: `A@X.com` after `a@x.com`. -/
theorem register_email_case_insensitive_witness :
    ∃ message,
      registerUser toLowerCaseAscii true sampleHash sampleSign "s" none 2 9 sampleUsers
          ⟨some "Bob", some "A@X.com", some "secret", none⟩
        = (sampleUsers, ⟨400, .message message⟩) ∧
      (message = "User already exists" ∨ message = "Email already registered") :=
  (register_email_case_insensitive toLowerCaseAscii true sampleHash sampleSign "s" 2 9
    sampleUsers ⟨1, "Ann", "a@x.com", some "#pw12345678", none, 0, 0⟩ "Bob" "A@X.com" "secret"
    none toLowerCaseAscii_trim (by decide) (by decide) (by decide) (by decide) (by decide)
    (by decide) (by decide)).1

/-! ## Login -/

theorem loginUser_present (toLowerCase : String → String)
    (runSettersOnQuery : Bool) (compare : String → String → Bool)
    (jwtSign : ObjectId → String → String) (secret : String) (users : List User)
    (email password : String) (hemail : email ≠ "") (hpw : password ≠ "") :
    loginUser toLowerCase runSettersOnQuery compare jwtSign secret none users ⟨some email, some password⟩
      = match findOneByEmail toLowerCase runSettersOnQuery users email with
        | none => ⟨400, .message "Invalid credentials"⟩
        | some user =>
          match user.password with
          | none => ⟨500, .message "Login failed"⟩
          | some hashed =>
            if compare password hashed = true then
              ⟨200, .data ⟨⟨user._id, user.fullName, user.email, user.profileImageUrl⟩,
                jwtSign user._id secret⟩⟩
            else ⟨400, .message "Invalid credentials"⟩ := by
  unfold loginUser
  simp only [missing_some_ne hemail, missing_some_ne hpw, Bool.or_self, Bool.false_eq_true,
    if_false, Option.getD_some, dbCall, bind, Except.bind]
  cases findOneByEmail toLowerCase runSettersOnQuery users email with
  | none => rfl
  | some user =>
    simp only [comparePassword]
    cases user.password with
    | none => rfl
    | some hashed =>
      cases hc : compare password hashed <;> simp [hc, pure, Except.pure]

theorem loginUser_missing (toLowerCase : String → String)
    (runSettersOnQuery : Bool) (compare : String → String → Bool)
    (jwtSign : ObjectId → String → String) (secret : String) (fault : Option JsError)
    (users : List User) (body : LoginBody)
    (h : (missing body.email || missing body.password) = true) :
    loginUser toLowerCase runSettersOnQuery compare jwtSign secret fault users body
      = ⟨400, .message "All fields are required"⟩ := by
  unfold loginUser
  rw [if_pos h]

/-- C19: with the database answering, `loginUser` answers 200 if and only if the
email and the password are both present, the lookup by email finds a user and
`bcrypt.compare` accepts the password against that user's stored hash; the body
is then that user's `{ id, fullName, email, profileImageUrl }` with a token.  An
unknown email and a wrong password get the same answer, 400 with the message
`Invalid credentials`. -/
theorem login_iff (toLowerCase : String → String)
    (runSettersOnQuery : Bool) (compare : String → String → Bool)
    (jwtSign : ObjectId → String → String) (secret : String) (users : List User)
    (body : LoginBody) :
    ((loginUser toLowerCase runSettersOnQuery compare jwtSign secret none users body).status = 200 ↔
      ∃ email password user hashed,
        body.email = some email ∧ email ≠ "" ∧ body.password = some password ∧
        password ≠ "" ∧ findOneByEmail toLowerCase runSettersOnQuery users email = some user ∧
        user.password = some hashed ∧ compare password hashed = true) ∧
    (∀ email password user hashed,
      body.email = some email → email ≠ "" → body.password = some password →
      password ≠ "" → findOneByEmail toLowerCase runSettersOnQuery users email = some user →
      user.password = some hashed → compare password hashed = true →
      loginUser toLowerCase runSettersOnQuery compare jwtSign secret none users body
        = ⟨200, .data ⟨⟨user._id, user.fullName, user.email, user.profileImageUrl⟩,
            jwtSign user._id secret⟩⟩) ∧
    (∀ email password,
      body.email = some email → email ≠ "" → body.password = some password →
      password ≠ "" → findOneByEmail toLowerCase runSettersOnQuery users email = none →
      loginUser toLowerCase runSettersOnQuery compare jwtSign secret none users body
        = ⟨400, .message "Invalid credentials"⟩) ∧
    (∀ email password user hashed,
      body.email = some email → email ≠ "" → body.password = some password →
      password ≠ "" → findOneByEmail toLowerCase runSettersOnQuery users email = some user →
      user.password = some hashed → compare password hashed = false →
      loginUser toLowerCase runSettersOnQuery compare jwtSign secret none users body
        = ⟨400, .message "Invalid credentials"⟩) := by
  obtain ⟨bemail, bpassword⟩ := body
  refine ⟨?_, ?_, ?_, ?_⟩
  · constructor
    · intro h
      by_cases hm : (missing bemail || missing bpassword) = true
      · rw [loginUser_missing _ _ _ _ _ _ _ _ hm] at h
        cases h
      · cases bemail with
        | none => simp [missing] at hm
        | some email =>
          cases bpassword with
          | none => simp [missing] at hm
          | some password =>
            have he : email ≠ "" := by
              rintro rfl
              simp [missing] at hm
            have hp : password ≠ "" := by
              rintro rfl
              simp [missing] at hm
            rw [loginUser_present _ _ _ _ _ _ _ _ he hp] at h
            cases hf : findOneByEmail toLowerCase runSettersOnQuery users email with
            | none =>
              rw [hf] at h
              cases h
            | some user =>
              rw [hf] at h
              cases hpass : user.password with
              | none =>
                simp only [hpass] at h
                cases h
              | some hashed =>
                simp only [hpass] at h
                by_cases hc : compare password hashed = true
                · exact ⟨email, password, user, hashed, rfl, he, rfl, hp, hf, hpass, hc⟩
                · rw [if_neg hc] at h
                  cases h
    · rintro ⟨email, password, user, hashed, h1, he, h2, hp, hf, hpass, hc⟩
      cases h1
      cases h2
      rw [loginUser_present _ _ _ _ _ _ _ _ he hp, hf]
      simp only [hpass, hc, if_true]
  · intro email password user hashed h1 he h2 hp hf hpass hc
    cases h1
    cases h2
    rw [loginUser_present _ _ _ _ _ _ _ _ he hp, hf]
    simp only [hpass, hc, if_true]
  · intro email password h1 he h2 hp hf
    cases h1
    cases h2
    rw [loginUser_present _ _ _ _ _ _ _ _ he hp, hf]
  · intro email password user hashed h1 he h2 hp hf hpass hc
    cases h1
    cases h2
    rw [loginUser_present _ _ _ _ _ _ _ _ he hp, hf]
    simp only [hpass, hc, Bool.false_eq_true, if_false]

/-! ## Passwords stay out of the responses -/

theorem registerUser_response (toLowerCase : String → String)
    (runSettersOnQuery : Bool) (hash : String → String)
    (jwtSign : ObjectId → String → String) (secret : String) (fault : Option JsError)
    (newId : ObjectId) (now : Int) (users : List User) (body : RegisterBody) :
    (registerUser toLowerCase runSettersOnQuery hash jwtSign secret fault newId now users body).2
      = ⟨201, .data ⟨⟨newId, trim (body.fullName.getD ""),
          normalizeEmail toLowerCase (body.email.getD ""), body.profileImageUrl⟩,
          jwtSign newId secret⟩⟩ ∨
    (registerUser toLowerCase runSettersOnQuery hash jwtSign secret fault newId now users body).2
      = ⟨400, .message "Please provide all required fields"⟩ ∨
    (registerUser toLowerCase runSettersOnQuery hash jwtSign secret fault newId now users body).2
      = ⟨400, .message "User already exists"⟩ ∨
    (registerUser toLowerCase runSettersOnQuery hash jwtSign secret fault newId now users body).2
      = ⟨400, .message "Email already registered"⟩ ∨
    (registerUser toLowerCase runSettersOnQuery hash jwtSign secret fault newId now users body).2
      = ⟨500, .message "Registration failed"⟩ := by
  unfold registerUser
  split
  · exact Or.inr (Or.inl rfl)
  · cases fault with
    | some e =>
      simp only [dbCall, bind, Except.bind]
      by_cases hc : e.code = some 11000 <;> simp [hc]
    | none =>
      simp only [dbCall, bind, Except.bind]
      cases findOneByEmail toLowerCase runSettersOnQuery users (body.email.getD "") with
      | some w => exact Or.inr (Or.inr (Or.inl rfl))
      | none =>
        unfold createUser
        by_cases hv : trim (body.fullName.getD "") = "" ∨
            normalizeEmail toLowerCase (body.email.getD "") = "" ∨ body.password.getD "" = ""
        · simp only [hv, if_true]
          exact Or.inr (Or.inr (Or.inr (Or.inr rfl)))
        · by_cases hany : users.any (fun u => u.email == normalizeEmail toLowerCase (body.email.getD ""))
              = true
          · simp [hv, hany]
          · simp only [hv, hany, Bool.false_eq_true, if_false]
            exact Or.inl rfl

theorem registerUser_response_password (toLowerCase : String → String)
    (runSettersOnQuery : Bool) (hash hash' : String → String)
    (jwtSign : ObjectId → String → String) (secret : String) (fault : Option JsError)
    (newId : ObjectId) (now : Int) (users : List User) (name email : Option String)
    (password password' : String) (image : Option String)
    (hpw : password ≠ "") (hpw' : password' ≠ "") :
    (registerUser toLowerCase runSettersOnQuery hash jwtSign secret fault newId now users
        ⟨name, email, some password, image⟩).2
      = (registerUser toLowerCase runSettersOnQuery hash' jwtSign secret fault newId now users
        ⟨name, email, some password', image⟩).2 := by
  unfold registerUser
  simp only [missing_some_ne hpw, missing_some_ne hpw', Option.getD_some]
  split
  · rfl
  · cases fault with
    | some e =>
      simp only [dbCall, bind, Except.bind]
    | none =>
      simp only [dbCall, bind, Except.bind]
      cases findOneByEmail toLowerCase runSettersOnQuery users (email.getD "") with
      | some w => rfl
      | none =>
        unfold createUser
        by_cases hv : trim (name.getD "") = "" ∨ normalizeEmail toLowerCase (email.getD "") = ""
        · have h1 : trim (name.getD "") = "" ∨ normalizeEmail toLowerCase (email.getD "") = "" ∨
              password = "" := by tauto
          have h2 : trim (name.getD "") = "" ∨ normalizeEmail toLowerCase (email.getD "") = "" ∨
              password' = "" := by tauto
          simp only [h1, h2, if_true]
        · have h1 : ¬ (trim (name.getD "") = "" ∨ normalizeEmail toLowerCase (email.getD "") = "" ∨
              password = "") := by tauto
          have h2 : ¬ (trim (name.getD "") = "" ∨ normalizeEmail toLowerCase (email.getD "") = "" ∨
              password' = "") := by tauto
          by_cases hany : users.any (fun u => u.email == normalizeEmail toLowerCase (email.getD ""))
              = true
          · simp only [h1, h2, hany, if_false, if_true]
          · simp only [h1, h2, hany, Bool.false_eq_true, if_false, pure, Except.pure]

theorem loginUser_response (toLowerCase : String → String)
    (runSettersOnQuery : Bool) (compare : String → String → Bool)
    (jwtSign : ObjectId → String → String) (secret : String) (fault : Option JsError)
    (users : List User) (body : LoginBody) :
    (∃ u ∈ users, loginUser toLowerCase runSettersOnQuery compare jwtSign secret fault users body
      = ⟨200, .data ⟨⟨u._id, u.fullName, u.email, u.profileImageUrl⟩,
          jwtSign u._id secret⟩⟩) ∨
    loginUser toLowerCase runSettersOnQuery compare jwtSign secret fault users body
      = ⟨400, .message "All fields are required"⟩ ∨
    loginUser toLowerCase runSettersOnQuery compare jwtSign secret fault users body
      = ⟨400, .message "Invalid credentials"⟩ ∨
    loginUser toLowerCase runSettersOnQuery compare jwtSign secret fault users body
      = ⟨500, .message "Login failed"⟩ := by
  unfold loginUser
  split
  · exact Or.inr (Or.inl rfl)
  · cases fault with
    | some e => exact Or.inr (Or.inr (Or.inr rfl))
    | none =>
      simp only [dbCall, bind, Except.bind]
      cases hf : findOneByEmail toLowerCase runSettersOnQuery users (body.email.getD "") with
      | none => exact Or.inr (Or.inr (Or.inl rfl))
      | some user =>
        have hmem : user ∈ users := List.mem_of_find?_eq_some hf
        simp only [comparePassword]
        cases user.password with
        | none => exact Or.inr (Or.inr (Or.inr rfl))
        | some hashed =>
          cases hc : compare (body.password.getD "") hashed
          · simp only [hc, Bool.not_false, if_true]
            exact Or.inr (Or.inr (Or.inl rfl))
          · simp only [hc, Bool.not_true, Bool.false_eq_true, if_false]
            exact Or.inl ⟨user, hmem, rfl⟩

theorem getUserInfo_response (fault : Option JsError) (users : List User) (reqUser : User) :
    (∃ u ∈ users, getUserInfo fault users reqUser = ⟨200, .data { u with password := none }⟩) ∨
    getUserInfo fault users reqUser = ⟨404, .message "User not found"⟩ ∨
    getUserInfo fault users reqUser = ⟨500, .message "Error getting user info"⟩ := by
  unfold getUserInfo dbCall
  cases fault with
  | some e => exact Or.inr (Or.inr rfl)
  | none =>
    unfold findUserById
    cases hf : users.find? (fun u => u._id == reqUser._id) with
    | none => exact Or.inr (Or.inl rfl)
    | some u => exact Or.inl ⟨u, List.mem_of_find?_eq_some hf, rfl⟩

/-- C20: whatever the database does, the body `registerUser` sends is `{ user,
token }` with `user` holding exactly the id, full name, email and profile image
of the new user, or one of four fixed messages, and it is the same for any two
passwords submitted and any two hash functions; the body `loginUser` sends is
`{ user, token }` with the id, full name, email and profile image of a stored
user, or one of three fixed messages; the body `getUserInfo` sends is a stored
user with the password field removed, or one of two fixed messages. -/
theorem password_not_in_responses (toLowerCase : String → String)
    (runSettersOnQuery : Bool) (hash : String → String)
    (compare : String → String → Bool) (jwtSign : ObjectId → String → String)
    (secret : String) (fault : Option JsError) (newId : ObjectId) (now : Int)
    (users : List User) :
    (∀ body : RegisterBody,
      (registerUser toLowerCase runSettersOnQuery hash jwtSign secret fault newId now users body).2
        = ⟨201, .data ⟨⟨newId, trim (body.fullName.getD ""),
            normalizeEmail toLowerCase (body.email.getD ""), body.profileImageUrl⟩,
            jwtSign newId secret⟩⟩ ∨
      (registerUser toLowerCase runSettersOnQuery hash jwtSign secret fault newId now users body).2
        = ⟨400, .message "Please provide all required fields"⟩ ∨
      (registerUser toLowerCase runSettersOnQuery hash jwtSign secret fault newId now users body).2
        = ⟨400, .message "User already exists"⟩ ∨
      (registerUser toLowerCase runSettersOnQuery hash jwtSign secret fault newId now users body).2
        = ⟨400, .message "Email already registered"⟩ ∨
      (registerUser toLowerCase runSettersOnQuery hash jwtSign secret fault newId now users body).2
        = ⟨500, .message "Registration failed"⟩) ∧
    (∀ (hash' : String → String) (name email : Option String) (password password' : String)
        (image : Option String), password ≠ "" → password' ≠ "" →
      (registerUser toLowerCase runSettersOnQuery hash jwtSign secret fault newId now users
          ⟨name, email, some password, image⟩).2
        = (registerUser toLowerCase runSettersOnQuery hash' jwtSign secret fault newId now users
          ⟨name, email, some password', image⟩).2) ∧
    (∀ body : LoginBody,
      (∃ u ∈ users, loginUser toLowerCase runSettersOnQuery compare jwtSign secret fault users body
        = ⟨200, .data ⟨⟨u._id, u.fullName, u.email, u.profileImageUrl⟩,
            jwtSign u._id secret⟩⟩) ∨
      loginUser toLowerCase runSettersOnQuery compare jwtSign secret fault users body
        = ⟨400, .message "All fields are required"⟩ ∨
      loginUser toLowerCase runSettersOnQuery compare jwtSign secret fault users body
        = ⟨400, .message "Invalid credentials"⟩ ∨
      loginUser toLowerCase runSettersOnQuery compare jwtSign secret fault users body
        = ⟨500, .message "Login failed"⟩) ∧
    (∀ reqUser : User,
      (∃ u ∈ users, getUserInfo fault users reqUser
        = ⟨200, .data { u with password := none }⟩) ∨
      getUserInfo fault users reqUser = ⟨404, .message "User not found"⟩ ∨
      getUserInfo fault users reqUser = ⟨500, .message "Error getting user info"⟩) :=
  ⟨fun body => registerUser_response toLowerCase runSettersOnQuery hash jwtSign secret fault newId now
      users body,
    fun hash' name email password password' image hpw hpw' =>
      registerUser_response_password toLowerCase runSettersOnQuery hash hash' jwtSign secret fault newId
        now users name email password password' image hpw hpw',
    fun body => loginUser_response toLowerCase runSettersOnQuery compare jwtSign secret fault users body,
    fun reqUser => getUserInfo_response fault users reqUser⟩

/-! ## Image upload route -/

/-- The route `POST /auth/upload-image` never looks at the Authorization header. -/
theorem uploadImageRoute_ignores_authorization
    (jwtVerify : String → String → Except JsError JwtPayload) (secret : String)
    (fault : Option JsError) (users : List User) (timestamp : String) (req : UploadRequest)
    (authorization : Option String) :
    uploadImageRoute jwtVerify secret fault users timestamp
        { req with authorization := authorization }
      = uploadImageRoute jwtVerify secret fault users timestamp req := by
  unfold uploadImageRoute uploadImageChain
  simp only [runUploadChain]

/-- C21 (the code at the failing input): an upload of `a.png` with no Authorization
header, which `protect` would answer 401, is answered 200 with the image URL by the
route, the file having been stored: no `protect` is mounted on the route. -/
theorem uploadImage_without_token :
    protect sampleVerifyNone "s" none [] sampleUploadRequest.authorization
      = .respond 401 "Not authorized, no token provided" ∧
    uploadImageRoute sampleVerifyNone "s" none [] "1700000000000" sampleUploadRequest
      = ⟨200, some "http://localhost:8000/uploads/1700000000000-a.png", none,
          some "1700000000000-a.png"⟩ ∧
    UploadStep.protect ∉ uploadImageChain := by
  decide

/-! ## Answers to a failure of the store -/

/-- Two failures of the store get two different bodies from `getAllExpense`, each
carrying the error's own message. -/
theorem server_error_body_differs :
    getAllExpense stableSort
        (some ⟨"MongoNetworkError", "connect ECONNREFUSED 10.0.0.5:27017", none⟩) sampleDb 7
      = ⟨500, .failure "Server error" "connect ECONNREFUSED 10.0.0.5:27017"⟩ ∧
    getAllExpense stableSort (some ⟨"MongoServerError", "not primary", none⟩) sampleDb 7
      = ⟨500, .failure "Server error" "not primary"⟩ ∧
    getAllExpense stableSort
        (some ⟨"MongoNetworkError", "connect ECONNREFUSED 10.0.0.5:27017", none⟩) sampleDb 7
      ≠ getAllExpense stableSort (some ⟨"MongoServerError", "not primary", none⟩) sampleDb 7 := by
  decide

/-- C22 (amended): when the store fails with the error `error`, every transaction
handler and `getDashboardData` answers 500 with the body `{ message: "Server error",
error: error.message }`: the `message` field is the same for every failure, the
`error` field carries the message of the cause; the handlers that write return the
store unchanged.  For the two add handlers this is the answer to a body that
passes the guard and the schema validation. -/
theorem server_error_body (dbSort : QuerySort) (error : JsError) (zone : TimeZone)
    (now : Int) (toLocaleDateString : Int → String) (xlsxExpense : List ExpenseRow → List Nat)
    (xlsxIncome : List IncomeRow → List Nat) (castNumber parseDate : String → Option Int)
    (newId id : ObjectId) (db : Db) (userId : ObjectId) :
    getAllExpense dbSort (some error) db userId = ⟨500, .failure "Server error" error.message⟩ ∧
    getAllIncome dbSort (some error) db userId = ⟨500, .failure "Server error" error.message⟩ ∧
    deleteExpense (some error) db id userId
      = (db, ⟨500, .failure "Server error" error.message⟩) ∧
    deleteIncome (some error) db id userId
      = (db, ⟨500, .failure "Server error" error.message⟩) ∧
    downloadExpenseExcel dbSort toLocaleDateString xlsxExpense (some error) db userId
      = ⟨500, .failure "Server error" error.message⟩ ∧
    downloadIncomeExcel dbSort toLocaleDateString xlsxIncome (some error) db userId
      = ⟨500, .failure "Server error" error.message⟩ ∧
    getDashboardData dbSort (some error) zone now db userId
      = ⟨500, .failure "Server error" error.message⟩ ∧
    (∀ (body : ExpenseBody) (label : String) (amount date : Int),
      (missing body.category || missingAmount body.amount || missing body.date) = false →
      validateTransaction "Expense" (body.category.getD "")
        (castAmount castNumber body.amount) (parseDate (body.date.getD ""))
        = .ok (label, amount, date) →
      addExpense castNumber parseDate (some error) newId now db userId body
        = (db, ⟨500, .failure "Server error" error.message⟩)) ∧
    (∀ (body : IncomeBody) (label : String) (amount date : Int),
      (missing body.source || missingAmount body.amount || missing body.date) = false →
      validateTransaction "Income" (body.source.getD "")
        (castAmount castNumber body.amount) (parseDate (body.date.getD ""))
        = .ok (label, amount, date) →
      addIncome castNumber parseDate (some error) newId now db userId body
        = (db, ⟨500, .failure "Server error" error.message⟩)) := by
  refine ⟨rfl, rfl, rfl, rfl, rfl, rfl, rfl, ?_, ?_⟩
  · intro body label amount date hm hv
    unfold addExpense
    simp only [hm, Bool.false_eq_true, if_false, hv, bind, Except.bind, dbCall]
  · intro body label amount date hm hv
    unfold addIncome
    simp only [hm, Bool.false_eq_true, if_false, hv, bind, Except.bind, dbCall]

/-! ## Rows of the spreadsheet -/

/-- C23: with the database answering, the rows `downloadExpenseExcel`
(`downloadIncomeExcel`) hands to the workbook builder are, one for one and in the
same order, the user's records as listed by date descending: as many rows as the
user has records, and row `i` carries the category (source), the amount and the
formatted date of record `i`. -/
theorem excel_rows (dbSort : QuerySort) (toLocaleDateString : Int → String)
    (xlsxExpense : List ExpenseRow → List Nat) (xlsxIncome : List IncomeRow → List Nat)
    (db : Db) (userId : ObjectId) :
    (∃ (expenses : List Expense) (rows : List ExpenseRow),
      getAllExpense dbSort none db userId = ⟨200, .data expenses⟩ ∧
      expenses.Perm (db.expenses.filter (fun r => r.userId = userId)) ∧
      expenses.Pairwise (fun a b => b.date ≤ a.date) ∧
      downloadExpenseExcelData dbSort toLocaleDateString none db userId = .ok rows ∧
      downloadExpenseExcel dbSort toLocaleDateString xlsxExpense none db userId
        = ⟨200, .data (xlsxExpense rows)⟩ ∧
      rows.length = (db.expenses.filter (fun r => r.userId = userId)).length ∧
      ∀ i : Nat, rows[i]? = expenses[i]?.map
        (fun e => ⟨e.category, e.amount, toLocaleDateString e.date⟩)) ∧
    (∃ (incomes : List Income) (rows : List IncomeRow),
      getAllIncome dbSort none db userId = ⟨200, .data incomes⟩ ∧
      incomes.Perm (db.incomes.filter (fun r => r.userId = userId)) ∧
      incomes.Pairwise (fun a b => b.date ≤ a.date) ∧
      downloadIncomeExcelData dbSort toLocaleDateString none db userId = .ok rows ∧
      downloadIncomeExcel dbSort toLocaleDateString xlsxIncome none db userId
        = ⟨200, .data (xlsxIncome rows)⟩ ∧
      rows.length = (db.incomes.filter (fun r => r.userId = userId)).length ∧
      ∀ i : Nat, rows[i]? = incomes[i]?.map
        (fun e => ⟨e.source, e.amount, toLocaleDateString e.date⟩)) := by
  constructor
  · have hperm : (dbSort.sort Expense.date (findByUser db.expenses userId)).Perm
        (db.expenses.filter (fun r => r.userId = userId)) := by
      rw [findByUser_eq_filter]
      exact dbSort.perm _ _
    refine ⟨dbSort.sort Expense.date (findByUser db.expenses userId), _, rfl, hperm,
      dbSort.sorted _ _, rfl, rfl, ?_, ?_⟩
    · rw [List.length_map, hperm.length_eq]
    · intro i
      exact List.getElem?_map _ _ _
  · have hperm : (dbSort.sort Income.date (findByUser db.incomes userId)).Perm
        (db.incomes.filter (fun r => r.userId = userId)) := by
      rw [findByUser_eq_filter]
      exact dbSort.perm _ _
    refine ⟨dbSort.sort Income.date (findByUser db.incomes userId), _, rfl, hperm,
      dbSort.sorted _ _, rfl, rfl, ?_, ?_⟩
    · rw [List.length_map, hperm.length_eq]
    · intro i
      exact List.getElem?_map _ _ _

/-! ## Initials -/

theorem foldl_initials (toUpperCase : Char → List Char)
    (hup : ∀ c, (toUpperCase c).length ≤ 1) (words : List (List Char))
    (initials : List Char) (h : initials.length ≤ 2) :
    words.foldl
        (fun initials word =>
          if word.length > 0 ∧ initials.length < 2 then
            initials ++ firstUpper toUpperCase word
          else initials)
        initials
      = (initials ++ (words.filter (fun word => decide (word ≠ []))).flatMap
          (firstUpper toUpperCase)).take 2 := by
  induction words generalizing initials with
  | nil =>
    simp only [List.foldl_nil, List.filter_nil, List.flatMap_nil, List.append_nil]
    exact (List.take_of_length_le h).symm
  | cons w ws ih =>
    rw [List.foldl_cons]
    cases w with
    | nil =>
      simp only [List.length_nil, gt_iff_lt, lt_self_iff_false, false_and, if_false]
      rw [ih initials h]
      simp
    | cons c cs =>
      by_cases hl : initials.length < 2
      · have h1 : (c :: cs).length > 0 ∧ initials.length < 2 := ⟨by simp, hl⟩
        have h2 := hup c
        rw [if_pos h1, ih _ (by simp [firstUpper]; omega)]
        simp [firstUpper, List.filter_cons]
      · have h1 : ¬ ((c :: cs).length > 0 ∧ initials.length < 2) := fun h' => hl h'.2
        have h2 : initials.length = 2 := by omega
        rw [if_neg h1, ih initials h]
        rw [List.take_append_of_le_length (by omega), List.take_append_of_le_length (by omega)]

theorem foldl_initials_done (toUpperCase : Char → List Char) (words : List (List Char))
    (initials : List Char) (h : 2 ≤ initials.length) :
    words.foldl
        (fun initials word =>
          if word.length > 0 ∧ initials.length < 2 then
            initials ++ firstUpper toUpperCase word
          else initials)
        initials
      = initials := by
  induction words with
  | nil => rfl
  | cons w ws ih =>
    rw [List.foldl_cons, if_neg (fun h' => absurd h'.2 (by omega)), ih]

theorem foldl_initials_one (toUpperCase : Char → List Char)
    (hne : ∀ c, toUpperCase c ≠ []) (words : List (List Char)) (initials : List Char)
    (h : initials.length = 1) :
    words.foldl
        (fun initials word =>
          if word.length > 0 ∧ initials.length < 2 then
            initials ++ firstUpper toUpperCase word
          else initials)
        initials
      = initials ++ match words.find? (fun word => decide (word ≠ [])) with
        | none => []
        | some word => firstUpper toUpperCase word := by
  induction words with
  | nil => simp
  | cons w ws ih =>
    rw [List.foldl_cons]
    cases w with
    | nil =>
      simp only [List.length_nil, gt_iff_lt, lt_self_iff_false, false_and, if_false]
      rw [ih]
      simp [List.find?_cons]
    | cons c cs =>
      have h1 : (c :: cs).length > 0 ∧ initials.length < 2 := ⟨by simp, by omega⟩
      have h2 : 0 < (toUpperCase c).length := List.length_pos.mpr (hne c)
      rw [if_pos h1, foldl_initials_done]
      · simp [List.find?_cons]
      · simp only [firstUpper, List.length_append]
        omega

/-- The name ` John Smith`, which starts with a space, gets the initials `JS`, not
the specified `J`; and with an upper-casing that turns `ß` into `SS`, as that of
the runtime does, the name `x ß` gets the three characters `XSS` and the name `ß x`
gets `SS`, not the specified `SSX`. -/
theorem getInitials_leading_space :
    getInitials sampleToUpperCase (some " John Smith") = "JS" ∧
    initialsAsSpecified sampleToUpperCase " John Smith" = "J" ∧
    getInitials sampleToUpperCase (some " John Smith")
      ≠ initialsAsSpecified sampleToUpperCase " John Smith" ∧
    getInitials sampleToUpperCase (some "x ß") = "XSS" ∧
    ¬ (getInitials sampleToUpperCase (some "x ß")).length ≤ 2 ∧
    getInitials sampleToUpperCase (some "ß x") = "SS" ∧
    initialsAsSpecified sampleToUpperCase "ß x" = "SSX" := by
  decide

/-- C24 (amended): `getInitials` returns `U` for an absent or empty name.  For a
name whose first space-separated word is not empty and starts with a character
that upper-cases to one character, it returns that upper-cased character followed
by the upper-cased first character of the first later non-empty word, if any.
When upper-casing always gives a single character the result is, for every
non-empty name, made of the upper-cased first characters of the first two
non-empty words (of the only one, or nothing, when there are fewer) and has at
most 2 characters.  Upper-casing is that of the runtime, which never gives an empty
text. -/
theorem getInitials_spec (toUpperCase : Char → List Char) (name : String) :
    getInitials toUpperCase none = "U" ∧ getInitials toUpperCase (some "") = "U" ∧
    ((∀ c, toUpperCase c ≠ []) → name ≠ "" →
      ∀ c cs, (splitOnChar ' ' name.toList).headD [] = c :: cs →
        (toUpperCase c).length = 1 →
        getInitials toUpperCase (some name) = initialsAsSpecified toUpperCase name) ∧
    ((∀ c, (toUpperCase c).length ≤ 1) →
      (name ≠ "" →
        getInitials toUpperCase (some name)
          = String.mk ((((splitOnChar ' ' name.toList).filter
              (fun word => decide (word ≠ []))).flatMap (firstUpper toUpperCase)).take 2)) ∧
      (getInitials toUpperCase (some name)).length ≤ 2) := by
  refine ⟨rfl, rfl, ?_, ?_⟩
  · intro hne hname c cs hhead hone
    unfold getInitials initialsAsSpecified
    simp only [hname, if_false]
    congr 1
    rw [hhead]
    exact foldl_initials_one toUpperCase hne _ _ hone
  · intro hup
    have hgen : name ≠ "" →
        getInitials toUpperCase (some name)
          = String.mk ((((splitOnChar ' ' name.toList).filter
              (fun word => decide (word ≠ []))).flatMap (firstUpper toUpperCase)).take 2) := by
      intro hname
      unfold getInitials
      simp only [hname, if_false]
      congr 1
      have hfirst : (firstUpper toUpperCase ((splitOnChar ' ' name.toList).headD [])).length
          ≤ 2 := by
        cases (splitOnChar ' ' name.toList).headD [] with
        | nil => simp [firstUpper]
        | cons c cs => exact le_trans (hup c) (by decide)
      rw [foldl_initials toUpperCase hup _ _ hfirst]
      cases hw : splitOnChar ' ' name.toList with
      | nil => exact absurd hw (splitOnChar_ne_nil _ _)
      | cons w ws =>
        cases w with
        | nil => simp [firstUpper]
        | cons c cs => simp [firstUpper, List.filter_cons]
    refine ⟨hgen, ?_⟩
    by_cases hname : name = ""
    · rw [hname]
      show ("U" : String).length ≤ 2
      decide
    · rw [hgen hname]
      show (List.take 2 _).length ≤ 2
      rw [List.length_take]
      exact Nat.min_le_left _ _

/-- Sample names under `sampleToUpperCase`: `John Smith` gives `JS`, `mary` gives
`M`, `Ann  Lee` with two spaces gives `AL`. -/
theorem getInitials_samples :
    getInitials sampleToUpperCase (some "John Smith") = "JS" ∧
    getInitials sampleToUpperCase (some "mary") = "M" ∧
    getInitials sampleToUpperCase (some "Ann  Lee") = "AL" ∧
    getInitials sampleToUpperCase (some "John Smith")
      = initialsAsSpecified sampleToUpperCase "John Smith" := by
  decide

/-! ## Thousand separators -/

theorem digitChar_isDigit (d : Nat) (h : d < 10) : (Nat.digitChar d).isDigit = true := by
  interval_cases d <;> rfl

theorem toDigitsCore_digits (fuel n : Nat) (acc : List Char)
    (h : ∀ c ∈ acc, c.isDigit = true) :
    ∀ c ∈ Nat.toDigitsCore 10 fuel n acc, c.isDigit = true := by
  induction fuel generalizing n acc with
  | zero => exact h
  | succ fuel ih =>
    have hacc : ∀ c ∈ Nat.digitChar (n % 10) :: acc, c.isDigit = true := by
      intro c hc
      rcases List.mem_cons.mp hc with rfl | hc
      · exact digitChar_isDigit _ (Nat.mod_lt _ (by decide))
      · exact h c hc
    unfold Nat.toDigitsCore
    simp only []
    split
    · exact hacc
    · exact ih _ _ hacc

theorem toDigitsCore_ne_nil (fuel n : Nat) (acc : List Char) (h : acc ≠ []) :
    Nat.toDigitsCore 10 fuel n acc ≠ [] := by
  induction fuel generalizing n acc with
  | zero => exact h
  | succ fuel ih =>
    unfold Nat.toDigitsCore
    simp only []
    split
    · simp
    · exact ih _ _ (by simp)

theorem toDigits_digits (n : Nat) : ∀ c ∈ Nat.toDigits 10 n, c.isDigit = true :=
  toDigitsCore_digits _ _ _ (fun _ h => by simp at h)

theorem toDigits_ne_nil (n : Nat) : Nat.toDigits 10 n ≠ [] := by
  unfold Nat.toDigits Nat.toDigitsCore
  simp only []
  split
  · simp
  · exact toDigitsCore_ne_nil _ _ _ (by simp)

theorem digitRun_of_digits (l : List Char) (h : ∀ c ∈ l, c.isDigit = true) :
    digitRun l = l.length := by
  induction l with
  | nil => rfl
  | cons c cs ih =>
    unfold digitRun
    rw [if_pos (h c (List.mem_cons_self c cs)), ih (fun x hx => h x (List.mem_cons_of_mem c hx))]
    rfl

theorem isWordChar_of_isDigit {c : Char} (h : c.isDigit = true) : isWordChar c = true := by
  simp [isWordChar, Char.isAlphanum, h]

/-- After a word character, a run of `3 * q` digits gets a comma before each group
of three. -/
theorem insertCommas_groups (q : Nat) (prev : Char) (rest : List Char)
    (hprev : isWordChar prev = true) (hrest : ∀ c ∈ rest, c.isDigit = true)
    (hlen : rest.length = 3 * q) :
    ∃ groups : List (List Char),
      insertCommas (some prev) rest = groups.flatMap (fun g => ',' :: g) ∧
      groups.flatten = rest ∧ ∀ g ∈ groups, g.length = 3 := by
  induction q generalizing prev rest with
  | zero =>
    have : rest = [] := List.length_eq_zero.mp (by omega)
    subst this
    exact ⟨[], rfl, rfl, fun _ h => by simp at h⟩
  | succ q ih =>
    match rest, hlen, hrest with
    | a :: b :: c :: rest', hlen, hrest =>
      have ha : a.isDigit = true := hrest a (by simp)
      have hb : b.isDigit = true := hrest b (by simp)
      have hc : c.isDigit = true := hrest c (by simp)
      have hr : ∀ x ∈ rest', x.isDigit = true := fun x hx => hrest x (by simp [hx])
      have hl : rest'.length = 3 * q := by
        simp only [List.length_cons] at hlen
        omega
      obtain ⟨groups, hg, hj, h3⟩ := ih c rest' (isWordChar_of_isDigit hc) hr hl
      refine ⟨[a, b, c] :: groups, ?_, ?_, ?_⟩
      · have r0 : digitRun (a :: b :: c :: rest') = 3 * q + 3 := by
          rw [digitRun_of_digits _ hrest]
          simp [hl]
        have r1 : digitRun (b :: c :: rest') = 3 * q + 2 := by
          rw [digitRun_of_digits _ (fun x hx => hrest x (List.mem_cons_of_mem a hx))]
          simp [hl]
        have r2 : digitRun (c :: rest') = 3 * q + 1 := by
          rw [digitRun_of_digits _ (fun x hx => hrest x
            (List.mem_cons_of_mem a (List.mem_cons_of_mem b hx)))]
          simp [hl]
        have g0 : groupsOfThreeAhead (a :: b :: c :: rest') = true := by
          simp only [groupsOfThreeAhead, r0]
          simp
          try omega
        have g1 : groupsOfThreeAhead (b :: c :: rest') = false := by
          simp only [groupsOfThreeAhead, r1]
          simp
          try omega
        have g2 : groupsOfThreeAhead (c :: rest') = false := by
          simp only [groupsOfThreeAhead, r2]
          simp
          try omega
        have w0 : notWordBoundary (some prev) (a :: b :: c :: rest') = true := by
          simp [notWordBoundary, hprev, isWordChar_of_isDigit ha]
        simp only [insertCommas, g0, g1, g2, w0, Bool.and_self, Bool.and_false, if_true,
          Bool.false_eq_true, if_false, List.nil_append, List.singleton_append, hg,
          List.flatMap_cons, List.cons_append]
      · simp [hj]
      · intro g hgm
        rcases List.mem_cons.mp hgm with rfl | hgm
        · rfl
        · exact h3 g hgm
    | [], hlen, _ => simp at hlen
    | [_], hlen, _ => simp at hlen; omega
    | [_, _], hlen, _ => simp at hlen; omega

/-- A non-empty text of digits gets its commas between a first group of one to
three digits and the groups of three that follow. -/
theorem insertCommas_digits (ds : List Char) (hds : ∀ c ∈ ds, c.isDigit = true)
    (hne : ds ≠ []) :
    ∃ (head : List Char) (groups : List (List Char)),
      insertCommas none ds = head ++ groups.flatMap (fun g => ',' :: g) ∧
      ds = head ++ groups.flatten ∧ 1 ≤ head.length ∧ head.length ≤ 3 ∧
      ∀ g ∈ groups, g.length = 3 := by
  have hpos : 0 < ds.length := List.length_pos.mpr hne
  obtain ⟨q, r, hlen, hr1, hr3⟩ : ∃ q r, ds.length = 3 * q + r ∧ 1 ≤ r ∧ r ≤ 3 :=
    ⟨(ds.length - 1) / 3, (ds.length - 1) % 3 + 1, by omega, by omega, by omega⟩
  have hstart : ∀ (a : Char) (l : List Char), a.isDigit = true →
      insertCommas none (a :: l) = a :: insertCommas (some a) l := by
    intro a l ha
    simp [insertCommas, notWordBoundary, isWordChar_of_isDigit ha]
  have hskip : ∀ (p a : Char) (l : List Char) (k : Nat), (∀ c ∈ a :: l, c.isDigit = true) →
      (a :: l).length = 3 * k + 1 ∨ (a :: l).length = 3 * k + 2 →
      insertCommas (some p) (a :: l) = a :: insertCommas (some a) l := by
    intro p a l k hd hk
    have hrun := digitRun_of_digits _ hd
    simp only [List.length_cons] at hk hrun
    have hg : groupsOfThreeAhead (a :: l) = false := by
      simp only [groupsOfThreeAhead, hrun]
      simp
      omega
    simp [insertCommas, hg]
  interval_cases r
  · match ds, hds, hlen with
    | a :: rest, hds, hlen =>
      have ha := hds a (by simp)
      obtain ⟨groups, hg, hj, h3⟩ := insertCommas_groups q a rest (isWordChar_of_isDigit ha)
        (fun x hx => hds x (by simp [hx])) (by simp only [List.length_cons] at hlen; omega)
      exact ⟨[a], groups, by rw [hstart a rest ha, hg]; rfl, by simp [hj], by simp, by simp,
        h3⟩
  · match ds, hds, hlen with
    | a :: b :: rest, hds, hlen =>
      have ha := hds a (by simp)
      have hb := hds b (by simp)
      obtain ⟨groups, hg, hj, h3⟩ := insertCommas_groups q b rest (isWordChar_of_isDigit hb)
        (fun x hx => hds x (by simp [hx])) (by simp only [List.length_cons] at hlen; omega)
      have h1 := hskip a b rest q (fun x hx => hds x (List.mem_cons_of_mem a hx))
        (Or.inl (by simp only [List.length_cons] at hlen ⊢; omega))
      exact ⟨[a, b], groups, by rw [hstart a _ ha, h1, hg]; rfl, by simp [hj], by simp,
        by simp, h3⟩
    | [_], _, hlen => simp at hlen
  · match ds, hds, hlen with
    | a :: b :: c :: rest, hds, hlen =>
      have ha := hds a (by simp)
      have hb := hds b (by simp)
      have hc := hds c (by simp)
      obtain ⟨groups, hg, hj, h3⟩ := insertCommas_groups q c rest (isWordChar_of_isDigit hc)
        (fun x hx => hds x (by simp [hx])) (by simp only [List.length_cons] at hlen; omega)
      have h1 := hskip a b (c :: rest) q (fun x hx => hds x (List.mem_cons_of_mem a hx))
        (Or.inr (by simp only [List.length_cons] at hlen ⊢; omega))
      have h2 := hskip b c rest q
        (fun x hx => hds x (List.mem_cons_of_mem a (List.mem_cons_of_mem b hx)))
        (Or.inl (by simp only [List.length_cons] at hlen ⊢; omega))
      exact ⟨[a, b, c], groups, by rw [hstart a _ ha, h1, h2, hg]; rfl, by simp [hj], by simp,
        by simp, h3⟩
    | [_], _, hlen => simp at hlen
    | [_, _], _, hlen => simp at hlen

theorem insertCommas_filter (prev : Option Char) (l : List Char) :
    (insertCommas prev l).filter (fun c => decide (c ≠ ','))
      = l.filter (fun c => decide (c ≠ ',')) := by
  induction l generalizing prev with
  | nil => rfl
  | cons c cs ih =>
    unfold insertCommas
    rw [List.filter_append, List.filter_cons, List.filter_cons, ih]
    split <;> simp

theorem dot_not_mem_digits (ds : List Char) (hds : ∀ c ∈ ds, c.isDigit = true) :
    '.' ∉ ds := by
  intro h
  have := hds '.' h
  revert this
  decide

theorem addThousandSeparators_of_no_dot (text : List Char) (h : '.' ∉ text) :
    addThousandSeparators (.value false (String.mk text))
      = String.mk (insertCommas none text) := by
  unfold addThousandSeparators
  simp only [Bool.false_eq_true, if_false]
  show (match (splitOnChar '.' text)[1]? with
    | none => String.mk (insertCommas none ((splitOnChar '.' text).headD []))
    | some fractionalPart =>
      if fractionalPart = [] then String.mk (insertCommas none ((splitOnChar '.' text).headD []))
      else String.mk (insertCommas none ((splitOnChar '.' text).headD [])
        ++ '.' :: fractionalPart)) = _
  rw [splitOnChar_of_not_mem _ _ h]
  rfl

theorem addThousandSeparators_fraction (whole fraction : List Char) (hw : '.' ∉ whole)
    (hf : '.' ∉ fraction) (hne : fraction ≠ []) :
    addThousandSeparators (.value false (String.mk (whole ++ '.' :: fraction)))
      = String.mk (insertCommas none whole ++ '.' :: fraction) := by
  unfold addThousandSeparators
  simp only [Bool.false_eq_true, if_false]
  show (match (splitOnChar '.' (whole ++ '.' :: fraction))[1]? with
    | none => String.mk (insertCommas none
        ((splitOnChar '.' (whole ++ '.' :: fraction)).headD []))
    | some fractionalPart =>
      if fractionalPart = [] then String.mk (insertCommas none
        ((splitOnChar '.' (whole ++ '.' :: fraction)).headD []))
      else String.mk (insertCommas none
        ((splitOnChar '.' (whole ++ '.' :: fraction)).headD []) ++ '.' :: fractionalPart)) = _
  rw [splitOnChar_append_sep _ _ _ hw, splitOnChar_of_not_mem _ _ hf]
  simp [hne]

/-- The number `10^21`, which `toString()` prints as `1e+21`: the result is that
text, with no comma in it, and removing the commas does not give the 22 decimal
digits of the number. -/
theorem addThousandSeparators_exponent :
    numberToString sampleBeyond (10 ^ 21) = "1e+21" ∧
    addThousandSeparators (.value false (numberToString sampleBeyond (10 ^ 21))) = "1e+21" ∧
    (addThousandSeparators (.value false (numberToString sampleBeyond (10 ^ 21)))).toList.filter
        (fun c => decide (c ≠ ','))
      ≠ Nat.toDigits 10 (10 ^ 21) ∧
    ',' ∉ (addThousandSeparators (.value false (numberToString sampleBeyond (10 ^ 21)))).toList ∧
    (Nat.toDigits 10 (10 ^ 21)).length = 22 := by
  decide

/-- C25 (amended): for a non-negative integer `n ≤ 2^53`, which `toString()` prints
digit by digit, `addThousandSeparators` returns the digits of `n` cut into a first
group of 1 to 3 digits and then groups of exactly 3 digits, with one comma before
each later group (so none leading or trailing); removing the commas gives the
digits back.  For a text with a fractional part after the digits of `n`, the
integer part is grouped the same way and the fractional part follows the `.`
unchanged.  For `null`, `undefined` and a value `isNaN` rejects the result is the
empty string. -/
theorem addThousandSeparators_spec (beyond : Nat → String) (n : Nat) (hn : n ≤ 2 ^ 53) :
    numberToString beyond n = String.mk (Nat.toDigits 10 n) ∧
    (∃ (head : List Char) (groups : List (List Char)),
      addThousandSeparators (.value false (numberToString beyond n))
        = String.mk (head ++ groups.flatMap (fun g => ',' :: g)) ∧
      Nat.toDigits 10 n = head ++ groups.flatten ∧
      1 ≤ head.length ∧ head.length ≤ 3 ∧ (∀ g ∈ groups, g.length = 3) ∧
      ∀ c ∈ Nat.toDigits 10 n, c.isDigit = true) ∧
    (addThousandSeparators (.value false (numberToString beyond n))).toList.filter
        (fun c => decide (c ≠ ','))
      = Nat.toDigits 10 n ∧
    (∀ fraction : List Char, fraction ≠ [] → '.' ∉ fraction →
      addThousandSeparators
          (.value false (String.mk ((numberToString beyond n).toList ++ '.' :: fraction)))
        = String.mk ((addThousandSeparators
            (.value false (numberToString beyond n))).toList ++ '.' :: fraction)) ∧
    addThousandSeparators .null = "" ∧ addThousandSeparators .undefined = "" ∧
    ∀ text : String, addThousandSeparators (.value true text) = "" := by
  have htext : numberToString beyond n = String.mk (Nat.toDigits 10 n) := by
    unfold numberToString
    exact if_pos hn
  rw [htext]
  have hds := toDigits_digits n
  have hdot := dot_not_mem_digits _ hds
  have hplain := addThousandSeparators_of_no_dot _ hdot
  refine ⟨rfl, ?_, ?_, ?_, rfl, rfl, fun _ => rfl⟩
  · obtain ⟨head, groups, h1, h2, h3, h4, h5⟩ :=
      insertCommas_digits _ hds (toDigits_ne_nil n)
    exact ⟨head, groups, by rw [hplain, h1], h2, h3, h4, h5, hds⟩
  · rw [hplain]
    show (insertCommas none (Nat.toDigits 10 n)).filter _ = _
    rw [insertCommas_filter, List.filter_eq_self]
    intro c hc
    have := hds c hc
    have hne : c ≠ ',' := by
      rintro rfl
      revert this
      decide
    simpa using hne
  · intro fraction hne hf
    show addThousandSeparators (.value false (String.mk (Nat.toDigits 10 n ++ '.' :: fraction)))
      = _
    rw [addThousandSeparators_fraction _ _ hdot hf hne, hplain]
    rfl

/-- Witness for C25: the number 1234567 gives `1,234,567`, and `1234567.25` gives
`1,234,567.25`. -/
theorem addThousandSeparators_spec_witness :
    addThousandSeparators (.value false (numberToString sampleBeyond 1234567)) = "1,234,567" ∧
    addThousandSeparators (.value false "1234567.25") = "1,234,567.25" ∧
    (addThousandSeparators (.value false (numberToString sampleBeyond 1234567))).toList.filter
        (fun c => decide (c ≠ ','))
      = Nat.toDigits 10 1234567 :=
  ⟨by decide, by decide,
    (addThousandSeparators_spec sampleBeyond 1234567 (by decide)).2.2.1⟩

/-! ## Email format -/

theorem matchPlus_iff (cls : Char → Bool) (next : List Char → Bool) (l : List Char) :
    matchPlus cls next l = true ↔
      ∃ a b, l = a ++ b ∧ a ≠ [] ∧ (∀ c ∈ a, cls c = true) ∧ next b = true := by
  induction l with
  | nil =>
    constructor
    · intro h
      cases h
    · rintro ⟨a, b, h, hne, -, -⟩
      cases a with
      | nil => exact absurd rfl hne
      | cons x xs => cases h
  | cons c cs ih =>
    unfold matchPlus
    rw [Bool.and_eq_true, Bool.or_eq_true, ih]
    constructor
    · rintro ⟨hc, h | ⟨a, b, rfl, -, ha, hb⟩⟩
      · exact ⟨[c], cs, rfl, by simp, by simpa using hc, h⟩
      · refine ⟨c :: a, b, rfl, by simp, ?_, hb⟩
        intro x hx
        rcases List.mem_cons.mp hx with rfl | hx
        · exact hc
        · exact ha x hx
    · rintro ⟨a, b, h, hne, ha, hb⟩
      cases a with
      | nil => exact absurd rfl hne
      | cons x xs =>
        simp only [List.cons_append, List.cons.injEq] at h
        obtain ⟨rfl, rfl⟩ := h
        refine ⟨ha c (List.mem_cons_self c xs), ?_⟩
        cases xs with
        | nil => exact Or.inl hb
        | cons y ys =>
          exact Or.inr ⟨y :: ys, b, rfl, by simp,
            fun z hz => ha z (List.mem_cons_of_mem c hz), hb⟩

theorem matchChar_iff (ch : Char) (next : List Char → Bool) (l : List Char) :
    matchChar ch next l = true ↔ ∃ b, l = ch :: b ∧ next b = true := by
  cases l with
  | nil => simp [matchChar]
  | cons c cs =>
    simp only [matchChar, Bool.and_eq_true, beq_iff_eq, List.cons.injEq]
    constructor
    · rintro ⟨rfl, h⟩
      exact ⟨cs, ⟨rfl, rfl⟩, h⟩
    · rintro ⟨b, ⟨rfl, rfl⟩, h⟩
      exact ⟨rfl, h⟩

theorem matchEnd_iff (l : List Char) : matchEnd l = true ↔ l = [] := by
  cases l <;> simp [matchEnd]

/-- What the regular expression of `validateEmail` accepts: a local part, `@`, and
a domain cut by a `.`, the three pieces non-empty and free of white space and `@`. -/
theorem validateEmail_iff_pieces (email : String) :
    validateEmail email = true ↔
      ∃ l a b, email.toList = l ++ '@' :: (a ++ '.' :: b) ∧ l ≠ [] ∧ a ≠ [] ∧ b ≠ [] ∧
        (∀ c ∈ l, notSpaceNorAt c = true) ∧ (∀ c ∈ a, notSpaceNorAt c = true) ∧
        (∀ c ∈ b, notSpaceNorAt c = true) := by
  unfold validateEmail
  rw [matchPlus_iff]
  constructor
  · rintro ⟨l, r, h, hl, hcl, hr⟩
    obtain ⟨r1, rfl, hr1⟩ := (matchChar_iff _ _ _).mp hr
    obtain ⟨a, r2, rfl, ha, hca, hr2⟩ := (matchPlus_iff _ _ _).mp hr1
    obtain ⟨r3, rfl, hr3⟩ := (matchChar_iff _ _ _).mp hr2
    obtain ⟨b, e, rfl, hb, hcb, he⟩ := (matchPlus_iff _ _ _).mp hr3
    have := (matchEnd_iff e).mp he
    subst this
    exact ⟨l, a, b, by simpa using h, hl, ha, hb, hcl, hca, hcb⟩
  · rintro ⟨l, a, b, h, hl, ha, hb, hcl, hca, hcb⟩
    refine ⟨l, '@' :: (a ++ '.' :: b), h, hl, hcl, ?_⟩
    refine (matchChar_iff _ _ _).mpr ⟨_, rfl, ?_⟩
    refine (matchPlus_iff _ _ _).mpr ⟨a, '.' :: b, rfl, ha, hca, ?_⟩
    refine (matchChar_iff _ _ _).mpr ⟨_, rfl, ?_⟩
    exact (matchPlus_iff _ _ _).mpr ⟨b, [], by simp, hb, hcb, rfl⟩

theorem notSpaceNorAt_iff (c : Char) :
    notSpaceNorAt c = true ↔ isJsWhitespace c = false ∧ c ≠ '@' := by
  simp [notSpaceNorAt]

/-- C26: `validateEmail s` is true if and only if `s` contains no white space
character, contains exactly one `@`, has a non-empty part before the `@`, and the
part after the `@` contains a `.` that is neither its first nor its last
character. -/
theorem validateEmail_iff (email : String) :
    validateEmail email = true ↔
      (∀ c ∈ email.toList, isJsWhitespace c = false) ∧
      email.toList.count '@' = 1 ∧
      ∃ l d, email.toList = l ++ '@' :: d ∧ l ≠ [] ∧
        ∃ a b, d = a ++ '.' :: b ∧ a ≠ [] ∧ b ≠ [] := by
  rw [validateEmail_iff_pieces]
  constructor
  · rintro ⟨l, a, b, h, hl, ha, hb, hcl, hca, hcb⟩
    have zl : l.count '@' = 0 :=
      List.count_eq_zero.mpr (fun hm => ((notSpaceNorAt_iff _).mp (hcl _ hm)).2 rfl)
    have za : a.count '@' = 0 :=
      List.count_eq_zero.mpr (fun hm => ((notSpaceNorAt_iff _).mp (hca _ hm)).2 rfl)
    have zb : b.count '@' = 0 :=
      List.count_eq_zero.mpr (fun hm => ((notSpaceNorAt_iff _).mp (hcb _ hm)).2 rfl)
    refine ⟨?_, ?_, l, _, h, hl, a, b, rfl, ha, hb⟩
    · intro c hc
      rw [h] at hc
      simp only [List.mem_append, List.mem_cons] at hc
      rcases hc with hc | rfl | hc | rfl | hc
      · exact ((notSpaceNorAt_iff _).mp (hcl _ hc)).1
      · decide
      · exact ((notSpaceNorAt_iff _).mp (hca _ hc)).1
      · decide
      · exact ((notSpaceNorAt_iff _).mp (hcb _ hc)).1
    · rw [h]
      simp [List.count_append, List.count_cons, zl, za, zb]
  · rintro ⟨hws, hcount, l, d, h, hl, a, b, rfl, ha, hb⟩
    rw [h] at hcount hws
    simp only [List.count_append, List.count_cons, beq_self_eq_true, if_true] at hcount
    have hdot : (('.' : Char) == '@') = false := by decide
    simp only [hdot, Bool.false_eq_true, if_false, Nat.add_zero] at hcount
    have zl : l.count '@' = 0 := by omega
    have za : a.count '@' = 0 := by omega
    have zb : b.count '@' = 0 := by omega
    have hcls : ∀ (part : List Char), part.count '@' = 0 →
        (∀ c ∈ part, c ∈ l ++ '@' :: (a ++ '.' :: b)) →
        ∀ c ∈ part, notSpaceNorAt c = true := by
      intro part hz hsub c hc
      refine (notSpaceNorAt_iff c).mpr ⟨hws c (hsub c hc), ?_⟩
      rintro rfl
      exact List.count_eq_zero.mp hz hc
    exact ⟨l, a, b, h, hl, ha, hb,
      hcls l zl (fun c hc => by simp [hc]),
      hcls a za (fun c hc => by simp [hc]),
      hcls b zb (fun c hc => by simp [hc])⟩

/-! ## The five rows of the recent list -/

theorem take_sorted_ge {α : Type} (key : α → Int) (t : Int) (l : List α) (k : Nat)
    (hs : l.Pairwise (fun a b => key b ≤ key a))
    (hk : k ≤ l.countP (fun x => decide (t ≤ key x))) :
    ∀ a ∈ l.take k, t ≤ key a := by
  induction l generalizing k with
  | nil => intro a ha; simp at ha
  | cons x xs ih =>
    cases k with
    | zero => intro a ha; simp at ha
    | succ k =>
      rw [List.pairwise_cons] at hs
      intro a ha
      rw [List.take_succ_cons] at ha
      rcases List.mem_cons.mp ha with rfl | ha
      · have hpos : 0 < (a :: xs).countP (fun x => decide (t ≤ key x)) := by omega
        obtain ⟨y, hy, hty⟩ := List.countP_pos_iff.mp hpos
        have hty' : t ≤ key y := by simpa using hty
        rcases List.mem_cons.mp hy with rfl | hy
        · exact hty'
        · exact le_trans hty' (hs.1 y hy)
      · refine ih k hs.2 ?_ a ha
        rw [List.countP_cons] at hk
        split at hk <;> omega

theorem recent_top_bound {α β : Type} (keyα : α → Int) (key : β → Int) (tag : α → β)
    (htag : ∀ r, key (tag r) = keyα r) (sorted : List α) (others feed : List β)
    (hsorted : sorted.Pairwise (fun a b => keyα b ≤ keyα a))
    (hfeed : feed.Pairwise (fun a b => key b ≤ key a))
    (hperm : feed.Perm ((sorted.take 5).map tag ++ others) ∨
      feed.Perm (others ++ (sorted.take 5).map tag)) :
    ∀ a ∈ feed.take 5, ∀ r ∈ sorted.drop 5, keyα r ≤ key a := by
  intro a ha r hr
  have hlen : 5 ≤ sorted.length := by
    by_contra hlt
    rw [List.drop_of_length_le (by omega)] at hr
    simp at hr
  have hsplit := hsorted
  rw [← List.take_append_drop 5 sorted] at hsplit
  have hcross := (List.pairwise_append.mp hsplit).2.2
  have hall : ((sorted.take 5).map tag).countP (fun x => decide (keyα r ≤ key x)) = 5 := by
    rw [List.countP_eq_length.mpr]
    · simp [List.length_take]
      omega
    · intro x hx
      obtain ⟨y, hy, rfl⟩ := List.mem_map.mp hx
      simpa [htag] using hcross y hy r hr
  refine take_sorted_ge key (keyα r) feed 5 hfeed ?_ a ha
  rcases hperm with hp | hp
  · rw [hp.countP_eq, List.countP_append, hall]
    omega
  · rw [hp.countP_eq, List.countP_append, hall]
    omega

/-- C27: with the database answering, the items `RecentTransactions` renders, the
first five of `lastTransactions`, are the `min 5 (n + m)` most recent of the user's
`n` income and `m` expense records taken together: all the records of the user,
tagged, are a permutation of the rendered items followed by a remainder, and the
record of no item of the remainder is dated after the record of a rendered one. -/
theorem recent_shown_are_most_recent (dbSort : QuerySort) (zone : TimeZone) (now : Int)
    (db : Db) (userId : ObjectId) :
    ∃ (d : DashboardSummary) (rest : List (Tagged (Income ⊕ Expense))),
      getDashboardData dbSort none zone now db userId = ⟨200, .data d⟩ ∧
      (recentTransactionsShown d.lastTransactions).length
        = min 5 ((db.incomes.filter (fun r => r.userId = userId)).length
            + (db.expenses.filter (fun r => r.userId = userId)).length) ∧
      recentTransactionsShown d.lastTransactions = d.lastTransactions.take 5 ∧
      (recentTransactionsShown d.lastTransactions ++ rest).Perm
        ((db.incomes.filter (fun r => r.userId = userId)).map
            (fun t => ⟨Sum.inl t, "income"⟩)
          ++ (db.expenses.filter (fun r => r.userId = userId)).map
            (fun t => ⟨Sum.inr t, "expense"⟩)) ∧
      ∀ a ∈ recentTransactionsShown d.lastTransactions, ∀ b ∈ rest,
        Sum.elim Income.date Expense.date b.doc
          ≤ Sum.elim Income.date Expense.date a.doc := by
  obtain ⟨d, hd, -, -, -, -, -, -, -, hl, -⟩ := getDashboardData_fields dbSort zone now db userId
  rw [feedDate_eq] at hl
  have hUI := findByUser_eq_filter db.incomes userId
  have hUE := findByUser_eq_filter db.expenses userId
  generalize hSI : dbSort.sort Income.date (findByUser db.incomes userId) = SI at hl
  generalize hSE : dbSort.sort Expense.date (findByUser db.expenses userId) = SE at hl
  have hsI : SI.Pairwise (fun a b => b.date ≤ a.date) := by
    rw [← hSI]; exact dbSort.sorted _ _
  have hsE : SE.Pairwise (fun a b => b.date ≤ a.date) := by
    rw [← hSE]; exact dbSort.sorted _ _
  have hpI : SI.Perm (db.incomes.filter (fun r => r.userId = userId)) := by
    rw [← hSI, hUI]; exact dbSort.perm _ _
  have hpE : SE.Perm (db.expenses.filter (fun r => r.userId = userId)) := by
    rw [← hSE, hUE]; exact dbSort.perm _ _
  have hfeedSorted : d.lastTransactions.Pairwise (fun a b =>
      Sum.elim Income.date Expense.date b.doc ≤ Sum.elim Income.date Expense.date a.doc) := by
    rw [hl]; exact sortDesc_sorted _ _
  have hfeedPerm : d.lastTransactions.Perm
      ((SI.take 5).map (fun t => (⟨Sum.inl t, "income"⟩ : Tagged (Income ⊕ Expense)))
        ++ (SE.take 5).map (fun t => ⟨Sum.inr t, "expense"⟩)) := by
    rw [hl]; exact sortDesc_perm _ _
  refine ⟨d, d.lastTransactions.drop 5
      ++ ((SI.drop 5).map (fun t => ⟨Sum.inl t, "income"⟩)
        ++ (SE.drop 5).map (fun t => ⟨Sum.inr t, "expense"⟩)), hd, ?_, rfl, ?_, ?_⟩
  · unfold recentTransactionsShown
    rw [List.length_take, hfeedPerm.length_eq, List.length_append, List.length_map,
      List.length_map, List.length_take, List.length_take, hpI.length_eq, hpE.length_eq]
    omega
  · unfold recentTransactionsShown
    rw [← List.append_assoc, List.take_append_drop]
    refine (List.Perm.append_right _ hfeedPerm).trans ?_
    have e1 : (SI.take 5).map (fun t => (⟨Sum.inl t, "income"⟩ : Tagged (Income ⊕ Expense)))
        ++ (SI.drop 5).map (fun t => ⟨Sum.inl t, "income"⟩)
        = SI.map (fun t => ⟨Sum.inl t, "income"⟩) := by
      rw [← List.map_append, List.take_append_drop]
    have e2 : (SE.take 5).map (fun t => (⟨Sum.inr t, "expense"⟩ : Tagged (Income ⊕ Expense)))
        ++ (SE.drop 5).map (fun t => ⟨Sum.inr t, "expense"⟩)
        = SE.map (fun t => ⟨Sum.inr t, "expense"⟩) := by
      rw [← List.map_append, List.take_append_drop]
    refine List.Perm.trans ?_ (List.Perm.append (hpI.map _) (hpE.map _))
    rw [← e1, ← e2]
    simp only [List.append_assoc]
    refine List.Perm.append_left _ ?_
    rw [← List.append_assoc, ← List.append_assoc]
    exact List.Perm.append_right _ List.perm_append_comm
  · intro a ha b hb
    unfold recentTransactionsShown at ha
    rcases List.mem_append.mp hb with hb | hb
    · have hsplit := hfeedSorted
      rw [← List.take_append_drop 5 d.lastTransactions] at hsplit
      exact (List.pairwise_append.mp hsplit).2.2 a ha b hb
    · rcases List.mem_append.mp hb with hb | hb
      · obtain ⟨r, hr, rfl⟩ := List.mem_map.mp hb
        exact recent_top_bound Income.date
          (fun t : Tagged (Income ⊕ Expense) => Sum.elim Income.date Expense.date t.doc)
          (fun t => ⟨Sum.inl t, "income"⟩)
          (fun _ => rfl) SI _ _ hsI hfeedSorted (Or.inl hfeedPerm) a ha r hr
      · obtain ⟨r, hr, rfl⟩ := List.mem_map.mp hb
        exact recent_top_bound Expense.date
          (fun t : Tagged (Income ⊕ Expense) => Sum.elim Income.date Expense.date t.doc)
          (fun t => ⟨Sum.inr t, "expense"⟩)
          (fun _ => rfl) SE _ _ hsE hfeedSorted (Or.inr hfeedPerm) a ha r hr

/-- A user with six income records dated 1 to 6 and one expense dated 10: the five
rows rendered are the expense and the income records dated 6 to 3. -/
theorem recent_shown_sample :
    ∃ d, getDashboardData stableSort none utcZone 3000 sampleDbRecent 7 = ⟨200, .data d⟩ ∧
      (recentTransactionsShown d.lastTransactions).map
          (fun t => Sum.elim Income.date Expense.date t.doc)
        = [10, 6, 5, 4, 3] := by
  refine ⟨_, rfl, ?_⟩
  decide

/-! ## The expense list of the dashboard page -/

theorem sortDesc_eq_self {α : Type} (key : α → Int) (l : List α)
    (h : l.Pairwise (fun a b => key b ≤ key a)) : sortDesc key l = l := by
  induction l with
  | nil => rfl
  | cons a l ih =>
    rw [List.pairwise_cons] at h
    show insertDesc key a (sortDesc key l) = a :: l
    rw [ih h.2]
    cases l with
    | nil => rfl
    | cons b l =>
      unfold insertDesc
      rw [if_pos (h.1 b (List.mem_cons_self b l))]

theorem recentExpenses_of_sorted (zone : TimeZone) (now : Int)
    (expenses : List (Tagged Expense))
    (h : expenses.Pairwise (fun a b => b.doc.date ≤ a.doc.date)) :
    recentExpenses zone now expenses
      = expenses.filter (fun e => decide (setDateBack zone now 30 ≤ e.doc.date)) := by
  unfold recentExpenses
  exact sortDesc_eq_self _ _ (h.sublist (List.filter_sublist _))

theorem totalExpenses_eq_foldl (zone : TimeZone) (now : Int)
    (expenses : List (Tagged Expense)) :
    totalExpenses zone now expenses
      = (recentExpenses zone now expenses).foldl (fun sum e => sum + e.doc.amount) 0 := by
  unfold totalExpenses
  split
  · rfl
  · rename_i hlen
    have : recentExpenses zone now expenses = [] := List.length_eq_zero.mp (by omega)
    rw [this]
    rfl

/-- On `sampleDbWindow` at `sampleNow` the dashboard window holds both expenses of
user 7, total 90; `ExpensesList`, mounted at the same instant in the same time
zone, keeps only the one dated after day 1 at 15:00 and shows the total 20. -/
theorem expensesList_drops_record :
    ∃ d, getDashboardData stableSort none utcZone sampleNow sampleDbWindow 7
        = ⟨200, .data d⟩ ∧
      d.last30DaysExpense.transactions
        = [⟨⟨2, 7, none, "Food", 20, 2721600000, 0, 0⟩, "expense"⟩,
           ⟨⟨1, 7, none, "Rent", 70, 122400000, 0, 0⟩, "expense"⟩] ∧
      d.last30DaysExpense.total = 90 ∧
      recentExpenses utcZone sampleNow d.last30DaysExpense.transactions
        = [⟨⟨2, 7, none, "Food", 20, 2721600000, 0, 0⟩, "expense"⟩] ∧
      totalExpenses utcZone sampleNow d.last30DaysExpense.transactions = 20 ∧
      recentExpenses utcZone sampleNow d.last30DaysExpense.transactions
        ≠ d.last30DaysExpense.transactions ∧
      totalExpenses utcZone sampleNow d.last30DaysExpense.transactions
        ≠ d.last30DaysExpense.total :=
  ⟨_, rfl, by decide, by decide, by decide, by decide, by decide, by decide⟩

/-- C28 (amended): with the database answering, for the list `L` the dashboard
returns as `last30DaysExpense.transactions` and an `ExpensesList` mounted at the
instant `clientNow` in a browser of time zone `clientZone`, the component keeps
exactly the records of `L` dated at or after its cutoff, the instant 30 calendar
days before `clientNow` at the same local time, in the order of `L`, and renders
the first 4 of them.  When no record of `L` is dated before that cutoff the list
kept is `L` and the total displayed, the same `reduce` over the same list, is
`last30DaysExpense.total`. -/
theorem expensesList_window (dbSort : QuerySort) (zone clientZone : TimeZone)
    (now clientNow : Int) (db : Db) (userId : ObjectId) :
    ∃ d, getDashboardData dbSort none zone now db userId = ⟨200, .data d⟩ ∧
      recentExpenses clientZone clientNow d.last30DaysExpense.transactions
        = d.last30DaysExpense.transactions.filter
            (fun e => decide (clientZone.utc (clientZone.localTime clientNow - 30 * msPerDay)
              ≤ e.doc.date)) ∧
      (recentExpenses clientZone clientNow d.last30DaysExpense.transactions).Sublist
        d.last30DaysExpense.transactions ∧
      expensesShown clientZone clientNow d.last30DaysExpense.transactions
        = (recentExpenses clientZone clientNow d.last30DaysExpense.transactions).take 4 ∧
      ((∀ e ∈ d.last30DaysExpense.transactions,
          clientZone.utc (clientZone.localTime clientNow - 30 * msPerDay) ≤ e.doc.date) →
        recentExpenses clientZone clientNow d.last30DaysExpense.transactions
          = d.last30DaysExpense.transactions ∧
        totalExpenses clientZone clientNow d.last30DaysExpense.transactions
          = d.last30DaysExpense.total) := by
  obtain ⟨d, hd, -, -, -, -, -, h30, h30t, -⟩ :=
    getDashboardData_fields dbSort zone now db userId
  have hsorted : d.last30DaysExpense.transactions.Pairwise
      (fun a b => b.doc.date ≤ a.doc.date) := by
    rw [h30, List.pairwise_map]
    exact dbSort.sorted _ _
  have hrec : recentExpenses clientZone clientNow d.last30DaysExpense.transactions
      = d.last30DaysExpense.transactions.filter
          (fun e => decide (clientZone.utc (clientZone.localTime clientNow - 30 * msPerDay)
            ≤ e.doc.date)) :=
    recentExpenses_of_sorted clientZone clientNow _ hsorted
  refine ⟨d, hd, hrec, ?_, rfl, ?_⟩
  · rw [hrec]
    exact List.filter_sublist _
  · intro hall
    have hsame : recentExpenses clientZone clientNow d.last30DaysExpense.transactions
        = d.last30DaysExpense.transactions := by
      rw [hrec, List.filter_eq_self]
      intro e he
      simpa using hall e he
    refine ⟨hsame, ?_⟩
    rw [totalExpenses_eq_foldl, hsame, h30t]

/-- In `sampleZone`, mounted on 15 April 2024 at 12:00 local time, the component
cuts at 16 March 12:00 local winter time, which is 11:00 UTC: of two expenses dated
16 March at 10:30 and at 11:00 UTC it keeps the second only. -/
theorem expensesList_sample_cutoff :
    setDateBack sampleZone sampleSpringNow 30 = 1710586800000 ∧
    (recentExpenses sampleZone sampleSpringNow
        [⟨⟨2, 7, none, "Food", 20, 1710586800000, 0, 0⟩, "expense"⟩,
         ⟨⟨1, 7, none, "Rent", 70, 1710585000000, 0, 0⟩, "expense"⟩]).map (fun e => e.doc._id)
      = [2] := by
  decide

/-! ## A zero amount -/

/-- With the amount sent as the text `"0"`, which Mongoose casts to the number 0,
`addExpense` and `addIncome` answer 201 and store a record with amount 0. -/
theorem add_text_zero_creates_record :
    addExpense sampleCastNumber sampleParseDate none 10 5 ⟨[], []⟩ 7
        ⟨none, some "Food", .text "0", some "2024-01-01"⟩
      = (⟨[], [⟨10, 7, none, "Food", 0, 1704067200000, 5, 5⟩]⟩,
          ⟨201, .data ⟨"Expense added successfully",
            ⟨10, 7, none, "Food", 0, 1704067200000, 5, 5⟩⟩⟩) ∧
    addIncome sampleCastNumber sampleParseDate none 10 5 ⟨[], []⟩ 7
        ⟨none, some "Salary", .text "0", some "2024-01-01"⟩
      = (⟨[⟨10, 7, none, "Salary", 0, 1704067200000, 5, 5⟩], []⟩,
          ⟨201, .data ⟨"Income added successfully",
            ⟨10, 7, none, "Salary", 0, 1704067200000, 5, 5⟩⟩⟩) := by
  decide

theorem addExpense_created_amount (castNumber parseDate : String → Option Int)
    (fault : Option JsError) (newId : ObjectId) (now : Int) (db : Db) (userId : ObjectId)
    (body : ExpenseBody) (message : String) (record : Expense)
    (h : (addExpense castNumber parseDate fault newId now db userId body).2
      = ⟨201, .data ⟨message, record⟩⟩) :
    missingAmount body.amount = false ∧
    castAmount castNumber body.amount = some record.amount := by
  unfold addExpense at h
  split at h
  · cases h
  · rename_i hm
    have hma : missingAmount body.amount = false := by
      cases hx : missingAmount body.amount
      · rfl
      · simp [hx] at hm
    refine ⟨hma, ?_⟩
    cases hv : validateTransaction "Expense" (body.category.getD "")
        (castAmount castNumber body.amount) (parseDate (body.date.getD "")) with
    | error e =>
      simp only [hv, bind, Except.bind] at h
      cases h
    | ok r =>
      obtain ⟨l, a, d⟩ := r
      have hok := validateTransaction_ok hv
      cases fault with
      | some e =>
        simp only [hv, bind, Except.bind, dbCall] at h
        cases h
      | none =>
        simp only [hv, bind, Except.bind, dbCall, pure, Except.pure] at h
        cases h
        exact hok.2.2.1

theorem addIncome_created_amount (castNumber parseDate : String → Option Int)
    (fault : Option JsError) (newId : ObjectId) (now : Int) (db : Db) (userId : ObjectId)
    (body : IncomeBody) (message : String) (record : Income)
    (h : (addIncome castNumber parseDate fault newId now db userId body).2
      = ⟨201, .data ⟨message, record⟩⟩) :
    missingAmount body.amount = false ∧
    castAmount castNumber body.amount = some record.amount := by
  unfold addIncome at h
  split at h
  · cases h
  · rename_i hm
    have hma : missingAmount body.amount = false := by
      cases hx : missingAmount body.amount
      · rfl
      · simp [hx] at hm
    refine ⟨hma, ?_⟩
    cases hv : validateTransaction "Income" (body.source.getD "")
        (castAmount castNumber body.amount) (parseDate (body.date.getD "")) with
    | error e =>
      simp only [hv, bind, Except.bind] at h
      cases h
    | ok r =>
      obtain ⟨l, a, d⟩ := r
      have hok := validateTransaction_ok hv
      cases fault with
      | some e =>
        simp only [hv, bind, Except.bind, dbCall] at h
        cases h
      | none =>
        simp only [hv, bind, Except.bind, dbCall, pure, Except.pure] at h
        cases h
        exact hok.2.2.1

/-- C29 (amended): whatever the database does, `addExpense` and `addIncome` answer
400 `All fields are required` and return the store unchanged whenever the amount
in the body is the number 0, also with the category (source) and the date
present; and a body whose amount is a number never creates a record with amount
0: the record a 201 answer carries has the submitted, non-zero amount. -/
theorem add_zero_amount (castNumber parseDate : String → Option Int)
    (fault : Option JsError) (newId : ObjectId) (now : Int) (db : Db) (userId : ObjectId) :
    (∀ (icon label date : Option String),
      addExpense castNumber parseDate fault newId now db userId ⟨icon, label, .number 0, date⟩
        = (db, ⟨400, .message "All fields are required"⟩) ∧
      addIncome castNumber parseDate fault newId now db userId ⟨icon, label, .number 0, date⟩
        = (db, ⟨400, .message "All fields are required"⟩)) ∧
    (∀ (icon label date : Option String) (n : Int) (message : String) (record : Expense),
      (addExpense castNumber parseDate fault newId now db userId
          ⟨icon, label, .number n, date⟩).2 = ⟨201, .data ⟨message, record⟩⟩ →
      record.amount = n ∧ record.amount ≠ 0) ∧
    (∀ (icon label date : Option String) (n : Int) (message : String) (record : Income),
      (addIncome castNumber parseDate fault newId now db userId
          ⟨icon, label, .number n, date⟩).2 = ⟨201, .data ⟨message, record⟩⟩ →
      record.amount = n ∧ record.amount ≠ 0) := by
  refine ⟨?_, ?_, ?_⟩
  · intro icon label date
    have hm : ∀ a b : Bool, (a || missingAmount (.number 0) || b) = true := by
      intro a b
      cases a <;> cases b <;> rfl
    constructor
    · unfold addExpense
      rw [if_pos (hm _ _)]
    · unfold addIncome
      rw [if_pos (hm _ _)]
  · intro icon label date n message record h
    obtain ⟨hma, hc⟩ := addExpense_created_amount _ _ _ _ _ _ _ _ _ _ h
    have hn : record.amount = n := by
      simpa [castAmount] using hc.symm
    refine ⟨hn, ?_⟩
    rw [hn]
    intro h0
    rw [h0] at hma
    cases hma
  · intro icon label date n message record h
    obtain ⟨hma, hc⟩ := addIncome_created_amount _ _ _ _ _ _ _ _ _ _ h
    have hn : record.amount = n := by
      simpa [castAmount] using hc.symm
    refine ⟨hn, ?_⟩
    rw [hn]
    intro h0
    rw [h0] at hma
    cases hma

/-! ## Windows against totals -/

theorem insertDesc_cons {α : Type} (key : α → Int) (a b : α) (l : List α) :
    insertDesc key a (b :: l)
      = if key b ≤ key a then a :: b :: l else b :: insertDesc key a l :=
  rfl

theorem insertDesc_of_ge {α : Type} (key : α → Int) (a : α) (l : List α)
    (h : ∀ c ∈ l, key c ≤ key a) : insertDesc key a l = a :: l := by
  cases l with
  | nil => rfl
  | cons c cs => rw [insertDesc_cons, if_pos (h c (List.mem_cons_self c cs))]

theorem insertDesc_filter {α : Type} (key : α → Int) (p : α → Bool) (a : α) (l : List α)
    (hs : l.Pairwise (fun x y => key y ≤ key x)) :
    (insertDesc key a l).filter p
      = if p a = true then insertDesc key a (l.filter p) else l.filter p := by
  induction l with
  | nil =>
    by_cases hpa : p a = true <;> simp [insertDesc, hpa]
  | cons b l ih =>
    rw [List.pairwise_cons] at hs
    rw [insertDesc_cons]
    by_cases hba : key b ≤ key a
    · have hhead : insertDesc key a ((b :: l).filter p) = a :: (b :: l).filter p := by
        apply insertDesc_of_ge
        intro c hc
        have hc' : c ∈ b :: l := (List.filter_sublist (b :: l)).subset hc
        rcases List.mem_cons.mp hc' with rfl | hc'
        · exact hba
        · exact le_trans (hs.1 c hc') hba
      rw [if_pos hba, hhead]
      by_cases hpa : p a = true
      · rw [if_pos hpa]
        exact List.filter_cons_of_pos hpa
      · rw [if_neg hpa]
        exact List.filter_cons_of_neg hpa
    · rw [if_neg hba]
      by_cases hpb : p b = true
      · rw [List.filter_cons_of_pos hpb, List.filter_cons_of_pos hpb, ih hs.2,
          insertDesc_cons, if_neg hba]
        by_cases hpa : p a = true
        · rw [if_pos hpa, if_pos hpa]
        · rw [if_neg hpa, if_neg hpa]
      · rw [List.filter_cons_of_neg hpb, List.filter_cons_of_neg hpb, ih hs.2]

theorem sortDesc_filter {α : Type} (key : α → Int) (p : α → Bool) (l : List α) :
    sortDesc key (l.filter p) = (sortDesc key l).filter p := by
  induction l with
  | nil => rfl
  | cons a l ih =>
    show _ = (insertDesc key a (sortDesc key l)).filter p
    rw [insertDesc_filter key p a _ (sortDesc_sorted key l), List.filter_cons]
    by_cases hpa : p a = true
    · rw [if_pos hpa, if_pos hpa, ← ih]
      rfl
    · rw [if_neg hpa, if_neg hpa, ih]

theorem pairwise_lt_of_sorted_of_ne {α : Type} (key : α → Int) (l : List α)
    (hs : l.Pairwise (fun a b => key b ≤ key a)) (hne : l.Pairwise (fun a b => key a ≠ key b)) :
    l.Pairwise (fun a b => key b < key a) :=
  (hs.and hne).imp (fun h => lt_of_le_of_ne h.1 (Ne.symm h.2))

theorem eq_of_perm_of_strictly_sorted {α : Type} (key : α → Int) (l₁ l₂ : List α)
    (hp : l₁.Perm l₂) (h₁ : l₁.Pairwise (fun a b => key b < key a))
    (h₂ : l₂.Pairwise (fun a b => key b < key a)) : l₁ = l₂ := by
  induction l₁ generalizing l₂ with
  | nil => exact (List.Perm.nil_eq hp)
  | cons a l ih =>
    cases l₂ with
    | nil => exact absurd hp.length_eq (by simp)
    | cons b m =>
      rw [List.pairwise_cons] at h₁ h₂
      have hab : a = b := by
        have ha : a ∈ b :: m := hp.subset (List.mem_cons_self a l)
        have hb : b ∈ a :: l := hp.symm.subset (List.mem_cons_self b m)
        rcases List.mem_cons.mp ha with h | ha
        · exact h
        · rcases List.mem_cons.mp hb with h | hb
          · exact h.symm
          · have := h₁.1 b hb
            have := h₂.1 a ha
            omega
      subst hab
      rw [ih m (List.Perm.cons_inv hp) h₁.2 h₂.2]

/-- On `sampleDbTiesWindow` at `sampleNow`, with a database that orders documents
of equal date differently according to how many documents match, the window query
(two matching documents) returns expense 1 before expense 2 and the full list
(three matching documents) expense 2 before expense 1: all amounts are `≥ 0` and
`last30DaysExpense.transactions` is not a sublist of `allExpenses`. -/
theorem window_not_sublist :
    (∀ r ∈ sampleDbTiesWindow.expenses, 0 ≤ r.amount) ∧
    (∀ r ∈ sampleDbTiesWindow.incomes, 0 ≤ r.amount) ∧
    ∃ d, getDashboardData paritySort none utcZone sampleNow sampleDbTiesWindow 7
        = ⟨200, .data d⟩ ∧
      d.last30DaysExpense.transactions.map (fun t => t.doc._id) = [1, 2] ∧
      d.allExpenses.map (fun t => t.doc._id) = [2, 1, 3] ∧
      ¬ d.last30DaysExpense.transactions.Sublist d.allExpenses := by
  refine ⟨by decide, by decide, _, rfl, by decide, by decide, ?_⟩
  decide

/-- C30 (amended): with the database answering, every record of
`last30DaysExpense.transactions` is a record of `allExpenses`, as many times (the
window is a permutation of a sublist of `allExpenses`).  It is a sublist of
`allExpenses`, in the same relative order, when no two expenses of the user have
the same date, and also when the database keeps documents of equal date in natural
order.  Nothing is said of the totals. -/
theorem windows_within_totals (dbSort : QuerySort) (zone : TimeZone) (now : Int) (db : Db)
    (userId : ObjectId) :
    (∃ d, getDashboardData dbSort none zone now db userId = ⟨200, .data d⟩ ∧
      d.last30DaysExpense.transactions.Subperm d.allExpenses ∧
      ((db.expenses.filter (fun r => r.userId = userId)).Pairwise
          (fun a b => a.date ≠ b.date) →
        d.last30DaysExpense.transactions.Sublist d.allExpenses)) ∧
    (∃ d, getDashboardData stableSort none zone now db userId = ⟨200, .data d⟩ ∧
      d.last30DaysExpense.transactions.Sublist d.allExpenses) := by
  constructor
  · obtain ⟨d, hd, -, -, -, -, -, h30, -, -, hall⟩ :=
      getDashboardData_fields dbSort zone now db userId
    rw [findBetween_eq_filter] at h30
    generalize hp : (fun r : Expense =>
      decide (setHours zone (setDateBack zone now 30) 0 0 0 0 ≤ Document.date r)
        && decide (Document.date r ≤ setHours zone now 23 59 59 999)) = p at h30
    have hperm : (dbSort.sort Expense.date ((findByUser db.expenses userId).filter p)).Perm
        ((dbSort.sort Expense.date (findByUser db.expenses userId)).filter p) :=
      (dbSort.perm _ _).trans ((dbSort.perm _ _).filter p).symm
    refine ⟨d, hd, ?_, ?_⟩
    · rw [h30, hall]
      exact ⟨_, (hperm.symm).map _, (List.filter_sublist _).map _⟩
    · intro hdistinct'
      have hdistinct : (findByUser db.expenses userId).Pairwise
          (fun a b => Expense.date a ≠ Expense.date b) := by
        rw [findByUser_eq_filter]
        exact hdistinct'
      have hneAll : (dbSort.sort Expense.date (findByUser db.expenses userId)).Pairwise
          (fun a b => Expense.date a ≠ Expense.date b) :=
        ((dbSort.perm Expense.date (findByUser db.expenses userId)).pairwise_iff
          (fun {a b} (h : Expense.date a ≠ Expense.date b) => Ne.symm h)).mpr hdistinct
      have hltAll := pairwise_lt_of_sorted_of_ne Expense.date _ (dbSort.sorted _ _) hneAll
      have hltFil := hltAll.sublist (List.filter_sublist (p := p) _)
      have hneWin : (dbSort.sort Expense.date ((findByUser db.expenses userId).filter p)).Pairwise
          (fun a b => Expense.date a ≠ Expense.date b) :=
        (hperm.pairwise_iff
          (fun {a b} (h : Expense.date a ≠ Expense.date b) => Ne.symm h)).mpr
          (hneAll.sublist (List.filter_sublist _))
      have hltWin := pairwise_lt_of_sorted_of_ne Expense.date _ (dbSort.sorted _ _) hneWin
      have heq := eq_of_perm_of_strictly_sorted Expense.date _ _ hperm hltWin hltFil
      rw [h30, hall, heq]
      exact (List.filter_sublist _).map _
  · obtain ⟨d, hd, -, -, -, -, -, h30, -, -, hall⟩ :=
      getDashboardData_fields stableSort zone now db userId
    refine ⟨d, hd, ?_⟩
    rw [h30, hall, findBetween_eq_filter]
    show (List.map _ (sortDesc Expense.date (List.filter _ _))).Sublist
      (List.map _ (sortDesc Expense.date _))
    rw [sortDesc_filter]
    exact (List.filter_sublist _).map _

/-- On `sampleDbWindow` at `sampleNow`, where the two expenses of user 7 have
different dates, the window is a sublist of the full list whatever the database
does with equal dates. -/
theorem windows_sample_sublist :
    ∃ d, getDashboardData paritySort none utcZone sampleNow sampleDbWindow 7
        = ⟨200, .data d⟩ ∧
      d.last30DaysExpense.transactions.map (fun t => t.doc._id) = [2, 1] ∧
      d.allExpenses.map (fun t => t.doc._id) = [2, 1] ∧
      d.last30DaysExpense.transactions.Sublist d.allExpenses := by
  refine ⟨_, rfl, by decide, by decide, ?_⟩
  decide

end ExpenseTracker
